import Mathlib

/-
Verification of the ASL compiler middle-end (type checker, t-code generator,
t-code to LLVM lowerer) against its natural-language specification.

The Lean definitions below are shallow embeddings of the C++ sources:
  - TypeCheckVisitor.cpp   (type checker)
  - CodeGenVisitor.cpp     (three-address code generator)
  - LLVMCodeGen.cpp        (t-code to LLVM IR lowerer, incl. check_SSA_tCode)
Components whose sources are not in the repository snapshot (TypesMgr,
SymTable, the t-code virtual machine) are modelled from the specification;
each such definition carries a doc comment saying so.
-/

/-! ## Types registry -/

/-- Structural types of the ASL language, mirroring the variants listed in
the spec (section 3.1): scalars, Void, Error, fixed-size arrays and function
signatures.  The C++ registry interns these structurally behind TypeIds;
structural equality of this inductive models TypesMgr.equalTypes. -/
inductive Ty where
  | tInt
  | tFloat
  | tBool
  | tChar
  | tVoid
  | tError
  | tArr (size : Nat) (elem : Ty)
  | tFun (params : List Ty) (ret : Ty)

mutual

/-- Structural equality test on types (TypesMgr.equalTypes: the registry
deduplicates structurally, so TypeId equality is structural equality). -/
def tyBeq : Ty → Ty → Bool
  | Ty.tInt, Ty.tInt => true
  | Ty.tFloat, Ty.tFloat => true
  | Ty.tBool, Ty.tBool => true
  | Ty.tChar, Ty.tChar => true
  | Ty.tVoid, Ty.tVoid => true
  | Ty.tError, Ty.tError => true
  | Ty.tArr n e, Ty.tArr m g => n == m && tyBeq e g
  | Ty.tFun ps r, Ty.tFun qs s => tyListBeq ps qs && tyBeq r s
  | _, _ => false

/-- Pointwise structural equality of parameter lists. -/
def tyListBeq : List Ty → List Ty → Bool
  | [], [] => true
  | a :: as, b :: bs => tyBeq a b && tyListBeq as bs
  | _, _ => false

end

instance : BEq Ty := BEq.mk tyBeq

theorem tyBeq_def (a b : Ty) : (a == b) = tyBeq a b := rfl

mutual

theorem tyBeq_refl : ∀ a, tyBeq a a = true
  | Ty.tInt => rfl
  | Ty.tFloat => rfl
  | Ty.tBool => rfl
  | Ty.tChar => rfl
  | Ty.tVoid => rfl
  | Ty.tError => rfl
  | Ty.tArr n e => by simp [tyBeq, tyBeq_refl e]
  | Ty.tFun ps r => by simp [tyBeq, tyBeq_refl r, tyListBeq_refl ps]

theorem tyListBeq_refl : ∀ as, tyListBeq as as = true
  | [] => rfl
  | a :: as => by simp [tyListBeq, tyBeq_refl a, tyListBeq_refl as]

end

mutual

theorem eq_of_tyBeq : ∀ a b, tyBeq a b = true → a = b
  | Ty.tInt, Ty.tInt, _ => rfl
  | Ty.tFloat, Ty.tFloat, _ => rfl
  | Ty.tBool, Ty.tBool, _ => rfl
  | Ty.tChar, Ty.tChar, _ => rfl
  | Ty.tVoid, Ty.tVoid, _ => rfl
  | Ty.tError, Ty.tError, _ => rfl
  | Ty.tArr n e, Ty.tArr m g, h => by
      simp only [tyBeq, Bool.and_eq_true, beq_iff_eq] at h
      rw [h.1, eq_of_tyBeq e g h.2]
  | Ty.tFun ps r, Ty.tFun qs s, h => by
      simp only [tyBeq, Bool.and_eq_true] at h
      rw [eq_of_tyListBeq ps qs h.1, eq_of_tyBeq r s h.2]

theorem eq_of_tyListBeq : ∀ as bs, tyListBeq as bs = true → as = bs
  | [], [], _ => rfl
  | a :: as, b :: bs, h => by
      simp only [tyListBeq, Bool.and_eq_true] at h
      rw [eq_of_tyBeq a b h.1, eq_of_tyListBeq as bs h.2]

end

instance : LawfulBEq Ty where
  eq_of_beq := by
    intro a b h
    exact eq_of_tyBeq a b h
  rfl := by
    intro a
    exact tyBeq_refl a

instance : DecidableEq Ty := fun a b =>
  decidable_of_iff (tyBeq a b = true)
    (Iff.intro (eq_of_tyBeq a b) (fun h => h ▸ tyBeq_refl a))

/-- Modelled from the spec: TypesMgr is not under src/.  isErrorTy. -/
def isErrorTy : Ty → Bool
  | Ty.tError => true
  | _ => false

/-- Modelled from the spec: TypesMgr is not under src/.  isIntegerTy. -/
def isIntegerTy : Ty → Bool
  | Ty.tInt => true
  | _ => false

/-- Modelled from the spec: TypesMgr is not under src/.  isFloatTy. -/
def isFloatTy : Ty → Bool
  | Ty.tFloat => true
  | _ => false

/-- Modelled from the spec: TypesMgr is not under src/.  isBooleanTy. -/
def isBooleanTy : Ty → Bool
  | Ty.tBool => true
  | _ => false

/-- Modelled from the spec: TypesMgr is not under src/.  isCharacterTy. -/
def isCharacterTy : Ty → Bool
  | Ty.tChar => true
  | _ => false

/-- Modelled from the spec: TypesMgr is not under src/.  isVoidTy. -/
def isVoidTy : Ty → Bool
  | Ty.tVoid => true
  | _ => false

/-- Modelled from the spec: TypesMgr is not under src/.  isArrayTy. -/
def isArrayTy : Ty → Bool
  | Ty.tArr _ _ => true
  | _ => false

/-- Modelled from the spec: TypesMgr is not under src/.  isFunctionTy. -/
def isFunctionTy : Ty → Bool
  | Ty.tFun _ _ => true
  | _ => false

/-- Modelled from the spec: TypesMgr is not under src/.  isNumericTy is
integer or float (section 3.1). -/
def isNumericTy (t : Ty) : Bool :=
  isIntegerTy t || isFloatTy t

/-- Modelled from the spec: TypesMgr is not under src/.  isPrimitiveTy holds
of the four scalar types (section 3.1). -/
def isPrimitiveTy (t : Ty) : Bool :=
  isIntegerTy t || isFloatTy t || isBooleanTy t || isCharacterTy t

/-- Modelled from the spec: TypesMgr is not under src/.  isVoidFunction. -/
def isVoidFunction : Ty → Bool
  | Ty.tFun _ Ty.tVoid => true
  | _ => false

/-- Modelled from the spec: TypesMgr is not under src/.  getArrayElemType
(meaningful only on array types). -/
def getArrayElemType : Ty → Ty
  | Ty.tArr _ e => e
  | _ => Ty.tError

/-- Modelled from the spec: TypesMgr is not under src/.  getArraySize
(meaningful only on array types). -/
def getArraySize : Ty → Nat
  | Ty.tArr n _ => n
  | _ => 0

/-- Modelled from the spec: TypesMgr is not under src/.  getFuncReturnType. -/
def getFuncReturnType : Ty → Ty
  | Ty.tFun _ r => r
  | _ => Ty.tError

/-- Modelled from the spec: TypesMgr is not under src/.  getFuncParamsTypes. -/
def getFuncParamsTypes : Ty → List Ty
  | Ty.tFun ps _ => ps
  | _ => []

/-- Modelled from the spec: TypesMgr is not under src/.  getNumOfParameters. -/
def getNumOfParameters (t : Ty) : Nat :=
  (getFuncParamsTypes t).length

/-- Modelled from the spec: TypesMgr is not under src/.  copyableTypes
(section 3.1): same type, or target Float and source Integer (same-shape
arrays are covered by structural equality). -/
def copyableTypes (target source : Ty) : Bool :=
  target == source || (isFloatTy target && isIntegerTy source)

/-- The six relational operators of the language. -/
inductive RelOp where
  | rEQ
  | rNEQ
  | rGT
  | rGE
  | rLT
  | rLE
deriving DecidableEq

/-- Modelled from the spec: TypesMgr is not under src/.  comparableTypes
(section 3.1): numerics cross-comparable; booleans only under equality and
inequality; otherwise same type. -/
def comparableTypes (a b : Ty) (op : RelOp) : Bool :=
  if isNumericTy a && isNumericTy b then true
  else if isBooleanTy a && isBooleanTy b then op == RelOp.rEQ || op == RelOp.rNEQ
  else a == b

/-! ## Symbol table -/

/-- Symbol classes distinguished by SymTable (local variable, parameter,
function). -/
inductive SymClass where
  | localVar
  | param
  | funcSym
deriving DecidableEq

/-- A symbol record: class and type. -/
structure SymInfo where
  klass : SymClass
  ty : Ty
deriving DecidableEq

/-- Modelled from the spec: SymTable is not under src/.  The visible scope
(stack lookup already resolved): identifier to symbol record. -/
def SymEnv : Type := String → Option SymInfo

/-- SymTable.findInStack succeeds (the source compares its result with -1). -/
def findsInStack (G : SymEnv) (id : String) : Bool :=
  (G id).isSome

/-- SymTable.getType of a visible identifier. -/
def envGetType (G : SymEnv) (id : String) : Ty :=
  match G id with
  | some s => s.ty
  | none => Ty.tError

/-- SymTable.isFunctionClass. -/
def isFunctionClass (G : SymEnv) (id : String) : Bool :=
  match G id with
  | some s => s.klass == SymClass.funcSym
  | none => false

/-- SymTable.isParameterClass. -/
def isParameterClass (G : SymEnv) (id : String) : Bool :=
  match G id with
  | some s => s.klass == SymClass.param
  | none => false

/-- SymTable.isLocalVarClass. -/
def isLocalVarClass (G : SymEnv) (id : String) : Bool :=
  match G id with
  | some s => s.klass == SymClass.localVar
  | none => false

/-! ## Abstract syntax (from the grammar Asl.g4) -/

/-- Unary operators (grammar rule: op=(NOT | PLUS | SUB) expr). -/
inductive UnOp where
  | uNOT
  | uPLUS
  | uSUB
deriving DecidableEq

/-- Binary arithmetic operators. -/
inductive ArithOp where
  | aMUL
  | aDIV
  | aMOD
  | aPLUS
  | aSUB
deriving DecidableEq

/-- Logical binary operators. -/
inductive LogicOp where
  | lAND
  | lOR
deriving DecidableEq

/-- Literal values (grammar rule value).  Integer literals are kept as
numbers (their program text is the decimal rendering); float and character
literals are kept as their token text (the character literal already
stripped of its surrounding quotes, as done by CodeGenVisitor). -/
inductive LitVal where
  | intL (n : Nat)
  | floatL (text : String)
  | boolL (b : Bool)
  | charL (text : String)
deriving DecidableEq

mutual

/-- Expressions (grammar rule expr).  The nonterminal ident is inlined as
the identifier string. -/
inductive Expr where
  | paren (e : Expr)
  | arrAccess (id : String) (idx : Expr)
  | callE (f : String) (args : ExprList)
  | unary (op : UnOp) (e : Expr)
  | arith (op : ArithOp) (e1 e2 : Expr)
  | rel (op : RelOp) (e1 e2 : Expr)
  | logicE (op : LogicOp) (e1 e2 : Expr)
  | lit (v : LitVal)
  | identE (id : String)

/-- Argument lists of calls (kept as a mutual inductive so that structural
recursion over expressions is available). -/
inductive ExprList where
  | nil
  | cons (e : Expr) (es : ExprList)

end

/-- Left expressions (grammar rule left_expr). -/
inductive LExpr where
  | simpleId (id : String)
  | arrayId (id : String) (idx : Expr)

mutual

/-- Statements (grammar rule statement). -/
inductive Stmt where
  | assign (l : LExpr) (e : Expr)
  | ifS (c : Expr) (thn : StmtList) (els : Option StmtList)
  | whileS (c : Expr) (body : StmtList)
  | procCall (f : String) (args : ExprList)
  | readS (l : LExpr)
  | writeE (e : Expr)
  | writeStr (s : String)
  | retS (e : Option Expr)

/-- Statement sequences (grammar rule statements). -/
inductive StmtList where
  | nil
  | cons (s : Stmt) (ss : StmtList)

end

/-- A function declaration: name, parameters with declared types, optional
return basic type, local variable declarations (flattened in source order)
and the body. -/
structure FuncDecl where
  name : String
  params : List (String × Ty)
  retTy : Option Ty
  decls : List (String × Ty)
  body : StmtList

/-! ## Type checker (TypeCheckVisitor.cpp)

Each expression visitor is translated to a function computing the type
decoration written by putTypeDecor (an Option: none when the visitor writes
no type decoration at all), the l-value decoration, and the number of
diagnostics the visitor emits at this node (not counting subexpressions). -/

/-- Result of one type-checker visit of an expression node: the type
decoration (none when putTypeDecor is never executed on the node), the
l-value flag, and the count of diagnostics emitted at the node itself. -/
structure TCOut where
  ty : Option Ty
  lval : Bool
  selfDiag : Nat
deriving DecidableEq

/-- TypeCheckVisitor.visitIdent: lookup in the scope stack; a missing
identifier yields one undeclaredIdent diagnostic, the Error decoration and
l-value true; otherwise the symbol type, with l-value false exactly for
function identifiers. -/
def tcIdent (G : SymEnv) (id : String) : TCOut :=
  if findsInStack G id = false then
    TCOut.mk (some Ty.tError) true 1
  else
    TCOut.mk (some (envGetType G id)) (!isFunctionClass G id) 0

/-- The stored type decoration read back by later visitors through
getTypeDecor; reading a node that was never decorated is modelled as the
Error type. -/
def outTy (o : TCOut) : Ty :=
  (o.ty).getD Ty.tError

/-- TypeCheckVisitor.visitValue: literal types, never an l-value. -/
def tcValue (v : LitVal) : TCOut :=
  match v with
  | LitVal.intL _ => TCOut.mk (some Ty.tInt) false 0
  | LitVal.floatL _ => TCOut.mk (some Ty.tFloat) false 0
  | LitVal.boolL _ => TCOut.mk (some Ty.tBool) false 0
  | LitVal.charL _ => TCOut.mk (some Ty.tChar) false 0

mutual

/-- The type-checker traversal of an expression, returning the decoration
of the node itself (TypeCheckVisitor.cpp, one case per labelled
alternative). -/
def tcExpr (G : SymEnv) : Expr → TCOut
  | Expr.paren e =>
      let o := tcExpr G e
      TCOut.mk (some (outTy o)) false 0
  | Expr.identE id => tcIdent G id
  | Expr.lit v => tcValue v
  | Expr.arrAccess id idx =>
      let oid := tcIdent G id
      let oidx := tcExpr G idx
      let texp := outTy oidx
      let t := outTy oid
      let d1 := if !isErrorTy texp && !isIntegerTy texp then 1 else 0
      let d2 := if !isErrorTy t && !isArrayTy t then 1 else 0
      let tdec : Option Ty :=
        if !isErrorTy t && !isArrayTy t then
          (if isArrayTy t then some (getArrayElemType t) else some Ty.tError)
        else
          (if isArrayTy t then some (getArrayElemType t) else none)
      TCOut.mk tdec oid.lval (d1 + d2)
  | Expr.callE f args =>
      let oid := tcIdent G f
      let t := outTy oid
      let argTys := tcArgs G args
      if isErrorTy t then
        TCOut.mk (some Ty.tError) false 0
      else if !isFunctionTy t then
        TCOut.mk none false 1
      else
        let tRet := envGetType G f
        let n := getNumOfParameters t
        if argTys.length ≠ n then
          TCOut.mk (some (getFuncReturnType tRet)) false 1
        else
          let tys := getFuncParamsTypes t
          let mism := List.zip argTys tys
          let dParams := (mism.filter fun p =>
            (p.1 != p.2) && !isErrorTy p.1 &&
              !(isIntegerTy p.1 && isFloatTy p.2)).length
          let dVoid := if isVoidFunction t then 1 else 0
          TCOut.mk (some (getFuncReturnType tRet)) false (dParams + dVoid)
  | Expr.unary op e =>
      let o := tcExpr G e
      let t := outTy o
      let d :=
        if !isErrorTy t then
          (if !isNumericTy t && (op == UnOp.uPLUS || op == UnOp.uSUB) then 1
           else if !isBooleanTy t && op == UnOp.uNOT then 1 else 0)
        else 0
      let tdec :=
        if op == UnOp.uNOT then Ty.tBool
        else if (op == UnOp.uPLUS || op == UnOp.uSUB) && isFloatTy t then Ty.tFloat
        else Ty.tInt
      TCOut.mk (some tdec) false d
  | Expr.arith op e1 e2 =>
      let t1 := outTy (tcExpr G e1)
      let t2 := outTy (tcExpr G e2)
      if op == ArithOp.aMOD then
        let d := if (!isErrorTy t1 && !isIntegerTy t1) ||
                    (!isErrorTy t2 && !isIntegerTy t2) then 1 else 0
        TCOut.mk (some Ty.tInt) false d
      else
        let d := if (!isErrorTy t1 && !isNumericTy t1) ||
                    (!isErrorTy t2 && !isNumericTy t2) then 1 else 0
        let tdec := if isFloatTy t1 || isFloatTy t2 then Ty.tFloat else Ty.tInt
        TCOut.mk (some tdec) false d
  | Expr.rel op e1 e2 =>
      let t1 := outTy (tcExpr G e1)
      let t2 := outTy (tcExpr G e2)
      let d := if !isErrorTy t1 && !isErrorTy t2 &&
                  !comparableTypes t1 t2 op then 1 else 0
      TCOut.mk (some Ty.tBool) false d
  | Expr.logicE _ e1 e2 =>
      let t1 := outTy (tcExpr G e1)
      let t2 := outTy (tcExpr G e2)
      let d := if (!isErrorTy t1 && !isBooleanTy t1) ||
                  (!isErrorTy t2 && !isBooleanTy t2) then 1 else 0
      TCOut.mk (some Ty.tBool) false d

/-- Types of the arguments of a call, in order. -/
def tcArgs (G : SymEnv) : ExprList → List Ty
  | ExprList.nil => []
  | ExprList.cons e es => outTy (tcExpr G e) :: tcArgs G es

end

/-- TypeCheckVisitor.visitSimpleIdent and visitArrayIdent: decoration of a
left expression. -/
def tcLExpr (G : SymEnv) : LExpr → TCOut
  | LExpr.simpleId id =>
      let o := tcIdent G id
      TCOut.mk (some (outTy o)) o.lval 0
  | LExpr.arrayId id idx =>
      let oid := tcIdent G id
      let oidx := tcExpr G idx
      let texp := outTy oidx
      let t := outTy oid
      let bad := !isErrorTy t && !isArrayTy t
      let d1 := if bad then 1 else 0
      let d2 := if !isErrorTy texp && !isIntegerTy texp then 1 else 0
      let isArr := !isErrorTy t && !bad
      let lv := if bad then false else oid.lval
      let dec0 := if bad then Ty.tError else t
      let dec := if isArr then getArrayElemType dec0 else dec0
      TCOut.mk (some dec) lv (d1 + d2)

/-! ## Helper lemmas about type predicates -/

theorem isErrorTy_iff (t : Ty) : isErrorTy t = true ↔ t = Ty.tError := by
  cases t <;> simp [isErrorTy]

theorem isErrorTy_tError : isErrorTy Ty.tError = true := rfl

/-- The empty visible scope. -/
def emptyEnv : SymEnv := fun _ => none

/-- A one-entry scope used by concrete witnesses. -/
def env1 : SymEnv := fun id =>
  if id = "x" then some (SymInfo.mk SymClass.localVar Ty.tInt)
  else if id = "f" then
    some (SymInfo.mk SymClass.funcSym (Ty.tFun [Ty.tInt] Ty.tInt))
  else none

/-- C6: identifier lookup in the type checker.  An identifier missing from
the scope stack produces one undeclaredIdent diagnostic, the Error type
decoration and l-value true; a found identifier is decorated with the
symbol's type, with l-value false exactly when the symbol is a function. -/
theorem claim_C6 (G : SymEnv) (id : String) :
    (G id = none →
      tcIdent G id = TCOut.mk (some Ty.tError) true 1) ∧
    ∀ s, G id = some s →
      tcIdent G id =
        TCOut.mk (some s.ty) (!(s.klass == SymClass.funcSym)) 0 := by
  constructor
  · intro h
    simp [tcIdent, findsInStack, h]
  · intro s h
    simp [tcIdent, findsInStack, h, envGetType, isFunctionClass]

theorem claim_C6_witness :
    tcIdent env1 "y" = TCOut.mk (some Ty.tError) true 1 ∧
    tcIdent env1 "x" = TCOut.mk (some Ty.tInt) true 0 ∧
    tcIdent env1 "f" =
      TCOut.mk (some (Ty.tFun [Ty.tInt] Ty.tInt)) false 0 := by
  refine And.intro ((claim_C6 env1 "y").1 (by decide)) (And.intro ?_ ?_)
  · exact (claim_C6 env1 "x").2 (SymInfo.mk SymClass.localVar Ty.tInt) (by decide)
  · exact (claim_C6 env1 "f").2
      (SymInfo.mk SymClass.funcSym (Ty.tFun [Ty.tInt] Ty.tInt)) (by decide)

theorem orElim_false {a b : Bool} (h : a = true ∨ b = true) (ha : a = false) :
    b = true := by
  rcases h with h | h
  · simp [h] at ha
  · exact h

/-- C2 counterexample: in the empty scope the identifier u is decorated
Error, yet the arithmetic node u + 1 is decorated Integer, not Error; and
the node u % 1.0 (Error left operand, non-integer right operand) does emit
a diagnostic.  Both refute the claimed absorbing decoration rule. -/
theorem claim_C2_counterexample :
    isErrorTy (outTy (tcExpr emptyEnv (Expr.identE "u"))) = true ∧
    (tcExpr emptyEnv (Expr.arith ArithOp.aPLUS (Expr.identE "u")
        (Expr.lit (LitVal.intL 1)))).ty = some Ty.tInt ∧
    some Ty.tInt ≠ some Ty.tError ∧
    (tcExpr emptyEnv (Expr.arith ArithOp.aMOD (Expr.identE "u")
        (Expr.lit (LitVal.floatL "1.0")))).selfDiag = 1 := by
  exact And.intro rfl (And.intro rfl (And.intro (by decide) rfl))

/-- C2 (amended): in every expression form (arithmetic, unary, logic,
relational, indexing, call) an Error operand never itself triggers a
diagnostic: every operand check is guarded by non-Error (for relational
operators any Error operand suppresses the check entirely, and a call
with an Error callee skips all checks of the call).  The node is not
decorated Error because of an Error operand alone: arithmetic, unary,
logic and relational nodes get the operator's natural result type
(Integer/Float/Boolean); only an indexing node whose base is Error and a
call whose callee is Error are (re)decorated Error. -/
theorem claim_C2 (G : SymEnv) :
    (∀ op e1 e2,
      (isErrorTy (outTy (tcExpr G e1)) = true ∨
        (if op == ArithOp.aMOD then isIntegerTy (outTy (tcExpr G e1))
         else isNumericTy (outTy (tcExpr G e1))) = true) →
      (isErrorTy (outTy (tcExpr G e2)) = true ∨
        (if op == ArithOp.aMOD then isIntegerTy (outTy (tcExpr G e2))
         else isNumericTy (outTy (tcExpr G e2))) = true) →
      (tcExpr G (Expr.arith op e1 e2)).selfDiag = 0) ∧
    (∀ op e1 e2, (tcExpr G (Expr.arith op e1 e2)).ty =
      some (if op == ArithOp.aMOD then Ty.tInt
            else if isFloatTy (outTy (tcExpr G e1)) ||
                    isFloatTy (outTy (tcExpr G e2)) then Ty.tFloat
            else Ty.tInt)) ∧
    (∀ uop e, isErrorTy (outTy (tcExpr G e)) = true →
      (tcExpr G (Expr.unary uop e)).selfDiag = 0 ∧
      (tcExpr G (Expr.unary uop e)).ty =
        some (if uop == UnOp.uNOT then Ty.tBool else Ty.tInt)) ∧
    (∀ lop e1 e2,
      (isErrorTy (outTy (tcExpr G e1)) = true ∨
        isBooleanTy (outTy (tcExpr G e1)) = true) →
      (isErrorTy (outTy (tcExpr G e2)) = true ∨
        isBooleanTy (outTy (tcExpr G e2)) = true) →
      (tcExpr G (Expr.logicE lop e1 e2)).selfDiag = 0) ∧
    (∀ lop e1 e2, (tcExpr G (Expr.logicE lop e1 e2)).ty = some Ty.tBool) ∧
    (∀ rop e1 e2,
      isErrorTy (outTy (tcExpr G e1)) = true ∨
        isErrorTy (outTy (tcExpr G e2)) = true →
      (tcExpr G (Expr.rel rop e1 e2)).selfDiag = 0) ∧
    (∀ rop e1 e2, (tcExpr G (Expr.rel rop e1 e2)).ty = some Ty.tBool) ∧
    (∀ id idx,
      (isErrorTy (outTy (tcExpr G idx)) = true ∨
        isIntegerTy (outTy (tcExpr G idx)) = true) →
      (isErrorTy (outTy (tcIdent G id)) = true ∨
        isArrayTy (outTy (tcIdent G id)) = true) →
      (tcExpr G (Expr.arrAccess id idx)).selfDiag = 0) ∧
    (∀ id idx, isErrorTy (outTy (tcIdent G id)) = true →
      outTy (tcExpr G (Expr.arrAccess id idx)) = Ty.tError) ∧
    (∀ id idx,
      (isErrorTy (outTy (tcExpr G idx)) = true ∨
        isIntegerTy (outTy (tcExpr G idx)) = true) →
      (isErrorTy (outTy (tcIdent G id)) = true ∨
        isArrayTy (outTy (tcIdent G id)) = true) →
      (tcLExpr G (LExpr.arrayId id idx)).selfDiag = 0) ∧
    (∀ f args, isErrorTy (outTy (tcIdent G f)) = true →
      (tcExpr G (Expr.callE f args)).selfDiag = 0 ∧
      (tcExpr G (Expr.callE f args)).ty = some Ty.tError) ∧
    (∀ f args,
      isFunctionTy (outTy (tcIdent G f)) = true →
      (tcArgs G args).length = getNumOfParameters (outTy (tcIdent G f)) →
      isVoidFunction (outTy (tcIdent G f)) = false →
      (∀ p ∈ List.zip (tcArgs G args)
          (getFuncParamsTypes (outTy (tcIdent G f))),
        isErrorTy p.1 = true ∨ p.1 = p.2 ∨
          (isIntegerTy p.1 = true ∧ isFloatTy p.2 = true)) →
      (tcExpr G (Expr.callE f args)).selfDiag = 0) := by
  refine ⟨?_, ?_, ?_, ?_, ?_, ?_, ?_, ?_, ?_, ?_, ?_, ?_⟩
  · intro op e1 e2 h1 h2
    by_cases hm : (op == ArithOp.aMOD) = true
    · simp only [hm, if_true] at h1 h2
      simp only [tcExpr, hm, if_true]
      simp
      exact And.intro (orElim_false h1) (orElim_false h2)
    · simp only [hm] at h1 h2
      simp only [Bool.not_eq_true] at hm
      simp only [Bool.false_eq_true, if_false] at h1 h2
      simp [tcExpr, hm]
      exact And.intro (orElim_false h1) (orElim_false h2)
  · intro op e1 e2
    by_cases hm : (op == ArithOp.aMOD) = true
    · simp [tcExpr, hm]
    · simp only [Bool.not_eq_true] at hm
      simp [tcExpr, hm]
  · intro uop e he
    rw [isErrorTy_iff] at he
    constructor
    · simp [tcExpr, he, isErrorTy]
    · by_cases hn : (uop == UnOp.uNOT) = true
      · simp [tcExpr, hn]
      · simp only [Bool.not_eq_true] at hn
        simp [tcExpr, hn, he, isFloatTy]
  · intro lop e1 e2 h1 h2
    simp [tcExpr]
    exact And.intro (orElim_false h1) (orElim_false h2)
  · intro lop e1 e2
    simp [tcExpr]
  · intro rop e1 e2 h
    rcases h with h | h <;> simp [tcExpr, h]
  · intro rop e1 e2
    simp [tcExpr]
  · intro id idx h1 h2
    have hd1 : (!isErrorTy (outTy (tcExpr G idx)) &&
        !isIntegerTy (outTy (tcExpr G idx))) = false := by
      rcases h1 with h | h <;> simp [h]
    have hd2 : (!isErrorTy (outTy (tcIdent G id)) &&
        !isArrayTy (outTy (tcIdent G id))) = false := by
      rcases h2 with h | h <;> simp [h]
    simp [tcExpr, hd1, hd2]
  · intro id idx h
    have ht : outTy (tcIdent G id) = Ty.tError := (isErrorTy_iff _).mp h
    simp only [tcExpr]
    rw [ht]
    simp [isErrorTy, isArrayTy, outTy]
  · intro id idx h1 h2
    have hd1 : (!isErrorTy (outTy (tcExpr G idx)) &&
        !isIntegerTy (outTy (tcExpr G idx))) = false := by
      rcases h1 with h | h <;> simp [h]
    have hd2 : (!isErrorTy (outTy (tcIdent G id)) &&
        !isArrayTy (outTy (tcIdent G id))) = false := by
      rcases h2 with h | h <;> simp [h]
    simp [tcLExpr, hd1, hd2]
  · intro f args h
    constructor <;> simp [tcExpr, h]
  · intro f args hf hlen hv hp
    have herr : isErrorTy (outTy (tcIdent G f)) = false := by
      cases ht : outTy (tcIdent G f) <;> rw [ht] at hf <;>
        simp [isFunctionTy, isErrorTy] at hf ⊢
    simp [tcExpr, herr, hf, hlen, hv]
    intro a b hmem hne hnerr
    rcases hp (a, b) hmem with h | h | ⟨ha, hb⟩
    · simp [hnerr] at h
    · exact absurd h hne
    · exact ⟨ha, hb⟩

theorem claim_C2_witness :
    (tcExpr emptyEnv (Expr.arith ArithOp.aSUB (Expr.identE "u")
        (Expr.identE "v"))).selfDiag = 0 ∧
    (tcExpr emptyEnv (Expr.arith ArithOp.aSUB (Expr.identE "u")
        (Expr.identE "v"))).ty = some Ty.tInt ∧
    (tcExpr emptyEnv (Expr.unary UnOp.uNOT (Expr.identE "u"))).selfDiag = 0 ∧
    (tcExpr emptyEnv (Expr.unary UnOp.uNOT (Expr.identE "u"))).ty =
      some Ty.tBool ∧
    (tcExpr emptyEnv (Expr.logicE LogicOp.lAND (Expr.identE "u")
        (Expr.lit (LitVal.boolL true)))).selfDiag = 0 ∧
    (tcExpr emptyEnv (Expr.rel RelOp.rLT (Expr.identE "u")
        (Expr.lit (LitVal.intL 3)))).selfDiag = 0 ∧
    (tcExpr emptyEnv (Expr.arrAccess "u" (Expr.identE "i"))).selfDiag = 0 ∧
    outTy (tcExpr emptyEnv (Expr.arrAccess "u" (Expr.identE "i"))) =
      Ty.tError ∧
    (tcLExpr emptyEnv (LExpr.arrayId "u" (Expr.identE "i"))).selfDiag = 0 ∧
    (tcExpr emptyEnv (Expr.callE "g" ExprList.nil)).selfDiag = 0 ∧
    (tcExpr emptyEnv (Expr.callE "g" ExprList.nil)).ty = some Ty.tError ∧
    (tcExpr env1 (Expr.callE "f"
        (ExprList.cons (Expr.identE "u") ExprList.nil))).selfDiag = 0 := by
  have h := claim_C2 emptyEnv
  have h1 := claim_C2 env1
  refine And.intro (h.1 ArithOp.aSUB (Expr.identE "u") (Expr.identE "v")
      (Or.inl (by decide)) (Or.inl (by decide))) ?_
  refine And.intro (by
    have h2 := h.2.1 ArithOp.aSUB (Expr.identE "u") (Expr.identE "v")
    simpa using h2) ?_
  refine And.intro ((h.2.2.1 UnOp.uNOT (Expr.identE "u") (by decide)).1) ?_
  refine And.intro (by
    have h3 := (h.2.2.1 UnOp.uNOT (Expr.identE "u") (by decide)).2
    simpa using h3) ?_
  refine And.intro (h.2.2.2.1 LogicOp.lAND (Expr.identE "u")
      (Expr.lit (LitVal.boolL true)) (Or.inl (by decide))
      (Or.inr (by decide))) ?_
  refine And.intro (h.2.2.2.2.2.1 RelOp.rLT (Expr.identE "u")
      (Expr.lit (LitVal.intL 3)) (Or.inl (by decide))) ?_
  refine And.intro (h.2.2.2.2.2.2.2.1 "u" (Expr.identE "i")
      (Or.inl (by decide)) (Or.inl (by decide))) ?_
  refine And.intro (h.2.2.2.2.2.2.2.2.1 "u" (Expr.identE "i")
      (by decide)) ?_
  refine And.intro (h.2.2.2.2.2.2.2.2.2.1 "u" (Expr.identE "i")
      (Or.inl (by decide)) (Or.inl (by decide))) ?_
  refine And.intro ((h.2.2.2.2.2.2.2.2.2.2.1 "g" ExprList.nil
      (by decide)).1) ?_
  refine And.intro ((h.2.2.2.2.2.2.2.2.2.2.1 "g" ExprList.nil
      (by decide)).2) ?_
  exact h1.2.2.2.2.2.2.2.2.2.2.2 "f"
    (ExprList.cons (Expr.identE "u") ExprList.nil)
    (by decide) (by decide) (by decide) (by decide)

/-! ## Three-address code (instruction and subroutine containers)

The container classes (code.h) are not under src/; their shape is modelled
from the spec (section 3.4) and from their uses in CodeGenVisitor.cpp and
LLVMCodeGen.cpp: an instruction is an operation code with up to three
string arguments. -/

/-- T-code operation codes (the full vocabulary used by the two passes). -/
inductive Op where
  | ADD
  | SUB
  | MUL
  | DIV
  | NEG
  | FADD
  | FSUB
  | FMUL
  | FDIV
  | FNEG
  | EQ
  | LT
  | LE
  | FEQ
  | FLT
  | FLE
  | AND
  | OR
  | NOT
  | FLOAT
  | LOAD
  | ILOAD
  | FLOAD
  | CHLOAD
  | ALOAD
  | XLOAD
  | LOADX
  | LOADC
  | CLOAD
  | LABEL
  | UJUMP
  | FJUMP
  | RETURN
  | HALT
  | PUSH
  | POP
  | CALL
  | READI
  | READF
  | READC
  | WRITEI
  | WRITEF
  | WRITEC
  | WRITES
  | WRITELN
  | NOOP
  | INVALID
deriving DecidableEq

/-- A t-code instruction: operation and up to three string arguments
(unused arguments are the empty string). -/
structure Instr where
  oper : Op
  arg1 : String
  arg2 : String
  arg3 : String
deriving DecidableEq

def iADD (a b c : String) : Instr := Instr.mk Op.ADD a b c

def iSUB (a b c : String) : Instr := Instr.mk Op.SUB a b c

def iMUL (a b c : String) : Instr := Instr.mk Op.MUL a b c

def iDIV (a b c : String) : Instr := Instr.mk Op.DIV a b c

def iNEG (a b : String) : Instr := Instr.mk Op.NEG a b ""

def iFADD (a b c : String) : Instr := Instr.mk Op.FADD a b c

def iFSUB (a b c : String) : Instr := Instr.mk Op.FSUB a b c

def iFMUL (a b c : String) : Instr := Instr.mk Op.FMUL a b c

def iFDIV (a b c : String) : Instr := Instr.mk Op.FDIV a b c

def iFNEG (a b : String) : Instr := Instr.mk Op.FNEG a b ""

def iEQ (a b c : String) : Instr := Instr.mk Op.EQ a b c

def iLT (a b c : String) : Instr := Instr.mk Op.LT a b c

def iLE (a b c : String) : Instr := Instr.mk Op.LE a b c

def iFEQ (a b c : String) : Instr := Instr.mk Op.FEQ a b c

def iFLT (a b c : String) : Instr := Instr.mk Op.FLT a b c

def iFLE (a b c : String) : Instr := Instr.mk Op.FLE a b c

def iAND (a b c : String) : Instr := Instr.mk Op.AND a b c

def iOR (a b c : String) : Instr := Instr.mk Op.OR a b c

def iNOT (a b : String) : Instr := Instr.mk Op.NOT a b ""

def iFLOAT (a b : String) : Instr := Instr.mk Op.FLOAT a b ""

def iLOAD (a b : String) : Instr := Instr.mk Op.LOAD a b ""

def iILOAD (a b : String) : Instr := Instr.mk Op.ILOAD a b ""

def iFLOAD (a b : String) : Instr := Instr.mk Op.FLOAD a b ""

def iCHLOAD (a b : String) : Instr := Instr.mk Op.CHLOAD a b ""

def iALOAD (a b : String) : Instr := Instr.mk Op.ALOAD a b ""

def iXLOAD (a b c : String) : Instr := Instr.mk Op.XLOAD a b c

def iLOADX (a b c : String) : Instr := Instr.mk Op.LOADX a b c

def iLABEL (l : String) : Instr := Instr.mk Op.LABEL l "" ""

def iUJUMP (l : String) : Instr := Instr.mk Op.UJUMP l "" ""

def iFJUMP (cond l : String) : Instr := Instr.mk Op.FJUMP cond l ""

def iRETURN0 : Instr := Instr.mk Op.RETURN "" "" ""

def iPUSH0 : Instr := Instr.mk Op.PUSH "" "" ""

def iPUSH (a : String) : Instr := Instr.mk Op.PUSH a "" ""

def iPOP0 : Instr := Instr.mk Op.POP "" "" ""

def iPOP (a : String) : Instr := Instr.mk Op.POP a "" ""

def iCALL (f : String) : Instr := Instr.mk Op.CALL f "" ""

def iREADI (a : String) : Instr := Instr.mk Op.READI a "" ""

def iREADF (a : String) : Instr := Instr.mk Op.READF a "" ""

def iREADC (a : String) : Instr := Instr.mk Op.READC a "" ""

def iWRITEI (a : String) : Instr := Instr.mk Op.WRITEI a "" ""

def iWRITEF (a : String) : Instr := Instr.mk Op.WRITEF a "" ""

def iWRITEC (a : String) : Instr := Instr.mk Op.WRITEC a "" ""

def iWRITES (s : String) : Instr := Instr.mk Op.WRITES s "" ""

def iNOOP : Instr := Instr.mk Op.NOOP "" "" ""

/-- A subroutine parameter record: local name, stringified scalar/element
type, by-reference flag (true exactly for array parameters). -/
structure ParamRec where
  name : String
  tyStr : String
  byRef : Bool
deriving DecidableEq

/-- A subroutine local-variable record: name, type string, element count. -/
structure VarRec where
  name : String
  tyStr : String
  size : Nat
deriving DecidableEq

/-- A t-code subroutine. -/
structure Subr where
  name : String
  params : List ParamRec
  vars : List VarRec
  instrs : List Instr
deriving DecidableEq

/-- Modelled from the spec: TypesMgr.to_string is not under src/; the code
generator only applies it to scalar types (and to element types of
arrays). -/
def toTyString : Ty → String
  | Ty.tInt => "int"
  | Ty.tFloat => "float"
  | Ty.tBool => "bool"
  | Ty.tChar => "char"
  | Ty.tVoid => "void"
  | Ty.tError => "error"
  | Ty.tArr _ _ => "array"
  | Ty.tFun _ _ => "function"

/-- Modelled from the spec: TypesMgr.getSizeOfType is not under src/; the
spec gives arrays size N and scalars element count 1. -/
def getSizeOfType : Ty → Nat
  | Ty.tArr n _ => n
  | _ => 1

/-! ## Code generator (CodeGenVisitor.cpp) -/

/-- The per-function counters of code.h (codeCounters): fresh temporaries
and fresh label suffixes per construct family; reset at function entry. -/
structure Counters where
  temps : Nat
  ifs : Nat
  whiles : Nat
deriving DecidableEq

/-- codeCounters.reset(). -/
def countersReset : Counters := Counters.mk 0 0 0

/-- codeCounters.newTEMP(): the next temporary number as a string (callers
prepend the percent sign), counting 1, 2, 3, ... from reset. -/
def newTEMP (c : Counters) : String × Counters :=
  (Nat.repr (c.temps + 1), Counters.mk (c.temps + 1) c.ifs c.whiles)

/-- codeCounters.newLabelIF(). -/
def newLabelIF (c : Counters) : String × Counters :=
  (Nat.repr (c.ifs + 1), Counters.mk c.temps (c.ifs + 1) c.whiles)

/-- codeCounters.newLabelWHILE() (also used for ArrayCpy labels). -/
def newLabelWHILE (c : Counters) : String × Counters :=
  (Nat.repr (c.whiles + 1), Counters.mk c.temps c.ifs (c.whiles + 1))

/-- The attribute triple returned by the expression visitors of
CodeGenVisitor: value address token, offset token (only for indexed left
expressions) and the instruction list computing the value. -/
structure CodeAttribs where
  addr : String
  offs : String
  code : List Instr
deriving DecidableEq

/-- The type decoration of an expression as read back by
CodeGenVisitor.getTypeDecor (written earlier by the type checker). -/
def decorTy (G : SymEnv) (e : Expr) : Ty := outTy (tcExpr G e)

/-- The type decoration of a left expression. -/
def decorLTy (G : SymEnv) (l : LExpr) : Ty := outTy (tcLExpr G l)

/-- The type decoration of the ident node of a call. -/
def identDecorTy (G : SymEnv) (f : String) : Ty := outTy (tcIdent G f)

/-- The body of the argument loop of visitCall and visitProcCall: given the
callee's expected parameter type, the argument's decorated type and the
argument's code attributes, insert the integer-to-float widening or the
ALOAD address-taking where required, returning the pushed address, the
accumulated code and the counters. -/
def callArgStep (G : SymEnv) (expected tparam : Ty)
    (pe : CodeAttribs × Counters) : String × List Instr × Counters :=
  if isFloatTy expected && isIntegerTy tparam then
    let pa := newTEMP pe.2
    (("%" ++ pa.1), (pe.1).code ++ [iFLOAT ("%" ++ pa.1) (pe.1).addr], pa.2)
  else if isArrayTy tparam && !isParameterClass G (pe.1).addr then
    let pa := newTEMP pe.2
    (("%" ++ pa.1), (pe.1).code ++ [iALOAD ("%" ++ pa.1) (pe.1).addr], pa.2)
  else ((pe.1).addr, (pe.1).code, pe.2)

mutual

/-- CodeGenVisitor expression visitors (one case per labelled grammar
alternative), threading the per-function counters. -/
def genExpr (G : SymEnv) : Expr → Counters → CodeAttribs × Counters
  | Expr.identE id, c => (CodeAttribs.mk id "" [], c)
  | Expr.paren e, c => genExpr G e c
  | Expr.lit v, c =>
      let p := newTEMP c
      let temp := "%" ++ p.1
      let code : List Instr :=
        match v with
        | LitVal.intL n => [iILOAD temp (Nat.repr n)]
        | LitVal.floatL s => [iFLOAD temp s]
        | LitVal.charL s => [iCHLOAD temp s]
        | LitVal.boolL b =>
            if b then [iILOAD temp "1"] else [iILOAD temp "0"]
      (CodeAttribs.mk temp "" code, p.2)
  | Expr.arrAccess id idx, c =>
      let pIdx := genExpr G idx c
      let code0 := ([] : List Instr) ++ (pIdx.1).code
      let pv := newTEMP pIdx.2
      let value := "%" ++ pv.1
      if isParameterClass G id then
        let pt := newTEMP pv.2
        let temp := "%" ++ pt.1
        (CodeAttribs.mk value ""
          (code0 ++ [iLOAD temp id, iLOADX value temp (pIdx.1).addr]), pt.2)
      else
        (CodeAttribs.mk value ""
          (code0 ++ [iLOADX value id (pIdx.1).addr]), pv.2)
  | Expr.unary op e, c =>
      let pe := genExpr G e c
      if op == UnOp.uPLUS then pe
      else
        let pt := newTEMP pe.2
        let temp := "%" ++ pt.1
        let t1 := decorTy G e
        let instr :=
          if op == UnOp.uNOT then iNOT temp (pe.1).addr
          else if isIntegerTy t1 then iNEG temp (pe.1).addr
          else iFNEG temp (pe.1).addr
        (CodeAttribs.mk temp "" ((pe.1).code ++ [instr]), pt.2)
  | Expr.arith op e1 e2, c =>
      let p1 := genExpr G e1 c
      let p2 := genExpr G e2 p1.2
      let code0 := (p1.1).code ++ (p2.1).code
      let t1 := decorTy G e1
      let t2 := decorTy G e2
      let t := decorTy G (Expr.arith op e1 e2)
      let isF := isFloatTy t
      let w1 :=
        if isF && !isFloatTy t1 then
          let pa := newTEMP p2.2
          (("%" ++ pa.1), code0 ++ [iFLOAT ("%" ++ pa.1) (p1.1).addr], pa.2)
        else ((p1.1).addr, code0, p2.2)
      let w2 :=
        if isF && !isFloatTy t2 then
          let pb := newTEMP w1.2.2
          (("%" ++ pb.1), w1.2.1 ++ [iFLOAT ("%" ++ pb.1) (p2.1).addr], pb.2)
        else ((p2.1).addr, w1.2.1, w1.2.2)
      let addr1 := w1.1
      let addr2 := w2.1
      let pt := newTEMP w2.2.2
      let temp := "%" ++ pt.1
      let code :=
        match op with
        | ArithOp.aMUL =>
            if isF then w2.2.1 ++ [iFMUL temp addr1 addr2]
            else w2.2.1 ++ [iMUL temp addr1 addr2]
        | ArithOp.aPLUS =>
            if isF then w2.2.1 ++ [iFADD temp addr1 addr2]
            else w2.2.1 ++ [iADD temp addr1 addr2]
        | ArithOp.aSUB =>
            if isF then w2.2.1 ++ [iFSUB temp addr1 addr2]
            else w2.2.1 ++ [iSUB temp addr1 addr2]
        | ArithOp.aDIV =>
            if isF then w2.2.1 ++ [iFDIV temp addr1 addr2]
            else w2.2.1 ++ [iDIV temp addr1 addr2]
        | ArithOp.aMOD =>
            w2.2.1 ++ [iDIV temp addr1 addr2, iMUL temp temp addr2,
              iSUB temp addr1 temp]
      (CodeAttribs.mk temp "" code, pt.2)
  | Expr.logicE op e1 e2, c =>
      let p1 := genExpr G e1 c
      let p2 := genExpr G e2 p1.2
      let code0 := (p1.1).code ++ (p2.1).code
      let pt := newTEMP p2.2
      let temp := "%" ++ pt.1
      let instr :=
        if op == LogicOp.lAND then iAND temp (p1.1).addr (p2.1).addr
        else iOR temp (p1.1).addr (p2.1).addr
      (CodeAttribs.mk temp "" (code0 ++ [instr]), pt.2)
  | Expr.rel op e1 e2, c =>
      let p1 := genExpr G e1 c
      let p2 := genExpr G e2 p1.2
      let code0 := (p1.1).code ++ (p2.1).code
      let t1 := decorTy G e1
      let t2 := decorTy G e2
      let q1 := newTEMP p2.2
      let temp1 := "%" ++ q1.1
      let q2 := newTEMP q1.2
      let temp2 := "%" ++ q2.1
      if !isFloatTy t1 && !isFloatTy t2 then
        let code :=
          match op with
          | RelOp.rEQ => code0 ++ [iEQ temp1 (p1.1).addr (p2.1).addr]
          | RelOp.rNEQ =>
              code0 ++ [iEQ temp2 (p1.1).addr (p2.1).addr, iNOT temp1 temp2]
          | RelOp.rGE =>
              code0 ++ [iLT temp2 (p1.1).addr (p2.1).addr, iNOT temp1 temp2]
          | RelOp.rGT =>
              code0 ++ [iLE temp2 (p1.1).addr (p2.1).addr, iNOT temp1 temp2]
          | RelOp.rLE => code0 ++ [iLE temp1 (p1.1).addr (p2.1).addr]
          | RelOp.rLT => code0 ++ [iLT temp1 (p1.1).addr (p2.1).addr]
        (CodeAttribs.mk temp1 "" code, q2.2)
      else
        let f1 :=
          if !isFloatTy t1 then
            let pa := newTEMP q2.2
            (("%" ++ pa.1), code0 ++ [iFLOAT ("%" ++ pa.1) (p1.1).addr], pa.2)
          else ((p1.1).addr, code0, q2.2)
        let f2 :=
          if !isFloatTy t2 then
            let pb := newTEMP f1.2.2
            (("%" ++ pb.1), f1.2.1 ++ [iFLOAT ("%" ++ pb.1) (p2.1).addr], pb.2)
          else ((p2.1).addr, f1.2.1, f1.2.2)
        let addrF1 := f1.1
        let addrF2 := f2.1
        let code :=
          match op with
          | RelOp.rEQ => f2.2.1 ++ [iFEQ temp1 addrF1 addrF2]
          | RelOp.rNEQ => f2.2.1 ++ [iFEQ temp2 addrF1 addrF2, iNOT temp1 temp2]
          | RelOp.rGE => f2.2.1 ++ [iFLT temp2 addrF1 addrF2, iNOT temp1 temp2]
          | RelOp.rGT => f2.2.1 ++ [iFLE temp2 addrF1 addrF2, iNOT temp1 temp2]
          | RelOp.rLE => f2.2.1 ++ [iFLE temp1 addrF1 addrF2]
          | RelOp.rLT => f2.2.1 ++ [iFLT temp1 addrF1 addrF2]
        (CodeAttribs.mk temp1 "" code, f2.2.2)
  | Expr.callE f args, c =>
      let pt := newTEMP c
      let temp := "%" ++ pt.1
      let typesParams := getFuncParamsTypes (identDecorTy G f)
      let pargs := genCallArgs G typesParams 0 args pt.2
      let code := iPUSH0 :: pargs.1 ++ [iCALL f] ++
        List.replicate (exprListLength args) iPOP0 ++ [iPOP temp]
      (CodeAttribs.mk temp "" code, pargs.2)

/-- The argument loop of CodeGenVisitor.visitCall and visitProcCall: for
each argument, its evaluation code, an integer-to-float widening when the
callee expects a float, an ALOAD when the argument is an array not already
a by-reference parameter, and a PUSH of the resulting address. -/
def genCallArgs (G : SymEnv) (tps : List Ty) (i : Nat) :
    ExprList → Counters → List Instr × Counters
  | ExprList.nil, c => ([], c)
  | ExprList.cons e es, c =>
      let step := callArgStep G (tps.getD i Ty.tError) (decorTy G e)
        (genExpr G e c)
      let rest := genCallArgs G tps (i + 1) es step.2.2
      (step.2.1 ++ [iPUSH step.1] ++ rest.1, rest.2)

/-- Number of elements of an argument list. -/
def exprListLength : ExprList → Nat
  | ExprList.nil => 0
  | ExprList.cons _ es => exprListLength es + 1

end

/-- CodeGenVisitor.visitSimpleIdent and visitArrayIdent: code attributes of
a left expression (for an indexed left expression on a by-reference
parameter the pointer is first LOADed into a fresh temporary). -/
def genLExpr (G : SymEnv) : LExpr → Counters → CodeAttribs × Counters
  | LExpr.simpleId id, c => (CodeAttribs.mk id "" [], c)
  | LExpr.arrayId id idx, c =>
      let pIdx := genExpr G idx c
      let code := ([] : List Instr) ++ (pIdx.1).code
      if isParameterClass G id then
        let pt := newTEMP pIdx.2
        let temp := "%" ++ pt.1
        (CodeAttribs.mk temp (pIdx.1).addr (code ++ [iLOAD temp id]), pt.2)
      else
        (CodeAttribs.mk id (pIdx.1).addr code, pIdx.2)

mutual

/-- CodeGenVisitor statement visitors. -/
def genStmt (G : SymEnv) : Stmt → Counters → List Instr × Counters
  | Stmt.assign l e, c =>
      let pl := genLExpr G l c
      let pe := genExpr G e pl.2
      let tid1 := decorLTy G l
      let tid2 := decorTy G e
      let code0 := (pl.1).code ++ (pe.1).code
      if isArrayTy tid1 && isArrayTy tid2 then
        let plbl := newLabelWHILE pe.2
        let labelSTART := "ArrayCpy" ++ plbl.1
        let labelEND := "End" ++ labelSTART
        let s1 :=
          if !isLocalVarClass G (pl.1).addr then
            let p7 := newTEMP plbl.2
            (("%" ++ p7.1), code0 ++ [iLOAD ("%" ++ p7.1) (pl.1).addr], p7.2)
          else ((pl.1).addr, code0, plbl.2)
        let s2 :=
          if !isLocalVarClass G (pe.1).addr then
            let p6 := newTEMP s1.2.2
            (("%" ++ p6.1), s1.2.1 ++ [iLOAD ("%" ++ p6.1) (pe.1).addr], p6.2)
          else ((pe.1).addr, s1.2.1, s1.2.2)
        let addr1 := s1.1
        let addr2 := s2.1
        let numElements := Nat.repr (getArraySize tid1 - 1)
        let pOne := newTEMP s2.2.2
        let constantOne := "%" ++ pOne.1
        let pZero := newTEMP pOne.2
        let constantZero := "%" ++ pZero.1
        let pI := newTEMP pZero.2
        let iTemp := "%" ++ pI.1
        let pCond := newTEMP pI.2
        let condTemp := "%" ++ pCond.1
        let pElem := newTEMP pCond.2
        let elemTemp := "%" ++ pElem.1
        (s2.2.1 ++
          [iLOAD iTemp numElements,
           iILOAD constantZero "0",
           iILOAD constantOne "1",
           iLABEL labelSTART,
           iLE condTemp constantZero iTemp,
           iFJUMP condTemp labelEND,
           iLOADX elemTemp addr2 iTemp,
           iXLOAD addr1 iTemp elemTemp,
           iSUB iTemp iTemp constantOne,
           iUJUMP labelSTART,
           iLABEL labelEND], pElem.2)
      else
        let w :=
          if isFloatTy tid1 && isIntegerTy tid2 then
            let pf := newTEMP pe.2
            (("%" ++ pf.1), code0 ++ [iFLOAT ("%" ++ pf.1) (pe.1).addr], pf.2)
          else ((pe.1).addr, code0, pe.2)
        if (pl.1).offs != "" then
          (w.2.1 ++ [iXLOAD (pl.1).addr (pl.1).offs w.1], w.2.2)
        else
          (w.2.1 ++ [iLOAD (pl.1).addr w.1], w.2.2)
  | Stmt.ifS cnd thn els, c =>
      let pc := genExpr G cnd c
      match els with
      | none =>
          let p2 := genStmtList G thn pc.2
          let plbl := newLabelIF p2.2
          let labelEndIf := "Endif" ++ plbl.1
          ((pc.1).code ++ [iFJUMP (pc.1).addr labelEndIf] ++ p2.1 ++
            [iLABEL labelEndIf], plbl.2)
      | some ss =>
          let p2 := genStmtList G thn pc.2
          let p3 := genStmtList G ss p2.2
          let plbl := newLabelIF p3.2
          let lab1 := "If" ++ plbl.1
          let lab2 := "Else" ++ plbl.1
          ((pc.1).code ++ [iFJUMP (pc.1).addr lab1] ++ p2.1 ++
            [iUJUMP lab2, iLABEL lab1] ++ p3.1 ++ [iLABEL lab2], plbl.2)
  | Stmt.whileS cnd body, c =>
      let pc := genExpr G cnd c
      let p2 := genStmtList G body pc.2
      let plbl := newLabelWHILE p2.2
      let lab1 := "While" ++ plbl.1
      let lab2 := "EndWhile" ++ plbl.1
      ([iLABEL lab1] ++ (pc.1).code ++ [iFJUMP (pc.1).addr lab2] ++ p2.1 ++
        [iUJUMP lab1, iLABEL lab2], plbl.2)
  | Stmt.procCall f args, c =>
      let t := identDecorTy G f
      let typesParams := getFuncParamsTypes t
      let lead : List Instr := if !isVoidFunction t then [iPUSH0] else []
      let pargs := genCallArgs G typesParams 0 args c
      let trail : List Instr := if !isVoidFunction t then [iPOP0] else []
      (lead ++ pargs.1 ++ [iCALL f] ++
        List.replicate (exprListLength args) iPOP0 ++ trail, pargs.2)
  | Stmt.readS l, c =>
      let pl := genLExpr G l c
      let tid1 := decorLTy G l
      if (pl.1).offs != "" then
        let pt := newTEMP pl.2
        let temp := "%" ++ pt.1
        let rd :=
          if isIntegerTy tid1 || isBooleanTy tid1 then iREADI temp
          else if isFloatTy tid1 then iREADF temp
          else iREADC temp
        ((pl.1).code ++ [rd, iXLOAD (pl.1).addr (pl.1).offs temp], pt.2)
      else
        let rd :=
          if isIntegerTy tid1 || isBooleanTy tid1 then iREADI (pl.1).addr
          else if isFloatTy tid1 then iREADF (pl.1).addr
          else iREADC (pl.1).addr
        ((pl.1).code ++ [rd], pl.2)
  | Stmt.writeE e, c =>
      let pe := genExpr G e c
      let tid1 := decorTy G e
      let wr : List Instr :=
        if isIntegerTy tid1 || isBooleanTy tid1 then [iWRITEI (pe.1).addr]
        else if isFloatTy tid1 then [iWRITEF (pe.1).addr]
        else if isCharacterTy tid1 then [iWRITEC (pe.1).addr]
        else []
      ((pe.1).code ++ wr, pe.2)
  | Stmt.writeStr s, c => ([iWRITES s], c)
  | Stmt.retS none, c => ([iRETURN0], c)
  | Stmt.retS (some e), c =>
      let pe := genExpr G e c
      ((pe.1).code ++ [iLOAD "_result" (pe.1).addr, iRETURN0], pe.2)

/-- CodeGenVisitor.visitStatements: concatenation in order. -/
def genStmtList (G : SymEnv) : StmtList → Counters → List Instr × Counters
  | StmtList.nil, c => ([], c)
  | StmtList.cons s ss, c =>
      let p1 := genStmt G s c
      let p2 := genStmtList G ss p1.2
      (p1.1 ++ p2.1, p2.2)

end

/-- CodeGenVisitor.visitFunction: reset the counters, collect local
variables and parameters (an optional return basic type adds the synthetic
parameter _result first; array parameters are recorded by reference with
their element type), generate the body and append a trailing RETURN. -/
def genFunction (G : SymEnv) (f : FuncDecl) : Subr :=
  let lvars := f.decls.map (fun d =>
    if isArrayTy d.2 then
      VarRec.mk d.1 (toTyString (getArrayElemType d.2)) (getSizeOfType d.2)
    else VarRec.mk d.1 (toTyString d.2) (getSizeOfType d.2))
  let ps0 : List ParamRec :=
    match f.retTy with
    | some t => [ParamRec.mk "_result" (toTyString t) false]
    | none => []
  let ps := ps0 ++ f.params.map (fun d =>
    if isArrayTy d.2 then ParamRec.mk d.1 (toTyString (getArrayElemType d.2)) true
    else ParamRec.mk d.1 (toTyString d.2) false)
  let body := genStmtList G f.body countersReset
  Subr.mk f.name ps lvars (body.1 ++ [iRETURN0])

/-- Modelled from the spec: the symbol collector (section 4.1) is not under
src/.  The visible scope inside a function body: parameters and local
variables of the function shadow the global scope. -/
def funcScope (Gg : SymEnv) (f : FuncDecl) : SymEnv := fun id =>
  match f.params.find? (fun d => d.1 == id) with
  | some d => some (SymInfo.mk SymClass.param d.2)
  | none =>
      match f.decls.find? (fun d => d.1 == id) with
      | some d => some (SymInfo.mk SymClass.localVar d.2)
      | none => Gg id

/-- Modelled from the spec: the symbol collector (section 4.1) is not under
src/.  The global scope binds each function name to its signature. -/
def globalScope (fs : List FuncDecl) : SymEnv := fun id =>
  match fs.find? (fun f => f.name == id) with
  | some f =>
      some (SymInfo.mk SymClass.funcSym
        (Ty.tFun (f.params.map Prod.snd) ((f.retTy).getD Ty.tVoid)))
  | none => none

/-- CodeGenVisitor.visitProgram: one subroutine per function, each
generated in its own scope with the counters freshly reset (the reset is
inside genFunction, mirroring codeCounters.reset() in visitFunction). -/
def genProgram (fs : List FuncDecl) : List Subr :=
  fs.map (fun f => genFunction (funcScope (globalScope fs) f) f)

/-! ## The SSA pre-check of the LLVM lowerer (LLVMCodeGen.check_SSA_tCode) -/

/-- LLVMCodeGen.isTCodeTemporal: at least two characters, the first a
percent sign, the second a decimal digit. -/
def isTCodeTemporal (s : String) : Bool :=
  match s.data with
  | c0 :: c1 :: _ => c0 == '%' && c1.isDigit
  | _ => false

/-- The destination counted by check_SSA_tCode for one instruction: the
opcodes of its switch (no value destination in arg1) are skipped, any other
instruction counts a temporal arg1 as one assignment. -/
def ssaDest (i : Instr) : Option String :=
  match i.oper with
  | Op.LABEL => none
  | Op.UJUMP => none
  | Op.FJUMP => none
  | Op.HALT => none
  | Op.PUSH => none
  | Op.RETURN => none
  | Op.XLOAD => none
  | Op.CLOAD => none
  | Op.WRITEI => none
  | Op.WRITEF => none
  | Op.WRITEC => none
  | Op.WRITES => none
  | Op.WRITELN => none
  | Op.NOOP => none
  | Op.INVALID => none
  | _ => if isTCodeTemporal i.arg1 then some i.arg1 else none

/-- All counted temporary assignments of an instruction list, in order. -/
def ssaDests (l : List Instr) : List String := l.filterMap ssaDest

/-- check_SSA_tCode on one subroutine: some temporary is assigned more than
once. -/
def subrHasDupTemp (s : Subr) : Bool :=
  (ssaDests s.instrs).any (fun t => 1 < (ssaDests s.instrs).count t)

/-- LLVMCodeGen.check_SSA_tCode fails: some subroutine of the t-code has a
multiply-assigned temporary. -/
def check_SSA_fails (subrs : List Subr) : Bool := subrs.any subrHasDupTemp

/-! ## Whole-program diagnostics (acceptance) -/

mutual

/-- Total number of diagnostics emitted while type checking an expression
(the node's own diagnostics plus those of all subexpressions, including
undeclaredIdent diagnostics of visited ident children). -/
def tcExprDiags (G : SymEnv) : Expr → Nat
  | Expr.paren e => tcExprDiags G e
  | Expr.identE id => (tcIdent G id).selfDiag
  | Expr.lit _ => 0
  | Expr.arrAccess id idx =>
      (tcIdent G id).selfDiag + tcExprDiags G idx +
        (tcExpr G (Expr.arrAccess id idx)).selfDiag
  | Expr.callE f args =>
      (tcIdent G f).selfDiag + tcArgsDiags G args +
        (tcExpr G (Expr.callE f args)).selfDiag
  | Expr.unary op e =>
      tcExprDiags G e + (tcExpr G (Expr.unary op e)).selfDiag
  | Expr.arith op e1 e2 =>
      tcExprDiags G e1 + tcExprDiags G e2 +
        (tcExpr G (Expr.arith op e1 e2)).selfDiag
  | Expr.rel op e1 e2 =>
      tcExprDiags G e1 + tcExprDiags G e2 +
        (tcExpr G (Expr.rel op e1 e2)).selfDiag
  | Expr.logicE op e1 e2 =>
      tcExprDiags G e1 + tcExprDiags G e2 +
        (tcExpr G (Expr.logicE op e1 e2)).selfDiag

/-- Total diagnostics of an argument list. -/
def tcArgsDiags (G : SymEnv) : ExprList → Nat
  | ExprList.nil => 0
  | ExprList.cons e es => tcExprDiags G e + tcArgsDiags G es

end

/-- Total diagnostics of a left expression. -/
def tcLExprDiags (G : SymEnv) : LExpr → Nat
  | LExpr.simpleId id => (tcIdent G id).selfDiag
  | LExpr.arrayId id idx =>
      (tcIdent G id).selfDiag + tcExprDiags G idx +
        (tcLExpr G (LExpr.arrayId id idx)).selfDiag

/-- TypeCheckVisitor.visitProcCall: diagnostics emitted at the statement
node itself (isNotCallable, numberOfParameters, incompatibleParameter; no
isNotFunction check, unlike calls in expression position). -/
def tcProcCallSelfDiag (G : SymEnv) (f : String) (args : ExprList) : Nat :=
  let t := identDecorTy G f
  if isErrorTy t then 0
  else if !isFunctionTy t then 1
  else
    let argTys := tcArgs G args
    if argTys.length ≠ getNumOfParameters t then 1
    else
      ((List.zip argTys (getFuncParamsTypes t)).filter fun p =>
        (p.1 != p.2) && !isErrorTy p.1 &&
          !(isIntegerTy p.1 && isFloatTy p.2)).length

mutual

/-- Total diagnostics emitted while type checking a statement, given the
type Function([], ret) the checker computed for the enclosing function. -/
def tcStmtDiags (G : SymEnv) (fty : Ty) : Stmt → Nat
  | Stmt.assign l e =>
      let t1 := decorLTy G l
      let t2 := decorTy G e
      tcLExprDiags G l + tcExprDiags G e +
        (if !isErrorTy t1 && !isErrorTy t2 && !isVoidTy t2 &&
            !copyableTypes t1 t2 then 1 else 0) +
        (if !isErrorTy t1 && !(tcLExpr G l).lval then 1 else 0)
  | Stmt.ifS cnd thn els =>
      let t1 := decorTy G cnd
      tcExprDiags G cnd +
        (if !isErrorTy t1 && !isBooleanTy t1 then 1 else 0) +
        tcStmtListDiags G fty thn +
        (match els with
         | none => 0
         | some ss => tcStmtListDiags G fty ss)
  | Stmt.whileS cnd body =>
      let t1 := decorTy G cnd
      tcExprDiags G cnd +
        (if !isErrorTy t1 && !isBooleanTy t1 then 1 else 0) +
        tcStmtListDiags G fty body
  | Stmt.procCall f args =>
      (tcIdent G f).selfDiag + tcArgsDiags G args + tcProcCallSelfDiag G f args
  | Stmt.readS l =>
      let t1 := decorLTy G l
      tcLExprDiags G l +
        (if !isErrorTy t1 && !isPrimitiveTy t1 && !isFunctionTy t1
         then 1 else 0) +
        (if !isErrorTy t1 && !(tcLExpr G l).lval then 1 else 0)
  | Stmt.writeE e =>
      let t1 := decorTy G e
      tcExprDiags G e +
        (if !isErrorTy t1 && !isPrimitiveTy t1 then 1 else 0)
  | Stmt.writeStr _ => 0
  | Stmt.retS none => if !isVoidFunction fty then 1 else 0
  | Stmt.retS (some e) =>
      let te := decorTy G e
      let tr := getFuncReturnType fty
      tcExprDiags G e +
        (if !isErrorTy te && isVoidFunction fty then 1
         else if !isErrorTy te && te ≠ tr &&
             !(isFloatTy tr && isIntegerTy te) then 1
         else 0)

/-- Total diagnostics of a statement sequence. -/
def tcStmtListDiags (G : SymEnv) (fty : Ty) : StmtList → Nat
  | StmtList.nil => 0
  | StmtList.cons s ss => tcStmtDiags G fty s + tcStmtListDiags G fty ss

end

/-- TypeCheckVisitor.visitFunction: the checker builds the function type
with an empty parameter list and the declared (or Void) return type, then
checks the body in the function scope. -/
def tcFunctionDiags (Gg : SymEnv) (f : FuncDecl) : Nat :=
  tcStmtListDiags (funcScope Gg f) (Ty.tFun [] ((f.retTy).getD Ty.tVoid))
    f.body

/-- Modelled from the spec: SymTable.noMainProperlyDeclared is not under
src/; a program must declare main as a parameterless void function. -/
def mainProperlyDeclared (fs : List FuncDecl) : Bool :=
  match globalScope fs "main" with
  | some s => s.klass == SymClass.funcSym && s.ty == Ty.tFun [] Ty.tVoid
  | none => false

/-- Total semantic diagnostics of a program (TypeCheckVisitor.visitProgram:
every function checked in order, then the main check). -/
def programDiags (fs : List FuncDecl) : Nat :=
  (fs.map (tcFunctionDiags (globalScope fs))).sum +
    (if mainProperlyDeclared fs then 0 else 1)

/-- An accepted source program: no duplicate declarations (the symbol
collector's declaredIdent check, modelled from the spec since the collector
is not under src/) and no type-checker diagnostics. -/
def acceptedProgram (fs : List FuncDecl) : Prop :=
  (fs.map FuncDecl.name).Nodup ∧
  (∀ f ∈ fs, ((f.params ++ f.decls).map Prod.fst).Nodup) ∧
  programDiags fs = 0

instance (fs : List FuncDecl) : Decidable (acceptedProgram fs) := by
  unfold acceptedProgram
  infer_instance

/-- The concrete program refuting C1: a correctly typed main whose body
uses the modulus operator and an array-to-array assignment. -/
def cexFun : FuncDecl :=
  FuncDecl.mk "main" [] none
    [("x", Ty.tInt), ("a", Ty.tInt), ("b", Ty.tInt),
     ("c", Ty.tArr 3 Ty.tInt), ("d", Ty.tArr 3 Ty.tInt)]
    (StmtList.cons
      (Stmt.assign (LExpr.simpleId "x")
        (Expr.arith ArithOp.aMOD (Expr.identE "a") (Expr.identE "b")))
      (StmtList.cons
        (Stmt.assign (LExpr.simpleId "d") (Expr.identE "c"))
        StmtList.nil))

/-- C1 counterexample: the program [cexFun] is accepted (no diagnostics,
no duplicate declarations, main properly declared), yet the emitted t-code
fails the lowerer's pseudo-SSA pre-check: the modulus lowering assigns its
result temporary three times and the array-copy loop assigns its index
temporary twice. -/
theorem claim_C1_counterexample :
    acceptedProgram [cexFun] ∧
    check_SSA_fails (genProgram [cexFun]) = true ∧
    (ssaDests (genFunction (funcScope (globalScope [cexFun]) cexFun)
      cexFun).instrs).count "%1" = 3 := by
  refine And.intro (by decide) (And.intro (by decide) (by decide))

/-! ## Call protocol (C3) and relational lowering (C4) -/

/-- The argument code emitted by the call visitors decomposes into one
block per argument, each ending in the PUSH of that argument's address. -/
theorem genCallArgs_blocks (G : SymEnv) (tps : List Ty) :
    ∀ (args : ExprList) (i : Nat) (c : Counters),
    ∃ (blocks : List (List Instr)) (addrs : List String),
      (genCallArgs G tps i args c).1 = blocks.flatten ∧
      blocks.length = exprListLength args ∧
      List.Forall₂ (fun blk a => ∃ pre, blk = pre ++ [iPUSH a])
        blocks addrs
  | ExprList.nil, i, c => ⟨[], [], rfl, rfl, List.Forall₂.nil⟩
  | ExprList.cons e es, i, c => by
      obtain ⟨blocks, addrs, h1, h2, h3⟩ :=
        genCallArgs_blocks G tps es (i + 1)
          (callArgStep G (tps.getD i Ty.tError) (decorTy G e)
            (genExpr G e c)).2.2
      refine
        ⟨((callArgStep G (tps.getD i Ty.tError) (decorTy G e)
            (genExpr G e c)).2.1 ++
          [iPUSH (callArgStep G (tps.getD i Ty.tError) (decorTy G e)
            (genExpr G e c)).1]) :: blocks,
         (callArgStep G (tps.getD i Ty.tError) (decorTy G e)
            (genExpr G e c)).1 :: addrs, ?_, ?_, ?_⟩
      · simp only [genCallArgs, List.flatten_cons, List.append_assoc]
        rw [h1]
      · simp [h2, exprListLength]
      · exact List.Forall₂.cons ⟨_, rfl⟩ h3

/-- C3: call protocol of the code generator.  For a call in expression
position the emitted sequence is one parameterless PUSH, then one block per
argument ending in the PUSH of that argument (argument-evaluation code
interleaved inside the blocks), then CALL, then one parameterless POP per
argument, then a receiving POP of the result temporary; for a procedure
call statement on a void callee the leading PUSH and the receiving POP are
absent. -/
theorem claim_C3 (G : SymEnv) (f g : String) (args args2 : ExprList)
    (c c2 : Counters)
    (hnv : isVoidFunction (identDecorTy G f) = false)
    (hv : isVoidFunction (identDecorTy G g) = true) :
    (∃ (blocks : List (List Instr)) (addrs : List String) (dst : String),
      blocks.length = exprListLength args ∧
      ((genExpr G (Expr.callE f args) c).1).code =
        iPUSH0 :: blocks.flatten ++ iCALL f ::
          (List.replicate (exprListLength args) iPOP0 ++ [iPOP dst]) ∧
      ((genExpr G (Expr.callE f args) c).1).addr = dst ∧
      List.Forall₂ (fun blk a => ∃ pre, blk = pre ++ [iPUSH a])
        blocks addrs) ∧
    (∃ (blocks : List (List Instr)) (addrs : List String),
      blocks.length = exprListLength args2 ∧
      (genStmt G (Stmt.procCall g args2) c2).1 =
        blocks.flatten ++ iCALL g ::
          List.replicate (exprListLength args2) iPOP0 ∧
      List.Forall₂ (fun blk a => ∃ pre, blk = pre ++ [iPUSH a])
        blocks addrs) := by
  constructor
  · obtain ⟨blocks, addrs, h1, h2, h3⟩ :=
      genCallArgs_blocks G (getFuncParamsTypes (identDecorTy G f)) args 0
        (newTEMP c).2
    refine ⟨blocks, addrs, "%" ++ (newTEMP c).1, h2, ?_, ?_, h3⟩
    · simp [genExpr, h1]
    · simp [genExpr]
  · obtain ⟨blocks, addrs, h1, h2, h3⟩ :=
      genCallArgs_blocks G (getFuncParamsTypes (identDecorTy G g)) args2 0 c2
    refine ⟨blocks, addrs, h2, ?_, h3⟩
    simp [genStmt, hv, h1]

/-- A two-function scope used by the C3 witness: a non-void function f2,
a void function g2, an integer variable x. -/
def env2 : SymEnv := fun id =>
  if id = "f2" then
    some (SymInfo.mk SymClass.funcSym (Ty.tFun [Ty.tInt] Ty.tInt))
  else if id = "g2" then
    some (SymInfo.mk SymClass.funcSym (Ty.tFun [Ty.tInt] Ty.tVoid))
  else if id = "x" then some (SymInfo.mk SymClass.localVar Ty.tInt)
  else none

/-- The singleton argument list used by the C3 witness. -/
def argsX : ExprList := ExprList.cons (Expr.identE "x") ExprList.nil

theorem claim_C3_witness :
    (∃ (blocks : List (List Instr)) (addrs : List String) (dst : String),
      blocks.length = exprListLength argsX ∧
      ((genExpr env2 (Expr.callE "f2" argsX) countersReset).1).code =
        iPUSH0 :: blocks.flatten ++ iCALL "f2" ::
          (List.replicate (exprListLength argsX) iPOP0 ++ [iPOP dst]) ∧
      ((genExpr env2 (Expr.callE "f2" argsX) countersReset).1).addr = dst ∧
      List.Forall₂ (fun blk a => ∃ pre, blk = pre ++ [iPUSH a])
        blocks addrs) ∧
    (∃ (blocks : List (List Instr)) (addrs : List String),
      blocks.length = exprListLength argsX ∧
      (genStmt env2 (Stmt.procCall "g2" argsX) countersReset).1 =
        blocks.flatten ++ iCALL "g2" ::
          List.replicate (exprListLength argsX) iPOP0 ∧
      List.Forall₂ (fun blk a => ∃ pre, blk = pre ++ [iPUSH a])
        blocks addrs) :=
  claim_C3 env2 "f2" "g2" argsX argsX countersReset countersReset
    (by decide) (by decide)

/-- C4: lowering of relational operators.  With both operand types
non-float the six operators share the operand evaluation code: ==, <, <=
lower directly to EQ/LT/LE into the result temporary, while !=, >=, >
lower as EQ/LT/LE into a second temporary followed by a NOT into the
result temporary.  When either operand type is float, a FLOAT widening is
inserted for each non-float operand and the comparisons use FEQ/FLT/FLE
with the same negation scheme. -/
theorem claim_C4 (G : SymEnv) (e1 e2 : Expr) (c : Counters) :
    (isFloatTy (decorTy G e1) = false → isFloatTy (decorTy G e2) = false →
      ∃ (pre : List Instr) (a1 a2 t1 t2 : String) (cOut : Counters),
        genExpr G (Expr.rel RelOp.rEQ e1 e2) c =
          (CodeAttribs.mk t1 "" (pre ++ [iEQ t1 a1 a2]), cOut) ∧
        genExpr G (Expr.rel RelOp.rNEQ e1 e2) c =
          (CodeAttribs.mk t1 "" (pre ++ [iEQ t2 a1 a2, iNOT t1 t2]), cOut) ∧
        genExpr G (Expr.rel RelOp.rGE e1 e2) c =
          (CodeAttribs.mk t1 "" (pre ++ [iLT t2 a1 a2, iNOT t1 t2]), cOut) ∧
        genExpr G (Expr.rel RelOp.rGT e1 e2) c =
          (CodeAttribs.mk t1 "" (pre ++ [iLE t2 a1 a2, iNOT t1 t2]), cOut) ∧
        genExpr G (Expr.rel RelOp.rLE e1 e2) c =
          (CodeAttribs.mk t1 "" (pre ++ [iLE t1 a1 a2]), cOut) ∧
        genExpr G (Expr.rel RelOp.rLT e1 e2) c =
          (CodeAttribs.mk t1 "" (pre ++ [iLT t1 a1 a2]), cOut) ∧
        pre = ((genExpr G e1 c).1).code ++
          ((genExpr G e2 (genExpr G e1 c).2).1).code ∧
        a1 = ((genExpr G e1 c).1).addr ∧
        a2 = ((genExpr G e2 (genExpr G e1 c).2).1).addr) ∧
    ((isFloatTy (decorTy G e1) || isFloatTy (decorTy G e2)) = true →
      ∃ (pre : List Instr) (aF1 aF2 t1 t2 : String) (cOut : Counters),
        genExpr G (Expr.rel RelOp.rEQ e1 e2) c =
          (CodeAttribs.mk t1 "" (pre ++ [iFEQ t1 aF1 aF2]), cOut) ∧
        genExpr G (Expr.rel RelOp.rNEQ e1 e2) c =
          (CodeAttribs.mk t1 "" (pre ++ [iFEQ t2 aF1 aF2, iNOT t1 t2]),
            cOut) ∧
        genExpr G (Expr.rel RelOp.rGE e1 e2) c =
          (CodeAttribs.mk t1 "" (pre ++ [iFLT t2 aF1 aF2, iNOT t1 t2]),
            cOut) ∧
        genExpr G (Expr.rel RelOp.rGT e1 e2) c =
          (CodeAttribs.mk t1 "" (pre ++ [iFLE t2 aF1 aF2, iNOT t1 t2]),
            cOut) ∧
        genExpr G (Expr.rel RelOp.rLE e1 e2) c =
          (CodeAttribs.mk t1 "" (pre ++ [iFLE t1 aF1 aF2]), cOut) ∧
        genExpr G (Expr.rel RelOp.rLT e1 e2) c =
          (CodeAttribs.mk t1 "" (pre ++ [iFLT t1 aF1 aF2]), cOut) ∧
        pre = (((genExpr G e1 c).1).code ++
            ((genExpr G e2 (genExpr G e1 c).2).1).code) ++
          (if isFloatTy (decorTy G e1) then []
           else [iFLOAT aF1 ((genExpr G e1 c).1).addr]) ++
          (if isFloatTy (decorTy G e2) then []
           else [iFLOAT aF2 ((genExpr G e2 (genExpr G e1 c).2).1).addr]) ∧
        (isFloatTy (decorTy G e1) = true →
          aF1 = ((genExpr G e1 c).1).addr) ∧
        (isFloatTy (decorTy G e2) = true →
          aF2 = ((genExpr G e2 (genExpr G e1 c).2).1).addr)) := by
  constructor
  · intro h1 h2
    refine ⟨((genExpr G e1 c).1).code ++
        ((genExpr G e2 (genExpr G e1 c).2).1).code,
      ((genExpr G e1 c).1).addr,
      ((genExpr G e2 (genExpr G e1 c).2).1).addr,
      "%" ++ (newTEMP (genExpr G e2 (genExpr G e1 c).2).2).1,
      "%" ++ (newTEMP (newTEMP (genExpr G e2 (genExpr G e1 c).2).2).2).1,
      (newTEMP (newTEMP (genExpr G e2 (genExpr G e1 c).2).2).2).2,
      ?_, ?_, ?_, ?_, ?_, ?_, rfl, rfl, rfl⟩ <;>
      simp [genExpr, h1, h2]
  · intro hf
    by_cases h1 : isFloatTy (decorTy G e1) = true
    · by_cases h2 : isFloatTy (decorTy G e2) = true
      · refine ⟨((genExpr G e1 c).1).code ++
            ((genExpr G e2 (genExpr G e1 c).2).1).code,
          ((genExpr G e1 c).1).addr,
          ((genExpr G e2 (genExpr G e1 c).2).1).addr,
          "%" ++ (newTEMP (genExpr G e2 (genExpr G e1 c).2).2).1,
          "%" ++ (newTEMP (newTEMP (genExpr G e2 (genExpr G e1 c).2).2).2).1,
          (newTEMP (newTEMP (genExpr G e2 (genExpr G e1 c).2).2).2).2,
          ?_, ?_, ?_, ?_, ?_, ?_, ?_, fun _ => rfl, fun _ => rfl⟩ <;>
          simp [genExpr, h1, h2]
      · simp only [Bool.not_eq_true] at h2
        refine ⟨(((genExpr G e1 c).1).code ++
              ((genExpr G e2 (genExpr G e1 c).2).1).code) ++
            [iFLOAT ("%" ++ (newTEMP
                (newTEMP (newTEMP (genExpr G e2 (genExpr G e1 c).2).2).2).2).1)
              ((genExpr G e2 (genExpr G e1 c).2).1).addr],
          ((genExpr G e1 c).1).addr,
          "%" ++ (newTEMP
            (newTEMP (newTEMP (genExpr G e2 (genExpr G e1 c).2).2).2).2).1,
          "%" ++ (newTEMP (genExpr G e2 (genExpr G e1 c).2).2).1,
          "%" ++ (newTEMP (newTEMP (genExpr G e2 (genExpr G e1 c).2).2).2).1,
          (newTEMP
            (newTEMP (newTEMP (genExpr G e2 (genExpr G e1 c).2).2).2).2).2,
          ?_, ?_, ?_, ?_, ?_, ?_, ?_, fun _ => rfl,
          fun hh => absurd hh (by simp [h2])⟩ <;>
          simp [genExpr, h1, h2]
    · simp only [Bool.not_eq_true] at h1
      have h2 : isFloatTy (decorTy G e2) = true := by
        rcases Bool.or_eq_true_iff.mp hf with h | h
        · rw [h1] at h
          cases h
        · exact h
      refine ⟨(((genExpr G e1 c).1).code ++
            ((genExpr G e2 (genExpr G e1 c).2).1).code) ++
          [iFLOAT ("%" ++ (newTEMP
              (newTEMP (newTEMP (genExpr G e2 (genExpr G e1 c).2).2).2).2).1)
            ((genExpr G e1 c).1).addr],
        "%" ++ (newTEMP
          (newTEMP (newTEMP (genExpr G e2 (genExpr G e1 c).2).2).2).2).1,
        ((genExpr G e2 (genExpr G e1 c).2).1).addr,
        "%" ++ (newTEMP (genExpr G e2 (genExpr G e1 c).2).2).1,
        "%" ++ (newTEMP (newTEMP (genExpr G e2 (genExpr G e1 c).2).2).2).1,
        (newTEMP
          (newTEMP (newTEMP (genExpr G e2 (genExpr G e1 c).2).2).2).2).2,
        ?_, ?_, ?_, ?_, ?_, ?_, ?_,
        fun hh => absurd hh (by simp [h1]), fun _ => rfl⟩ <;>
        simp [genExpr, h1, h2]

theorem claim_C4_witness :
    (∃ (pre : List Instr) (a1 a2 t1 t2 : String) (cOut : Counters),
      genExpr env1 (Expr.rel RelOp.rEQ (Expr.identE "x") (Expr.identE "x"))
          countersReset =
        (CodeAttribs.mk t1 "" (pre ++ [iEQ t1 a1 a2]), cOut) ∧
      genExpr env1 (Expr.rel RelOp.rNEQ (Expr.identE "x") (Expr.identE "x"))
          countersReset =
        (CodeAttribs.mk t1 "" (pre ++ [iEQ t2 a1 a2, iNOT t1 t2]), cOut) ∧
      genExpr env1 (Expr.rel RelOp.rGE (Expr.identE "x") (Expr.identE "x"))
          countersReset =
        (CodeAttribs.mk t1 "" (pre ++ [iLT t2 a1 a2, iNOT t1 t2]), cOut) ∧
      genExpr env1 (Expr.rel RelOp.rGT (Expr.identE "x") (Expr.identE "x"))
          countersReset =
        (CodeAttribs.mk t1 "" (pre ++ [iLE t2 a1 a2, iNOT t1 t2]), cOut) ∧
      genExpr env1 (Expr.rel RelOp.rLE (Expr.identE "x") (Expr.identE "x"))
          countersReset =
        (CodeAttribs.mk t1 "" (pre ++ [iLE t1 a1 a2]), cOut) ∧
      genExpr env1 (Expr.rel RelOp.rLT (Expr.identE "x") (Expr.identE "x"))
          countersReset =
        (CodeAttribs.mk t1 "" (pre ++ [iLT t1 a1 a2]), cOut) ∧
      pre = ((genExpr env1 (Expr.identE "x") countersReset).1).code ++
        ((genExpr env1 (Expr.identE "x")
          (genExpr env1 (Expr.identE "x") countersReset).2).1).code ∧
      a1 = ((genExpr env1 (Expr.identE "x") countersReset).1).addr ∧
      a2 = ((genExpr env1 (Expr.identE "x")
        (genExpr env1 (Expr.identE "x") countersReset).2).1).addr) ∧
    ((genExpr env1
        (Expr.rel RelOp.rNEQ (Expr.identE "x") (Expr.identE "x"))
        countersReset).1).code =
      [iEQ "%2" "x" "x", iNOT "%1" "%2"] :=
  And.intro
    ((claim_C4 env1 (Expr.identE "x") (Expr.identE "x") countersReset).1
      (by decide) (by decide))
    (by decide)

/-- C8: determinism and per-function name generation.  The code generator
is a pure function of the parsed program (identical input yields identical
t-code, including temporary and label numbering), and because the counters
are reset at each function entry the subroutine emitted for a function is
fully determined by that function's own declaration together with the
global signature environment: it does not depend on the bodies, the order
or the number of the surrounding functions. -/
theorem claim_C8 (fs1 fs2 : List FuncDecl) (i j : Nat)
    (hi : i < fs1.length) (hj : j < fs2.length)
    (hf : fs1.get ⟨i, hi⟩ = fs2.get ⟨j, hj⟩)
    (hg : globalScope fs1 = globalScope fs2) :
    genProgram fs1 = fs1.map
      (fun f => genFunction (funcScope (globalScope fs1) f) f) ∧
    (genProgram fs1).get ⟨i, by simpa [genProgram] using hi⟩ =
      (genProgram fs2).get ⟨j, by simpa [genProgram] using hj⟩ := by
  constructor
  · rfl
  · simp only [genProgram, List.get_eq_getElem, List.getElem_map]
    have h1 : fs1[i] = fs1.get ⟨i, hi⟩ := rfl
    have h2 : fs2[j] = fs2.get ⟨j, hj⟩ := rfl
    rw [h1, h2, hf, hg]

/-- A second main function, differing from cexFun, used to show that the
subroutine generated for a function ignores its neighbours. -/
def otherFun : FuncDecl :=
  FuncDecl.mk "other" [] none [("y", Ty.tInt)]
    (StmtList.cons (Stmt.writeE (Expr.identE "y")) StmtList.nil)

theorem claim_C8_witness :
    genProgram [cexFun] = [cexFun].map
      (fun f => genFunction (funcScope (globalScope [cexFun]) f) f) ∧
    (genProgram [cexFun]).get ⟨0, by decide⟩ =
      (genProgram [cexFun]).get ⟨0, by decide⟩ :=
  claim_C8 [cexFun] [cexFun] 0 0 (by decide) (by decide) rfl rfl

/-! ## Decimal digit strings

The code generator names temporaries with decimal counters and the t-code
carries decimal literals; these lemmas recover the numeric value of
Nat.repr output and give injectivity of temporary names. -/

/-- Numeric value of a decimal digit character. -/
def dval (c : Char) : Nat := c.toNat - ('0').toNat

/-- Numeric value of a most-significant-first decimal digit list. -/
def valDigits (l : List Char) : Nat :=
  l.foldl (fun a c => a * 10 + dval c) 0

theorem dval_digitChar (m : Nat) (h : m < 10) :
    dval (Nat.digitChar m) = m := by
  interval_cases m <;> rfl

theorem toDigitsCore_append (f : Nat) :
    ∀ (n : Nat) (acc : List Char),
      Nat.toDigitsCore 10 f n acc = Nat.toDigitsCore 10 f n [] ++ acc := by
  induction f with
  | zero =>
      intro n acc
      simp [Nat.toDigitsCore]
  | succ f ih =>
      intro n acc
      by_cases h : n / 10 = 0
      · simp [Nat.toDigitsCore, h]
      · simp only [Nat.toDigitsCore, h, if_false]
        rw [ih (n / 10) (Nat.digitChar (n % 10) :: acc),
          ih (n / 10) [Nat.digitChar (n % 10)]]
        simp

theorem valDigits_append_one (l : List Char) (c : Char) :
    valDigits (l ++ [c]) = valDigits l * 10 + dval c := by
  simp [valDigits, List.foldl_append]

theorem valDigits_toDigitsCore (f : Nat) :
    ∀ n, n < f → valDigits (Nat.toDigitsCore 10 f n []) = n := by
  induction f with
  | zero =>
      intro n h
      omega
  | succ f ih =>
      intro n h
      by_cases h0 : n / 10 = 0
      · have hn : n < 10 := by omega
        simp [Nat.toDigitsCore, h0, valDigits,
          dval_digitChar (n % 10) (Nat.mod_lt n (by omega))]
        omega
      · simp only [Nat.toDigitsCore, h0, if_false]
        rw [toDigitsCore_append f (n / 10) [Nat.digitChar (n % 10)]]
        rw [valDigits_append_one]
        have hlt : n / 10 < f := by
          have h1 : n / 10 < n := Nat.div_lt_self (by omega) (by omega)
          omega
        rw [ih (n / 10) hlt, dval_digitChar (n % 10) (Nat.mod_lt n (by omega))]
        omega

theorem valDigits_repr (n : Nat) : valDigits (Nat.repr n).data = n := by
  have h : (Nat.repr n).data = Nat.toDigitsCore 10 (n + 1) n [] := rfl
  rw [h]
  exact valDigits_toDigitsCore (n + 1) n (Nat.lt_succ_self n)

theorem repr_injective : Function.Injective Nat.repr := by
  intro a b h
  have ha := valDigits_repr a
  have hb := valDigits_repr b
  rw [h] at ha
  rw [ha] at hb
  exact hb

/-- The temporary name minted by the code generator for counter value n. -/
def mkTemp (n : Nat) : String := "%" ++ Nat.repr n

theorem mkTemp_injective : Function.Injective mkTemp := by
  intro a b h
  have hd : ('%' :: (Nat.repr a).data) = ('%' :: (Nat.repr b).data) := by
    have h1 : (mkTemp a).data = (mkTemp b).data := by rw [h]
    simpa [mkTemp, String.data_append] using h1
  have h2 : (Nat.repr a).data = (Nat.repr b).data := by
    injection hd
  have h3 : Nat.repr a = Nat.repr b := by
    cases ra : Nat.repr a with
    | mk da =>
        cases rb : Nat.repr b with
        | mk db =>
            rw [ra, rb] at h2
            have hdd : da = db := h2
            rw [hdd]
  exact repr_injective h3

theorem toDigitsCore_head (f : Nat) :
    ∀ (n : Nat) (acc : List Char), 0 < f →
      ∃ m rest, m < 10 ∧
        Nat.toDigitsCore 10 f n acc = Nat.digitChar m :: rest := by
  induction f with
  | zero =>
      intro n acc h
      omega
  | succ f ih =>
      intro n acc _
      by_cases h0 : n / 10 = 0
      · exact ⟨n % 10, acc, Nat.mod_lt n (by omega), by
          simp [Nat.toDigitsCore, h0]⟩
      · rcases Nat.eq_zero_or_pos f with hf | hf
        · subst hf
          exact ⟨n % 10, acc, Nat.mod_lt n (by omega), by
            simp [Nat.toDigitsCore, h0]⟩
        · obtain ⟨m, rest, hm, hrest⟩ :=
            ih (n / 10) (Nat.digitChar (n % 10) :: acc) hf
          exact ⟨m, rest, hm, by simp [Nat.toDigitsCore, h0, hrest]⟩

theorem digitChar_isDigit (m : Nat) (h : m < 10) :
    (Nat.digitChar m).isDigit = true := by
  interval_cases m <;> rfl

theorem isTCodeTemporal_mkTemp (n : Nat) :
    isTCodeTemporal (mkTemp n) = true := by
  obtain ⟨m, rest, hm, hrest⟩ :=
    toDigitsCore_head (n + 1) n [] (Nat.succ_pos n)
  have hdata : (mkTemp n).data = '%' :: Nat.digitChar m :: rest := by
    simp [mkTemp, String.data_append]
    exact hrest
  simp [isTCodeTemporal, hdata, digitChar_isDigit m hm]

/-! ## A t-code virtual machine model

Modelled from the spec: the t-code virtual machine is an external
collaborator (spec section 1, "out of scope") whose opcode semantics are
stated in section 3.4.  Only the integer fragment exercised by the claims
is interpreted (LOAD/ILOAD, integer arithmetic with truncating division,
comparisons, NOT, jumps, array LOADX/XLOAD through local arrays or loaded
by-reference pointers); the remaining opcodes are modelled as no-ops. -/

/-- A runtime value: an integer, or the address of an array (held by a
by-reference parameter or by a temporary loaded from one). -/
inductive VMVal where
  | intV (z : Int)
  | ptrV (a : String)
deriving DecidableEq

/-- Machine state: scalar values by name, array contents by array name and
integer index. -/
structure VMState where
  vars : String → VMVal
  arrs : String → Int → Int

/-- A token denotes a decimal literal exactly when it starts with a digit
(identifiers start with a letter, temporaries with a percent sign). -/
def tokenIsLit (s : String) : Bool :=
  match s.data with
  | c :: _ => c.isDigit
  | [] => false

/-- Evaluate an operand token: a decimal literal or a named value. -/
def evalTok (st : VMState) (s : String) : VMVal :=
  if tokenIsLit s then VMVal.intV (valDigits s.data) else st.vars s

/-- Integer content of a value (array addresses have no integer content). -/
def asInt : VMVal → Int
  | VMVal.intV z => z
  | VMVal.ptrV _ => 0

/-- The array named by a base token: a pointer value indirects to the
array it holds, otherwise the token itself names the array. -/
def resolveArr (st : VMState) (base : String) : String :=
  match st.vars base with
  | VMVal.ptrV a => a
  | _ => base

/-- Update one scalar. -/
def setVar (st : VMState) (x : String) (v : VMVal) : VMState :=
  VMState.mk (fun s => if s = x then v else st.vars s) st.arrs

/-- Update one array cell. -/
def setArr (st : VMState) (a : String) (idx : Int) (v : Int) : VMState :=
  VMState.mk st.vars
    (fun s => if s = a then (fun j => if j = idx then v else st.arrs a j)
      else st.arrs s)

/-- Position of the (first) LABEL l in the program. -/
def findLabel (prog : List Instr) (l : String) : Option Nat :=
  prog.findIdx? (fun i => i.oper == Op.LABEL && i.arg1 == l)

/-- Fuel-indexed execution from a program counter, accumulating the trace
of executed instructions.  Execution stops successfully when the program
counter leaves the instruction list. -/
def vmRun (prog : List Instr) :
    Nat → Nat → VMState → List Instr → Option (VMState × List Instr)
  | 0, _, _, _ => none
  | fuel + 1, pc, st, tr =>
      match prog[pc]? with
      | none => some (st, tr)
      | some ins =>
          let tr2 := tr ++ [ins]
          match ins.oper with
          | Op.LOAD =>
              vmRun prog fuel (pc + 1)
                (setVar st ins.arg1 (evalTok st ins.arg2)) tr2
          | Op.ILOAD =>
              vmRun prog fuel (pc + 1)
                (setVar st ins.arg1 (VMVal.intV (valDigits ins.arg2.data)))
                tr2
          | Op.ADD =>
              vmRun prog fuel (pc + 1)
                (setVar st ins.arg1 (VMVal.intV
                  (asInt (evalTok st ins.arg2) + asInt (evalTok st ins.arg3))))
                tr2
          | Op.SUB =>
              vmRun prog fuel (pc + 1)
                (setVar st ins.arg1 (VMVal.intV
                  (asInt (evalTok st ins.arg2) - asInt (evalTok st ins.arg3))))
                tr2
          | Op.MUL =>
              vmRun prog fuel (pc + 1)
                (setVar st ins.arg1 (VMVal.intV
                  (asInt (evalTok st ins.arg2) * asInt (evalTok st ins.arg3))))
                tr2
          | Op.DIV =>
              vmRun prog fuel (pc + 1)
                (setVar st ins.arg1 (VMVal.intV
                  (Int.tdiv (asInt (evalTok st ins.arg2))
                    (asInt (evalTok st ins.arg3))))) tr2
          | Op.EQ =>
              vmRun prog fuel (pc + 1)
                (setVar st ins.arg1 (VMVal.intV
                  (if asInt (evalTok st ins.arg2) =
                      asInt (evalTok st ins.arg3) then 1 else 0))) tr2
          | Op.LT =>
              vmRun prog fuel (pc + 1)
                (setVar st ins.arg1 (VMVal.intV
                  (if asInt (evalTok st ins.arg2) <
                      asInt (evalTok st ins.arg3) then 1 else 0))) tr2
          | Op.LE =>
              vmRun prog fuel (pc + 1)
                (setVar st ins.arg1 (VMVal.intV
                  (if asInt (evalTok st ins.arg2) ≤
                      asInt (evalTok st ins.arg3) then 1 else 0))) tr2
          | Op.NOT =>
              vmRun prog fuel (pc + 1)
                (setVar st ins.arg1 (VMVal.intV
                  (if asInt (evalTok st ins.arg2) = 0 then 1 else 0))) tr2
          | Op.LABEL => vmRun prog fuel (pc + 1) st tr2
          | Op.UJUMP =>
              match findLabel prog ins.arg1 with
              | some t => vmRun prog fuel t st tr2
              | none => none
          | Op.FJUMP =>
              if asInt (evalTok st ins.arg1) = 0 then
                match findLabel prog ins.arg2 with
                | some t => vmRun prog fuel t st tr2
                | none => none
              else vmRun prog fuel (pc + 1) st tr2
          | Op.LOADX =>
              vmRun prog fuel (pc + 1)
                (setVar st ins.arg1 (VMVal.intV
                  (st.arrs (resolveArr st ins.arg2)
                    (asInt (evalTok st ins.arg3))))) tr2
          | Op.XLOAD =>
              vmRun prog fuel (pc + 1)
                (setArr st (resolveArr st ins.arg1)
                  (asInt (evalTok st ins.arg2))
                  (asInt (evalTok st ins.arg3))) tr2
          | _ => vmRun prog fuel (pc + 1) st tr2

/-- Number of executed instructions with a given opcode in a trace. -/
def countOp (o : Op) (l : List Instr) : Nat :=
  (l.filter (fun i => i.oper == o)).length

theorem tmod_nonpos' (a b : Int) (h : a ≤ 0) : a.tmod b ≤ 0 := by
  match a, b with
  | Int.ofNat m, b =>
      have hm : (Int.ofNat m) = 0 := le_antisymm h (Int.ofNat_nonneg m)
      rw [hm, Int.zero_tmod]
  | Int.negSucc m, Int.ofNat n =>
      show -(Int.ofNat _) ≤ 0
      exact neg_nonpos.mpr (Int.ofNat_nonneg _)
  | Int.negSucc m, Int.negSucc n =>
      show -(Int.ofNat _) ≤ 0
      exact neg_nonpos.mpr (Int.ofNat_nonneg _)

theorem tmodEq (a b : Int) : a.tmod b = a - a.tdiv b * b := by
  have h3 := Int.tdiv_add_tmod a b
  linarith [h3]

theorem tmodSign (a b : Int) (h : a - a.tdiv b * b ≠ 0) :
    (a - a.tdiv b * b).sign = a.sign := by
  rw [← tmodEq] at h ⊢
  rcases lt_trichotomy a 0 with ha | ha | ha
  · have h1 : a.tmod b ≤ 0 := tmod_nonpos' a b (le_of_lt ha)
    have h2 : a.tmod b < 0 := lt_of_le_of_ne h1 h
    rw [Int.sign_eq_neg_one_of_neg h2, Int.sign_eq_neg_one_of_neg ha]
  · subst ha
    simp [Int.zero_tmod] at h
  · have h1 : 0 ≤ a.tmod b := Int.tmod_nonneg b (le_of_lt ha)
    have h2 : 0 < a.tmod b := lt_of_le_of_ne h1 (Ne.symm h)
    rw [Int.sign_eq_one_of_pos h2, Int.sign_eq_one_of_pos ha]

/-- A scope binding two integer locals, used for the modulus claim. -/
def envAB : SymEnv := fun id =>
  if id = "a" then some (SymInfo.mk SymClass.localVar Ty.tInt)
  else if id = "b" then some (SymInfo.mk SymClass.localVar Ty.tInt)
  else none

/-- C9: the modulus operator lowers to d = a/b; m = d*b; r = a-m (into one
reused temporary), executing these instructions over truncating integer
division leaves a - tdiv(a,b)*b in the temporary, and whenever that
remainder is nonzero its sign equals the sign of the dividend. -/
theorem claim_C9 (st : VMState) (av bv : Int)
    (ha : st.vars "a" = VMVal.intV av) (hb : st.vars "b" = VMVal.intV bv)
    (hbne : bv ≠ 0) :
    ((genExpr envAB (Expr.arith ArithOp.aMOD (Expr.identE "a")
        (Expr.identE "b")) countersReset).1).code =
      [iDIV "%1" "a" "b", iMUL "%1" "%1" "b", iSUB "%1" "a" "%1"] ∧
    ∃ st2, vmRun (((genExpr envAB (Expr.arith ArithOp.aMOD
        (Expr.identE "a") (Expr.identE "b")) countersReset).1).code)
        4 0 st [] =
      some (st2,
        [iDIV "%1" "a" "b", iMUL "%1" "%1" "b", iSUB "%1" "a" "%1"]) ∧
      st2.vars "%1" = VMVal.intV (av - Int.tdiv av bv * bv) ∧
      (av - Int.tdiv av bv * bv ≠ 0 →
        (av - Int.tdiv av bv * bv).sign = av.sign) := by
  have hcode : ((genExpr envAB (Expr.arith ArithOp.aMOD (Expr.identE "a")
      (Expr.identE "b")) countersReset).1).code =
      [iDIV "%1" "a" "b", iMUL "%1" "%1" "b", iSUB "%1" "a" "%1"] := by
    decide
  refine ⟨hcode, ?_⟩
  rw [hcode]
  refine ⟨setVar (setVar (setVar st "%1"
      (VMVal.intV (Int.tdiv av bv))) "%1"
      (VMVal.intV (Int.tdiv av bv * bv))) "%1"
      (VMVal.intV (av - Int.tdiv av bv * bv)), ?_, ?_, ?_⟩
  · simp [vmRun, evalTok, tokenIsLit, asInt, setVar, ha, hb, iDIV, iMUL,
      iSUB]
  · simp [setVar]
  · exact tmodSign av bv

/-- A concrete machine state with a = -7 and b = 2. -/
def stAB : VMState :=
  VMState.mk
    (fun s => if s = "a" then VMVal.intV (-7)
      else if s = "b" then VMVal.intV 2 else VMVal.intV 0)
    (fun _ _ => 0)

theorem claim_C9_witness :
    ((genExpr envAB (Expr.arith ArithOp.aMOD (Expr.identE "a")
        (Expr.identE "b")) countersReset).1).code =
      [iDIV "%1" "a" "b", iMUL "%1" "%1" "b", iSUB "%1" "a" "%1"] ∧
    ∃ st2, vmRun (((genExpr envAB (Expr.arith ArithOp.aMOD
        (Expr.identE "a") (Expr.identE "b")) countersReset).1).code)
        4 0 stAB [] =
      some (st2,
        [iDIV "%1" "a" "b", iMUL "%1" "%1" "b", iSUB "%1" "a" "%1"]) ∧
      st2.vars "%1" = VMVal.intV ((-7) - Int.tdiv (-7) 2 * 2) ∧
      ((-7) - Int.tdiv (-7) 2 * 2 ≠ 0 →
        ((-7) - Int.tdiv (-7) 2 * 2).sign = Int.sign (-7)) :=
  claim_C9 stAB (-7) 2 (by decide) (by decide) (by decide)

/-! ## Single-step composition lemmas for vmRun -/

theorem vmRun_out (prog : List Instr) (f pc : Nat) (st : VMState)
    (tr : List Instr) (h : prog[pc]? = none) :
    vmRun prog (f + 1) pc st tr = some (st, tr) := by
  simp only [vmRun]
  rw [h]

theorem vmStep_LOAD (prog : List Instr) (f pc : Nat) (st : VMState)
    (tr : List Instr) (x y : String) (r : VMState × List Instr)
    (h : prog[pc]? = some (iLOAD x y))
    (hr : vmRun prog f (pc + 1) (setVar st x (evalTok st y))
      (tr ++ [iLOAD x y]) = some r) :
    vmRun prog (f + 1) pc st tr = some r := by
  simp only [vmRun]
  rw [h]
  exact hr

theorem vmStep_ILOAD (prog : List Instr) (f pc : Nat) (st : VMState)
    (tr : List Instr) (x y : String) (r : VMState × List Instr)
    (h : prog[pc]? = some (iILOAD x y))
    (hr : vmRun prog f (pc + 1)
      (setVar st x (VMVal.intV (valDigits y.data)))
      (tr ++ [iILOAD x y]) = some r) :
    vmRun prog (f + 1) pc st tr = some r := by
  simp only [vmRun]
  rw [h]
  exact hr

theorem vmStep_LABEL (prog : List Instr) (f pc : Nat) (st : VMState)
    (tr : List Instr) (l : String) (r : VMState × List Instr)
    (h : prog[pc]? = some (iLABEL l))
    (hr : vmRun prog f (pc + 1) st (tr ++ [iLABEL l]) = some r) :
    vmRun prog (f + 1) pc st tr = some r := by
  simp only [vmRun]
  rw [h]
  exact hr

theorem vmStep_LE (prog : List Instr) (f pc : Nat) (st : VMState)
    (tr : List Instr) (x y z : String) (r : VMState × List Instr)
    (h : prog[pc]? = some (iLE x y z))
    (hr : vmRun prog f (pc + 1)
      (setVar st x (VMVal.intV
        (if asInt (evalTok st y) ≤ asInt (evalTok st z) then 1 else 0)))
      (tr ++ [iLE x y z]) = some r) :
    vmRun prog (f + 1) pc st tr = some r := by
  simp only [vmRun]
  rw [h]
  exact hr

theorem vmStep_SUB (prog : List Instr) (f pc : Nat) (st : VMState)
    (tr : List Instr) (x y z : String) (r : VMState × List Instr)
    (h : prog[pc]? = some (iSUB x y z))
    (hr : vmRun prog f (pc + 1)
      (setVar st x (VMVal.intV
        (asInt (evalTok st y) - asInt (evalTok st z))))
      (tr ++ [iSUB x y z]) = some r) :
    vmRun prog (f + 1) pc st tr = some r := by
  simp only [vmRun]
  rw [h]
  exact hr

theorem vmStep_FJUMP_go (prog : List Instr) (f pc : Nat) (st : VMState)
    (tr : List Instr) (x l : String) (r : VMState × List Instr)
    (h : prog[pc]? = some (iFJUMP x l))
    (hc : asInt (evalTok st x) ≠ 0)
    (hr : vmRun prog f (pc + 1) st (tr ++ [iFJUMP x l]) = some r) :
    vmRun prog (f + 1) pc st tr = some r := by
  simp only [vmRun]
  rw [h]
  simp only [iFJUMP]
  rw [if_neg hc]
  exact hr

theorem vmStep_FJUMP_jump (prog : List Instr) (f pc : Nat) (st : VMState)
    (tr : List Instr) (x l : String) (t : Nat) (r : VMState × List Instr)
    (h : prog[pc]? = some (iFJUMP x l))
    (hc : asInt (evalTok st x) = 0)
    (hl : findLabel prog l = some t)
    (hr : vmRun prog f t st (tr ++ [iFJUMP x l]) = some r) :
    vmRun prog (f + 1) pc st tr = some r := by
  simp only [vmRun]
  rw [h]
  simp only [iFJUMP]
  rw [if_pos hc, hl]
  exact hr

theorem vmStep_UJUMP (prog : List Instr) (f pc : Nat) (st : VMState)
    (tr : List Instr) (l : String) (t : Nat) (r : VMState × List Instr)
    (h : prog[pc]? = some (iUJUMP l))
    (hl : findLabel prog l = some t)
    (hr : vmRun prog f t st (tr ++ [iUJUMP l]) = some r) :
    vmRun prog (f + 1) pc st tr = some r := by
  simp only [vmRun]
  rw [h]
  simp only [iUJUMP]
  rw [hl]
  exact hr

theorem vmStep_LOADX (prog : List Instr) (f pc : Nat) (st : VMState)
    (tr : List Instr) (x b i : String) (r : VMState × List Instr)
    (h : prog[pc]? = some (iLOADX x b i))
    (hr : vmRun prog f (pc + 1)
      (setVar st x (VMVal.intV
        (st.arrs (resolveArr st b) (asInt (evalTok st i)))))
      (tr ++ [iLOADX x b i]) = some r) :
    vmRun prog (f + 1) pc st tr = some r := by
  simp only [vmRun]
  rw [h]
  exact hr

theorem vmStep_XLOAD (prog : List Instr) (f pc : Nat) (st : VMState)
    (tr : List Instr) (b i v : String) (r : VMState × List Instr)
    (h : prog[pc]? = some (iXLOAD b i v))
    (hr : vmRun prog f (pc + 1)
      (setArr st (resolveArr st b) (asInt (evalTok st i))
        (asInt (evalTok st v)))
      (tr ++ [iXLOAD b i v]) = some r) :
    vmRun prog (f + 1) pc st tr = some r := by
  simp only [vmRun]
  rw [h]
  exact hr

theorem countOp_append (o : Op) (l1 l2 : List Instr) :
    countOp o (l1 ++ l2) = countOp o l1 + countOp o l2 := by
  simp [countOp, List.filter_append]

theorem copyLoop_exit (prog : List Instr) (p : Nat)
    (iT zT cT S E : String)
    (h0 : prog[p]? = some (iLABEL S))
    (h1 : prog[p + 1]? = some (iLE cT zT iT))
    (h2 : prog[p + 2]? = some (iFJUMP cT E))
    (h7 : prog[p + 7]? = some (iLABEL E))
    (h8 : prog[p + 8]? = none)
    (hE : findLabel prog E = some (p + 7))
    (lzT : tokenIsLit zT = false) (liT : tokenIsLit iT = false)
    (lcT : tokenIsLit cT = false)
    (dzc : ¬(zT = cT)) (dic : ¬(iT = cT))
    (st : VMState) (tr : List Instr)
    (hiT : st.vars iT = VMVal.intV (-1))
    (hzT : st.vars zT = VMVal.intV 0) :
    vmRun prog (0 + 1 + 1 + 1 + 1 + 1) p st tr =
      some (setVar st cT (VMVal.intV 0),
        tr ++ [iLABEL S, iLE cT zT iT, iFJUMP cT E, iLABEL E]) := by
  refine vmStep_LABEL prog _ p st tr S _ h0 ?_
  refine vmStep_LE prog _ (p + 1) st _ cT zT iT _ h1 ?_
  have hif : (if asInt (evalTok st zT) ≤ asInt (evalTok st iT)
      then (1 : Int) else 0) = 0 := by
    simp [evalTok, lzT, liT, hzT, hiT, asInt]
  rw [hif]
  refine vmStep_FJUMP_jump prog _ (p + 2) _ _ cT E (p + 7) _ h2 ?_ hE ?_
  · simp [evalTok, lcT, setVar, asInt]
  refine vmStep_LABEL prog _ (p + 7) _ _ E _ h7 ?_
  rw [vmRun_out prog 0 (p + 8) _ _ h8]
  simp

theorem copyLoop_iter (prog : List Instr) (p : Nat)
    (iT zT oT cT eT aA bA S E : String)
    (h0 : prog[p]? = some (iLABEL S))
    (h1 : prog[p + 1]? = some (iLE cT zT iT))
    (h2 : prog[p + 2]? = some (iFJUMP cT E))
    (h3 : prog[p + 3]? = some (iLOADX eT bA iT))
    (h4 : prog[p + 4]? = some (iXLOAD aA iT eT))
    (h5 : prog[p + 5]? = some (iSUB iT iT oT))
    (h6 : prog[p + 6]? = some (iUJUMP S))
    (hS : findLabel prog S = some p)
    (liT : tokenIsLit iT = false) (lzT : tokenIsLit zT = false)
    (loT : tokenIsLit oT = false) (lcT : tokenIsLit cT = false)
    (leT : tokenIsLit eT = false)
    (dic : ¬(iT = cT)) (die : ¬(iT = eT))
    (dzc : ¬(zT = cT)) (dze : ¬(zT = eT)) (dzi : ¬(zT = iT))
    (doc : ¬(oT = cT)) (doe : ¬(oT = eT)) (doi : ¬(oT = iT))
    (k : Int) (hk : 0 ≤ k) (st : VMState) (tr : List Instr)
    (hi : st.vars iT = VMVal.intV k)
    (hz : st.vars zT = VMVal.intV 0)
    (ho : st.vars oT = VMVal.intV 1) :
    ∃ st4 : VMState,
      st4.vars iT = VMVal.intV (k - 1) ∧
      st4.vars zT = VMVal.intV 0 ∧
      st4.vars oT = VMVal.intV 1 ∧
      ∀ (f : Nat) (r : VMState × List Instr),
        vmRun prog f p st4
          (tr ++ [iLABEL S, iLE cT zT iT, iFJUMP cT E, iLOADX eT bA iT,
            iXLOAD aA iT eT, iSUB iT iT oT, iUJUMP S]) = some r →
        vmRun prog (f + 1 + 1 + 1 + 1 + 1 + 1 + 1) p st tr = some r := by
  refine ⟨?st4, ?hv1, ?hv2, ?hv3, ?htrans⟩
  case htrans =>
    intro f r h
    refine vmStep_LABEL prog _ p st tr S r h0 ?_
    refine vmStep_LE prog _ (p + 1) st _ cT zT iT r h1 ?_
    refine vmStep_FJUMP_go prog _ (p + 2) _ _ cT E r h2 ?_ ?_
    · simp [evalTok, lcT, lzT, liT, setVar, asInt, hi, hz, hk]
    refine vmStep_LOADX prog _ (p + 3) _ _ eT bA iT r h3 ?_
    refine vmStep_XLOAD prog _ (p + 4) _ _ aA iT eT r h4 ?_
    refine vmStep_SUB prog _ (p + 5) _ _ iT iT oT r h5 ?_
    refine vmStep_UJUMP prog _ (p + 6) _ _ S p r h6 hS ?_
    simp only [List.append_assoc, List.singleton_append, List.cons_append,
      List.nil_append]
    exact h
  case hv1 =>
    simp [setVar, setArr, evalTok, asInt, liT, lzT, loT, lcT, leT,
      dic, die, dzc, dze, dzi, doc, doe, doi, hi, hz, ho, hk]
  case hv2 =>
    simp [setVar, setArr, evalTok, asInt, liT, lzT, loT, lcT, leT,
      dic, die, dzc, dze, dzi, doc, doe, doi, hi, hz, ho, hk]
  case hv3 =>
    simp [setVar, setArr, evalTok, asInt, liT, lzT, loT, lcT, leT,
      dic, die, dzc, dze, dzi, doc, doe, doi, hi, hz, ho, hk]

theorem copyLoop_run (prog : List Instr) (p : Nat)
    (iT zT oT cT eT aA bA S E : String)
    (h0 : prog[p]? = some (iLABEL S))
    (h1 : prog[p + 1]? = some (iLE cT zT iT))
    (h2 : prog[p + 2]? = some (iFJUMP cT E))
    (h3 : prog[p + 3]? = some (iLOADX eT bA iT))
    (h4 : prog[p + 4]? = some (iXLOAD aA iT eT))
    (h5 : prog[p + 5]? = some (iSUB iT iT oT))
    (h6 : prog[p + 6]? = some (iUJUMP S))
    (h7 : prog[p + 7]? = some (iLABEL E))
    (h8 : prog[p + 8]? = none)
    (hS : findLabel prog S = some p)
    (hE : findLabel prog E = some (p + 7))
    (liT : tokenIsLit iT = false) (lzT : tokenIsLit zT = false)
    (loT : tokenIsLit oT = false) (lcT : tokenIsLit cT = false)
    (leT : tokenIsLit eT = false)
    (dic : ¬(iT = cT)) (die : ¬(iT = eT))
    (dzc : ¬(zT = cT)) (dze : ¬(zT = eT)) (dzi : ¬(zT = iT))
    (doc : ¬(oT = cT)) (doe : ¬(oT = eT)) (doi : ¬(oT = iT)) :
    ∀ (k : Nat) (st : VMState) (tr : List Instr),
      st.vars iT = VMVal.intV (k : Int) →
      st.vars zT = VMVal.intV 0 →
      st.vars oT = VMVal.intV 1 →
      ∃ (f : Nat) (st2 : VMState) (tr2 : List Instr),
        vmRun prog f p st tr = some (st2, tr2) ∧
        countOp Op.LOADX tr2 = countOp Op.LOADX tr + (k + 1) ∧
        countOp Op.XLOAD tr2 = countOp Op.XLOAD tr + (k + 1) := by
  intro k
  induction k with
  | zero =>
      intro st tr hi hz ho
      obtain ⟨st4, h4i, h4z, h4o, htrans⟩ :=
        copyLoop_iter prog p iT zT oT cT eT aA bA S E h0 h1 h2 h3 h4 h5 h6
          hS liT lzT loT lcT leT dic die dzc dze dzi doc doe doi
          0 (le_refl 0) st tr hi hz ho
      have h4i2 : st4.vars iT = VMVal.intV (-1) := by
        rw [h4i]
        norm_num
      have hexit := copyLoop_exit prog p iT zT cT S E h0 h1 h2 h7 h8 hE
        lzT liT lcT dzc dic st4
        (tr ++ [iLABEL S, iLE cT zT iT, iFJUMP cT E, iLOADX eT bA iT,
          iXLOAD aA iT eT, iSUB iT iT oT, iUJUMP S]) h4i2 h4z
      refine ⟨_, _, _, htrans _ _ hexit, ?_, ?_⟩ <;>
        simp [countOp_append, countOp, iLABEL, iLE, iFJUMP, iLOADX,
          iXLOAD, iSUB, iUJUMP]
  | succ k ih =>
      intro st tr hi hz ho
      have hcast : ((k + 1 : Nat) : Int) - 1 = (k : Int) := by
        push_cast
        omega
      obtain ⟨st4, h4i, h4z, h4o, htrans⟩ :=
        copyLoop_iter prog p iT zT oT cT eT aA bA S E h0 h1 h2 h3 h4 h5 h6
          hS liT lzT loT lcT leT dic die dzc dze dzi doc doe doi
          ((k + 1 : Nat) : Int) (by positivity) st tr hi hz ho
      rw [hcast] at h4i
      obtain ⟨f, st2, tr2, hrun, hc1, hc2⟩ := ih st4
        (tr ++ [iLABEL S, iLE cT zT iT, iFJUMP cT E, iLOADX eT bA iT,
          iXLOAD aA iT eT, iSUB iT iT oT, iUJUMP S]) h4i h4z h4o
      refine ⟨_, st2, tr2, htrans _ _ hrun, ?_, ?_⟩
      · rw [hc1]
        simp [countOp_append, countOp, iLABEL, iLE, iFJUMP, iLOADX,
          iXLOAD, iSUB, iUJUMP]
        omega
      · rw [hc2]
        simp [countOp_append, countOp, iLABEL, iLE, iFJUMP, iLOADX,
          iXLOAD, iSUB, iUJUMP]
        omega

def envArrLoc (N : Nat) : SymEnv := fun id =>
  if id = "adst" then some (SymInfo.mk SymClass.localVar (Ty.tArr N Ty.tInt))
  else if id = "asrc" then
    some (SymInfo.mk SymClass.localVar (Ty.tArr N Ty.tInt))
  else none

def envArrPar (N : Nat) : SymEnv := fun id =>
  if id = "adst" then some (SymInfo.mk SymClass.param (Ty.tArr N Ty.tInt))
  else if id = "asrc" then
    some (SymInfo.mk SymClass.param (Ty.tArr N Ty.tInt))
  else none

def arrCopyStmt : Stmt := Stmt.assign (LExpr.simpleId "adst") (Expr.identE "asrc")

theorem tokenIsLit_repr (n : Nat) : tokenIsLit (Nat.repr n) = true := by
  obtain ⟨m, rest, hm, hrest⟩ :=
    toDigitsCore_head (n + 1) n [] (Nat.succ_pos n)
  have hdata : (Nat.repr n).data = Nat.digitChar m :: rest := hrest
  simp [tokenIsLit, hdata, digitChar_isDigit m hm]

theorem claim_C5_local (N : Nat) (hN : 1 ≤ N) (st : VMState) :
    ∃ (f : Nat) (st2 : VMState) (tr : List Instr),
      vmRun ((genStmt (envArrLoc N) arrCopyStmt countersReset).1) f 0 st []
        = some (st2, tr) ∧
      countOp Op.LOADX tr = N ∧ countOp Op.XLOAD tr = N := by
  have hcode : (genStmt (envArrLoc N) arrCopyStmt countersReset).1 =
      [iLOAD "%3" (Nat.repr (N - 1)), iILOAD "%2" "0", iILOAD "%1" "1",
       iLABEL "ArrayCpy1", iLE "%4" "%2" "%3", iFJUMP "%4" "EndArrayCpy1",
       iLOADX "%5" "asrc" "%3", iXLOAD "adst" "%3" "%5",
       iSUB "%3" "%3" "%1", iUJUMP "ArrayCpy1", iLABEL "EndArrayCpy1"] := by
    simp [genStmt, genLExpr, genExpr, arrCopyStmt, decorLTy, decorTy,
      tcLExpr, tcExpr, tcIdent, outTy, envArrLoc, findsInStack, envGetType,
      isFunctionClass, isLocalVarClass, isParameterClass, isArrayTy,
      getArraySize, newTEMP, newLabelWHILE, countersReset]
    exact ⟨rfl, rfl, rfl, rfl, rfl, rfl, rfl, rfl, rfl, rfl, rfl⟩
  rw [hcode]
  have hev : evalTok st (Nat.repr (N - 1)) =
      VMVal.intV ((N - 1 : Nat) : Int) := by
    simp [evalTok, tokenIsLit_repr, valDigits_repr]
  have hrun := copyLoop_run
    [iLOAD "%3" (Nat.repr (N - 1)), iILOAD "%2" "0", iILOAD "%1" "1",
     iLABEL "ArrayCpy1", iLE "%4" "%2" "%3", iFJUMP "%4" "EndArrayCpy1",
     iLOADX "%5" "asrc" "%3", iXLOAD "adst" "%3" "%5",
     iSUB "%3" "%3" "%1", iUJUMP "ArrayCpy1", iLABEL "EndArrayCpy1"]
    3 "%3" "%2" "%1" "%4" "%5" "adst" "asrc" "ArrayCpy1" "EndArrayCpy1"
    rfl rfl rfl rfl rfl rfl rfl rfl rfl rfl rfl
    (by decide) (by decide) (by decide) (by decide) (by decide)
    (by decide) (by decide) (by decide) (by decide) (by decide)
    (by decide) (by decide) (by decide)
    (N - 1)
    (setVar (setVar (setVar st "%3" (VMVal.intV ((N - 1 : Nat) : Int)))
      "%2" (VMVal.intV 0)) "%1" (VMVal.intV 1))
    [iLOAD "%3" (Nat.repr (N - 1)), iILOAD "%2" "0", iILOAD "%1" "1"]
    (by simp [setVar]) (by simp [setVar]) (by simp [setVar])
  obtain ⟨f, st2, tr2, hrun2, hc1, hc2⟩ := hrun
  refine ⟨f + 1 + 1 + 1, st2, tr2, ?_, ?_, ?_⟩
  · refine vmStep_LOAD _ _ 0 st [] "%3" (Nat.repr (N - 1)) _ rfl ?_
    refine vmStep_ILOAD _ _ 1 _ _ "%2" "0" _ rfl ?_
    refine vmStep_ILOAD _ _ 2 _ _ "%1" "1" _ rfl ?_
    have h0v : (VMVal.intV ((valDigits ("0").data : Nat) : Int)) =
        VMVal.intV 0 := by decide
    have h1v : (VMVal.intV ((valDigits ("1").data : Nat) : Int)) =
        VMVal.intV 1 := by decide
    simp only [hev, h0v, h1v, List.nil_append, List.append_assoc,
      List.singleton_append, List.cons_append]
    exact hrun2
  · rw [hc1]
    have hz : countOp Op.LOADX
        [iLOAD "%3" (Nat.repr (N - 1)), iILOAD "%2" "0", iILOAD "%1" "1"]
        = 0 := by
      simp [countOp, iLOAD, iILOAD]
    rw [hz]
    omega
  · rw [hc2]
    have hz : countOp Op.XLOAD
        [iLOAD "%3" (Nat.repr (N - 1)), iILOAD "%2" "0", iILOAD "%1" "1"]
        = 0 := by
      simp [countOp, iLOAD, iILOAD]
    rw [hz]
    omega

theorem claim_C5_param (N : Nat) (hN : 1 ≤ N) (st : VMState) :
    ∃ (f : Nat) (st2 : VMState) (tr : List Instr),
      vmRun ((genStmt (envArrPar N) arrCopyStmt countersReset).1) f 0 st []
        = some (st2, tr) ∧
      countOp Op.LOADX tr = N ∧ countOp Op.XLOAD tr = N := by
  have hcode : (genStmt (envArrPar N) arrCopyStmt countersReset).1 =
      [iLOAD "%1" "adst", iLOAD "%2" "asrc",
       iLOAD "%5" (Nat.repr (N - 1)), iILOAD "%4" "0", iILOAD "%3" "1",
       iLABEL "ArrayCpy1", iLE "%6" "%4" "%5", iFJUMP "%6" "EndArrayCpy1",
       iLOADX "%7" "%2" "%5", iXLOAD "%1" "%5" "%7",
       iSUB "%5" "%5" "%3", iUJUMP "ArrayCpy1", iLABEL "EndArrayCpy1"] := by
    simp [genStmt, genLExpr, genExpr, arrCopyStmt, decorLTy, decorTy,
      tcLExpr, tcExpr, tcIdent, outTy, envArrPar, findsInStack, envGetType,
      isFunctionClass, isLocalVarClass, isParameterClass, isArrayTy,
      getArraySize, newTEMP, newLabelWHILE, countersReset]
    exact ⟨rfl, rfl, rfl, rfl, rfl, rfl, rfl, rfl, rfl, rfl, rfl, rfl, rfl⟩
  rw [hcode]
  have hev : ∀ s : VMState, evalTok s (Nat.repr (N - 1)) =
      VMVal.intV ((N - 1 : Nat) : Int) := by
    intro s
    simp [evalTok, tokenIsLit_repr, valDigits_repr]
  have hrun := copyLoop_run
    [iLOAD "%1" "adst", iLOAD "%2" "asrc",
     iLOAD "%5" (Nat.repr (N - 1)), iILOAD "%4" "0", iILOAD "%3" "1",
     iLABEL "ArrayCpy1", iLE "%6" "%4" "%5", iFJUMP "%6" "EndArrayCpy1",
     iLOADX "%7" "%2" "%5", iXLOAD "%1" "%5" "%7",
     iSUB "%5" "%5" "%3", iUJUMP "ArrayCpy1", iLABEL "EndArrayCpy1"]
    5 "%5" "%4" "%3" "%6" "%7" "%1" "%2" "ArrayCpy1" "EndArrayCpy1"
    rfl rfl rfl rfl rfl rfl rfl rfl rfl rfl rfl
    (by decide) (by decide) (by decide) (by decide) (by decide)
    (by decide) (by decide) (by decide) (by decide) (by decide)
    (by decide) (by decide) (by decide)
    (N - 1)
    (setVar (setVar (setVar
      (setVar (setVar st "%1" (evalTok st "adst"))
        "%2" (evalTok (setVar st "%1" (evalTok st "adst")) "asrc"))
      "%5" (VMVal.intV ((N - 1 : Nat) : Int)))
      "%4" (VMVal.intV 0)) "%3" (VMVal.intV 1))
    [iLOAD "%1" "adst", iLOAD "%2" "asrc",
     iLOAD "%5" (Nat.repr (N - 1)), iILOAD "%4" "0", iILOAD "%3" "1"]
    (by simp [setVar]) (by simp [setVar]) (by simp [setVar])
  obtain ⟨f, st2, tr2, hrun2, hc1, hc2⟩ := hrun
  refine ⟨f + 1 + 1 + 1 + 1 + 1, st2, tr2, ?_, ?_, ?_⟩
  · refine vmStep_LOAD _ _ 0 st [] "%1" "adst" _ rfl ?_
    refine vmStep_LOAD _ _ 1 _ _ "%2" "asrc" _ rfl ?_
    refine vmStep_LOAD _ _ 2 _ _ "%5" (Nat.repr (N - 1)) _ rfl ?_
    refine vmStep_ILOAD _ _ 3 _ _ "%4" "0" _ rfl ?_
    refine vmStep_ILOAD _ _ 4 _ _ "%3" "1" _ rfl ?_
    have h0v : (VMVal.intV ((valDigits ("0").data : Nat) : Int)) =
        VMVal.intV 0 := by decide
    have h1v : (VMVal.intV ((valDigits ("1").data : Nat) : Int)) =
        VMVal.intV 1 := by decide
    simp only [hev, h0v, h1v, List.nil_append, List.append_assoc,
      List.singleton_append, List.cons_append]
    exact hrun2
  · rw [hc1]
    have hz : countOp Op.LOADX
        [iLOAD "%1" "adst", iLOAD "%2" "asrc",
         iLOAD "%5" (Nat.repr (N - 1)), iILOAD "%4" "0", iILOAD "%3" "1"]
        = 0 := by
      simp [countOp, iLOAD, iILOAD]
    rw [hz]
    omega
  · rw [hc2]
    have hz : countOp Op.XLOAD
        [iLOAD "%1" "adst", iLOAD "%2" "asrc",
         iLOAD "%5" (Nat.repr (N - 1)), iILOAD "%4" "0", iILOAD "%3" "1"]
        = 0 := by
      simp [countOp, iLOAD, iILOAD]
    rw [hz]
    omega

/-- C5: for an assignment `adst = asrc;` where both sides are arrays of
declared size N (N at least 1), the generated t-code terminates and the
execution trace contains exactly N LOADX (element reads from the source)
and exactly N XLOAD (element writes into the destination), both when the
arrays are local variables and when they are by-reference parameters; in
the parameter case the code first LOADs each pointer into a fresh
temporary before the copy loop. -/
theorem claim_C5 (N : Nat) (hN : 1 ≤ N) (stL stP : VMState) :
    ((genStmt (envArrPar N) arrCopyStmt countersReset).1.take 2 =
      [iLOAD "%1" "adst", iLOAD "%2" "asrc"]) ∧
    (∃ (f : Nat) (st2 : VMState) (tr : List Instr),
      vmRun ((genStmt (envArrLoc N) arrCopyStmt countersReset).1)
        f 0 stL [] = some (st2, tr) ∧
      countOp Op.LOADX tr = N ∧ countOp Op.XLOAD tr = N) ∧
    (∃ (f : Nat) (st2 : VMState) (tr : List Instr),
      vmRun ((genStmt (envArrPar N) arrCopyStmt countersReset).1)
        f 0 stP [] = some (st2, tr) ∧
      countOp Op.LOADX tr = N ∧ countOp Op.XLOAD tr = N) := by
  refine ⟨?_, claim_C5_local N hN stL, claim_C5_param N hN stP⟩
  have hcode : (genStmt (envArrPar N) arrCopyStmt countersReset).1 =
      [iLOAD "%1" "adst", iLOAD "%2" "asrc",
       iLOAD "%5" (Nat.repr (N - 1)), iILOAD "%4" "0", iILOAD "%3" "1",
       iLABEL "ArrayCpy1", iLE "%6" "%4" "%5", iFJUMP "%6" "EndArrayCpy1",
       iLOADX "%7" "%2" "%5", iXLOAD "%1" "%5" "%7",
       iSUB "%5" "%5" "%3", iUJUMP "ArrayCpy1", iLABEL "EndArrayCpy1"] := by
    simp [genStmt, genLExpr, genExpr, arrCopyStmt, decorLTy, decorTy,
      tcLExpr, tcExpr, tcIdent, outTy, envArrPar, findsInStack, envGetType,
      isFunctionClass, isLocalVarClass, isParameterClass, isArrayTy,
      getArraySize, newTEMP, newLabelWHILE, countersReset]
    exact ⟨rfl, rfl, rfl, rfl, rfl, rfl, rfl, rfl, rfl, rfl, rfl, rfl, rfl⟩
  rw [hcode]
  rfl

def stZero : VMState := VMState.mk (fun _ => VMVal.intV 0) (fun _ _ => 0)

theorem claim_C5_witness :
    ((genStmt (envArrPar 3) arrCopyStmt countersReset).1.take 2 =
      [iLOAD "%1" "adst", iLOAD "%2" "asrc"]) ∧
    (∃ (f : Nat) (st2 : VMState) (tr : List Instr),
      vmRun ((genStmt (envArrLoc 3) arrCopyStmt countersReset).1)
        f 0 stZero [] = some (st2, tr) ∧
      countOp Op.LOADX tr = 3 ∧ countOp Op.XLOAD tr = 3) ∧
    (∃ (f : Nat) (st2 : VMState) (tr : List Instr),
      vmRun ((genStmt (envArrPar 3) arrCopyStmt countersReset).1)
        f 0 stZero [] = some (st2, tr) ∧
      countOp Op.LOADX tr = 3 ∧ countOp Op.XLOAD tr = 3) :=
  claim_C5 3 (by decide) stZero stZero

/-- Modelled from the spec and LLVMCodeGen (src/unnamed/part_000): the
mutable lowering state used while dumping one subroutine, restricted to
the pieces read or written by the LABEL/UJUMP/FJUMP cases of
dumpInstruction: the per-prefix counter map llvmLocalValueCountMap, the
local and global value type maps, and the prevInstrIsTerminator flag. -/
structure LLState where
  countMap : String → Nat
  typeMap : String → String
  globalTypeMap : String → String
  prevTerm : Bool

/-- LLVMCodeGen::getLLVMValue (part_000 lines 1335-1340). -/
def getLLVMValue (t : String) : String :=
  match t.data with
  | [] => ""
  | c :: cs =>
    if c = '%' then "%.temp." ++ String.mk cs
    else if c.isDigit then t
    else "%" ++ t

/-- LLVMCodeGen::getLLVMValueAddr (part_000 lines 1342-1344). -/
def getLLVMValueAddr (v : String) : String := v ++ ".addr"

/-- LLVMCodeGen::isTCodeIdentifier (part_000 lines 180-188). -/
def isTCodeIdentifier (s : String) : Bool :=
  match s.data with
  | [] => false
  | c :: _ => !(c == '%') && !c.isDigit

/-- LLVMCodeGen::getPointedType (part_000 lines 1796-1799): drop the
last character of a pointer type. -/
def getPointedType (t : String) : String := String.mk t.data.dropLast

/-- LLVMCodeGen::getLLVMTypeOfValue (part_000 lines 1746-1751): values
starting with a percent sign are local, the rest global; an empty name
reads a null head character, which is not a percent sign. -/
def getLLVMTypeOfValue (st : LLState) (v : String) : String :=
  match v.data with
  | c :: _ => if c = '%' then st.typeMap v else st.globalTypeMap v
  | [] => st.globalTypeMap v

/-- LLVMCodeGen::createBR(llvmValue) (part_000 lines 1476-1480). -/
def createBR (v : String) : String := "    br label " ++ v ++ "\n"

/-- LLVMCodeGen::createBR(llvmValue, labelCont, labelJump)
(part_000 lines 1482-1488). -/
def createBRCond (v cont jump : String) : String :=
  "    br i1 " ++ v ++ ", label " ++ cont ++ ", label " ++ jump ++ "\n"

/-- LLVMCodeGen::createLABEL (part_000 lines 1361-1365). -/
def createLABEL (label : String) : String := "  " ++ label ++ ":\n"

/-- LLVMCodeGen::createLOAD (part_000 lines 1375-1381). -/
def createLOAD (st : LLState) (v1 addr : String) : String :=
  let tyPtr := getLLVMTypeOfValue st addr
  "    " ++ v1 ++ " = load " ++ getPointedType tyPtr ++ ", " ++ tyPtr
    ++ " " ++ addr ++ "\n"

/-- LLVMCodeGen::bindLLVMLocalValueWithType (part_000 lines 1729-1734):
record the type of a new local value and zero its counter. -/
def bindLLVMLocalValueWithType (st : LLState) (v ty : String) : LLState :=
  { st with
    typeMap := fun x => if x = v then ty else st.typeMap x,
    countMap := fun x => if x = v then 0 else st.countMap x }

/-- LLVMCodeGen::createNewPrefixedValueWithType (part_000 lines
1618-1634): bump the counter of the given prefix, build
prefix.counter, and bind it to the given type. -/
def createNewPrefixedValueWithType (st : LLState) (pfx ty : String) :
    String × LLState :=
  let n := st.countMap pfx + 1
  let st1 : LLState :=
    { st with countMap := fun x => if x = pfx then n else st.countMap x }
  let v := pfx ++ "." ++ Nat.repr n
  (v, bindLLVMLocalValueWithType st1 v ty)

/-- LLVMCodeGen::accessValueOfArgument (part_000 lines 1562-1590):
returns the llvm value of the argument, the memory-access code needed
before using it (a load when the argument is an identifier), and the
updated state. -/
def accessValueOfArgument (st : LLState) (arg : String) :
    String × String × LLState :=
  if isTCodeIdentifier arg then
    let vIn := getLLVMValue arg
    let ty := getLLVMTypeOfValue st vIn
    let addr := getLLVMValueAddr vIn
    let m := createNewPrefixedValueWithType st vIn ty
    (m.1, createLOAD m.2 m.1 addr, m.2)
  else (getLLVMValue arg, "", st)

/-- Drop the first character of a string (std::string::substr(1)). -/
def strTail (s : String) : String := String.mk s.data.tail

/-- The _LABEL case of LLVMCodeGen::dumpInstruction (part_000 lines
838-846), followed by the prevInstrIsTerminator update of lines
1316-1318. -/
def dumpLABEL (st : LLState) (label : String) : String × LLState :=
  ((if st.prevTerm then "" else createBR (getLLVMValue label))
      ++ createLABEL label,
   { st with prevTerm := false })

/-- The _UJUMP case of LLVMCodeGen::dumpInstruction (part_000 lines
847-859), followed by the prevInstrIsTerminator update of lines
1316-1318. -/
def dumpUJUMP (st : LLState) (l : String) (next : Instr) : String × LLState :=
  let llvmLabel := getLLVMValue l
  if next.oper ≠ Op.LABEL ∧ next.oper ≠ Op.NOOP then
    let m := createNewPrefixedValueWithType st "%.dead.cont" "label"
    (createBR llvmLabel ++ createLABEL (strTail m.1),
     { m.2 with prevTerm := true })
  else
    (createBR llvmLabel, { st with prevTerm := true })

/-- The _FJUMP case of LLVMCodeGen::dumpInstruction (part_000 lines
860-875), followed by the prevInstrIsTerminator update of lines
1316-1318. -/
def dumpFJUMP (st : LLState) (c l : String) (next : Instr) :
    String × LLState :=
  let a := accessValueOfArgument st c
  let labelJump := getLLVMValue l
  if next.oper ≠ Op.LABEL ∧ next.oper ≠ Op.NOOP then
    let m := createNewPrefixedValueWithType a.2.2 "%.br.cont" "label"
    (a.2.1 ++ createBRCond a.1 m.1 labelJump ++ createLABEL (strTail m.1),
     { m.2 with prevTerm := true })
  else
    (a.2.1 ++ createBRCond a.1 (getLLVMValue next.arg1) labelJump,
     { a.2.2 with prevTerm := true })

/-- C7: when the lowerer dumps `FJUMP c l` and the following t-code
instruction is a LABEL, the branch uses that label as continuation and
no fresh label is minted; when there is no following instruction (the
NOOP sentinel), the branch is emitted directly with the empty
continuation and again no fresh label; for any other following
instruction a fresh `%.br.cont.k` continuation label is minted, the
branch targets it, and the continuation label is placed immediately
after the branch.  `UJUMP l` always emits `br label %l` first. -/
theorem claim_C7 (st : LLState) (c l lab : String) (next : Instr)
    (hid : isTCodeIdentifier lab = true)
    (hnl : next.oper ≠ Op.LABEL) (hnn : next.oper ≠ Op.NOOP) :
    (dumpUJUMP st l (iLABEL lab)).1 = createBR (getLLVMValue l) ∧
    (dumpUJUMP st l iNOOP).1 = createBR (getLLVMValue l) ∧
    (dumpUJUMP st l next).1 =
      createBR (getLLVMValue l) ++
      createLABEL (".dead.cont." ++
        Nat.repr (st.countMap "%.dead.cont" + 1)) ∧
    (dumpFJUMP st c l (iLABEL lab)).1 =
      (accessValueOfArgument st c).2.1 ++
      createBRCond (accessValueOfArgument st c).1 ("%" ++ lab)
        (getLLVMValue l) ∧
    (dumpFJUMP st c l iNOOP).1 =
      (accessValueOfArgument st c).2.1 ++
      createBRCond (accessValueOfArgument st c).1 "" (getLLVMValue l) ∧
    (dumpFJUMP st c l next).1 =
      (accessValueOfArgument st c).2.1 ++
      createBRCond (accessValueOfArgument st c).1
        ("%.br.cont." ++
          Nat.repr ((accessValueOfArgument st c).2.2.countMap "%.br.cont" + 1))
        (getLLVMValue l) ++
      createLABEL (".br.cont." ++
        Nat.repr ((accessValueOfArgument st c).2.2.countMap "%.br.cont" + 1)) := by
  have htail1 : ∀ x : String,
      strTail ("%.br.cont." ++ x) = ".br.cont." ++ x := by
    intro x
    cases x with
    | mk e => rfl
  have htail2 : ∀ x : String,
      strTail ("%.dead.cont." ++ x) = ".dead.cont." ++ x := by
    intro x
    cases x with
    | mk e => rfl
  have hglab : getLLVMValue lab = "%" ++ lab := by
    cases lab with
    | mk d =>
      cases d with
      | nil => simp [isTCodeIdentifier] at hid
      | cons c0 cs =>
        simp only [isTCodeIdentifier, Bool.and_eq_true, Bool.not_eq_true'] at hid
        have h1 : ¬ (c0 = '%') := by simpa using hid.1
        simp [getLLVMValue, h1, hid.2]
  refine ⟨?_, ?_, ?_, ?_, ?_, ?_⟩
  · simp [dumpUJUMP, iLABEL]
  · simp [dumpUJUMP, iNOOP]
  · simp [dumpUJUMP, hnl, hnn, createNewPrefixedValueWithType,
      bindLLVMLocalValueWithType, htail2]
  · simp [dumpFJUMP, iLABEL, hglab]
  · simp [dumpFJUMP, iNOOP, getLLVMValue]
  · simp [dumpFJUMP, hnl, hnn, createNewPrefixedValueWithType,
      bindLLVMLocalValueWithType, htail1]

def llInit : LLState :=
  LLState.mk (fun _ => 0) (fun _ => "i32") (fun _ => "i32") false

theorem claim_C7_witness :
    (dumpUJUMP llInit "while1" (iLABEL "endwhile1")).1 =
      createBR (getLLVMValue "while1") ∧
    (dumpUJUMP llInit "while1" iNOOP).1 = createBR (getLLVMValue "while1") ∧
    (dumpUJUMP llInit "while1" (iADD "%9" "%8" "%7")).1 =
      createBR (getLLVMValue "while1") ++
      createLABEL (".dead.cont." ++
        Nat.repr (llInit.countMap "%.dead.cont" + 1)) ∧
    (dumpFJUMP llInit "%1" "while1" (iLABEL "endwhile1")).1 =
      (accessValueOfArgument llInit "%1").2.1 ++
      createBRCond (accessValueOfArgument llInit "%1").1 ("%" ++ "endwhile1")
        (getLLVMValue "while1") ∧
    (dumpFJUMP llInit "%1" "while1" iNOOP).1 =
      (accessValueOfArgument llInit "%1").2.1 ++
      createBRCond (accessValueOfArgument llInit "%1").1 ""
        (getLLVMValue "while1") ∧
    (dumpFJUMP llInit "%1" "while1" (iADD "%9" "%8" "%7")).1 =
      (accessValueOfArgument llInit "%1").2.1 ++
      createBRCond (accessValueOfArgument llInit "%1").1
        ("%.br.cont." ++
          Nat.repr
            ((accessValueOfArgument llInit "%1").2.2.countMap "%.br.cont" + 1))
        (getLLVMValue "while1") ++
      createLABEL (".br.cont." ++
        Nat.repr
          ((accessValueOfArgument llInit "%1").2.2.countMap "%.br.cont" + 1)) :=
  claim_C7 llInit "%1" "while1" "endwhile1" (iADD "%9" "%8" "%7")
    (by decide) (by decide) (by decide)

def LLVM_INT : String := "i32"

def LLVM_FLOAT : String := "float"

def LLVM_CHAR : String := "i8"

def LLVM_BOOL : String := "i1"

def LLVM_VOID : String := "void"

def LLVM_LABELTY : String := "label"

def LLVM_TYERR : String := "tErr"

def LLVM_TYMISS : String := "tMiss"

def LLVM_INT_BOOL : String := "tIntBool"

def EXIT_SUCCESS : Nat := 0

def EXIT_FAILURE : Nat := 1

/-- LLVMCodeGen::isLLVMArrayType (part_000 lines 1769-1772): an llvm
type is an array type when it contains the infix " x ". -/
def hasXInfix : List Char → Bool
  | [] => false
  | c :: tl => ((c :: tl).take 3 == [' ', 'x', ' ']) || hasXInfix tl

def isLLVMArrayType (t : String) : Bool := hasXInfix t.data

/-- Position of the first " x " infix, used by
getLLVMElementOfArrayType (part_000 lines 1774-1780). -/
def xInfixPos : List Char → Option Nat
  | [] => none
  | c :: tl =>
    if (c :: tl).take 3 = [' ', 'x', ' '] then some 0
    else (xInfixPos tl).map (· + 1)

/-- LLVMCodeGen::getLLVMElementOfArrayType (part_000 lines 1774-1780):
substr(xpos+3, len-xpos-4), the text between " x " and the closing
bracket. -/
def getLLVMElementOfArrayType (t : String) : String :=
  match xInfixPos t.data with
  | some p => String.mk ((t.data.drop (p + 3)).take (t.data.length - p - 4))
  | none => ""

/-- LLVMCodeGen::getPointerToType (part_000 lines 1792-1794). -/
def getPointerToType (t : String) : String := t ++ "*"

/-- LLVMCodeGen::getLLVMArrayTypeAsPointerType (part_000 lines
1782-1785). -/
def getLLVMArrayTypeAsPointerType (t : String) : String :=
  getPointerToType (getLLVMElementOfArrayType t)

/-- LLVMCodeGen::isPointerType (part_000 lines 1787-1790): last
character is an asterisk. -/
def isPointerType (t : String) : Bool :=
  match t.data.getLast? with
  | some c => c == '*'
  | none => false

/-- Modelled from the spec: the Types/Symbols queries used by pass A
(getFuncReturnLLVMType, getFuncParamsLLVMTypes, getLocalSymbolLLVMType,
part_000 lines 571-605) go through TypesMgr and SymTable, whose sources
are not under src/; the pass is parameterized by their answers. -/
structure LLOracle where
  funcRetLLVMType : String → String
  funcParamsLLVMTypes : String → List String
  localSymbolLLVMType : String → String → Bool → String

/-- The state built by LLVMCodeGen::bindTCodeLocalSymbolsToLLVMTypes:
the ordered list llvmLocalValueVec, the map llvmLocalValueTypeMap (None
models a key absent from the std::map), llvmLocalValueCountMap, the
paramCallsStack and the pendingCallLLVMRetType member (default
constructed to the empty string). -/
structure BindState where
  vec : List String
  typeMap : String → Option String
  countMap : String → Nat
  paramStack : List String
  pendingRet : String

def emptyBindState : BindState :=
  BindState.mk [] (fun _ => none) (fun _ => 0) [] ""

/-- A direct llvmLocalValueTypeMap[key] = ty write (no vec push). -/
def setTypeRaw (st : BindState) (k ty : String) : BindState :=
  { st with typeMap := fun x => if x = k then some ty else st.typeMap x }

/-- llvmLocalValueTypeMap.at(v) as used by pass A; all keys read here
start with a percent sign, so the global-map branch of
getLLVMTypeOfValue is unreachable, and a missing key (which would abort
the process) is modelled as the fatal tMiss type. -/
def getBindTypeOfValue (st : BindState) (v : String) : String :=
  (st.typeMap v).getD LLVM_TYMISS

/-- LLVMCodeGen::bindTCodeLocalValueWithType (part_000 lines 1650-1680):
first binding registers the value; a rebinding merges the new type with
the current one (tIntBool is compatible with i32/i1, disagreements make
tErr, tErr absorbs, tMiss never overwrites). -/
def bindTCodeLocalValueWithType (st : BindState) (arg ty : String) :
    BindState :=
  if isTCodeIdentifier arg || isTCodeTemporal arg then
    let v := getLLVMValue arg
    match st.typeMap v with
    | none =>
      { st with
        vec := st.vec ++ [v],
        typeMap := fun x => if x = v then some ty else st.typeMap x,
        countMap := fun x => if x = v then 0 else st.countMap x }
    | some cur =>
      if cur ≠ LLVM_TYERR ∧ ty ≠ LLVM_TYMISS then
        if cur = LLVM_INT_BOOL then
          if ty = LLVM_INT ∨ ty = LLVM_BOOL ∨ ty = LLVM_INT_BOOL then
            setTypeRaw st v ty
          else setTypeRaw st v LLVM_TYERR
        else if ty = LLVM_INT_BOOL then
          if cur = LLVM_TYMISS then setTypeRaw st v ty
          else if cur ≠ LLVM_INT ∧ cur ≠ LLVM_BOOL ∧ cur ≠ LLVM_INT_BOOL then
            setTypeRaw st v LLVM_TYERR
          else st
        else if cur ≠ LLVM_TYMISS ∧ cur ≠ ty then setTypeRaw st v LLVM_TYERR
        else st
      else st
  else st

/-- LLVMCodeGen::bindPairOfTCodeLocalValuesWithTypes (part_000 lines
1682-1727).  Note the source quirk kept here: presence is tested and
writes are keyed by the raw t-code argument names, while the types read
are those of the corresponding llvm values. -/
def bindPairOfTCodeLocalValuesWithTypes (st : BindState) (a1 a2 : String) :
    BindState :=
  let v1 := getLLVMValue a1
  let v2 := getLLVMValue a2
  match st.typeMap a1, st.typeMap a2 with
  | none, none => setTypeRaw (setTypeRaw st a1 LLVM_TYMISS) a2 LLVM_TYMISS
  | some _, none =>
    let t1 := getBindTypeOfValue st v1
    if t1 = LLVM_TYERR then setTypeRaw st a2 LLVM_TYMISS
    else setTypeRaw st a2 t1
  | none, some _ =>
    let t2 := getBindTypeOfValue st v2
    if t2 = LLVM_TYERR then setTypeRaw st a1 LLVM_TYMISS
    else setTypeRaw st a1 t2
  | some _, some _ =>
    let t1 := getBindTypeOfValue st v1
    let t2 := getBindTypeOfValue st v2
    if t1 ≠ LLVM_TYERR ∧ t2 ≠ LLVM_TYERR then
      if t1 ≠ LLVM_TYMISS ∧ t2 = LLVM_TYMISS then setTypeRaw st a2 t1
      else if t1 = LLVM_TYMISS ∧ t2 ≠ LLVM_TYMISS then setTypeRaw st a1 t2
      else if (t1 = LLVM_INT ∨ t1 = LLVM_BOOL) ∧ t2 = LLVM_INT_BOOL then
        setTypeRaw st a2 t1
      else if t1 = LLVM_INT_BOOL ∧ (t2 = LLVM_INT ∨ t2 = LLVM_BOOL) then
        setTypeRaw st a1 t2
      else if t1 ≠ LLVM_TYMISS ∧ t2 ≠ LLVM_TYMISS ∧ t1 ≠ t2 then
        setTypeRaw (setTypeRaw st a1 LLVM_TYERR) a2 LLVM_TYERR
      else st
    else st

/-- The per-instruction part of bindTCodeLocalSymbolsToLLVMTypes
(part_000 lines 263-541): one case of its switch.  stoi of an ILOAD
literal is the decimal value of its digits. -/
def bindStep (orc : LLOracle) (st : BindState) (i : Instr) : BindState :=
  match i.oper with
  | Op.LABEL => bindTCodeLocalValueWithType st i.arg1 LLVM_LABELTY
  | Op.UJUMP => bindTCodeLocalValueWithType st i.arg1 LLVM_LABELTY
  | Op.FJUMP =>
    bindTCodeLocalValueWithType
      (bindTCodeLocalValueWithType st i.arg1 LLVM_BOOL) i.arg2 LLVM_LABELTY
  | Op.HALT => st
  | Op.LOAD =>
    if isTCodeIdentifier i.arg1 && isTCodeTemporal i.arg2 then
      bindTCodeLocalValueWithType st i.arg2
        (getBindTypeOfValue st (getLLVMValue i.arg1))
    else if isTCodeTemporal i.arg1 && isTCodeIdentifier i.arg2 then
      bindTCodeLocalValueWithType st i.arg1
        (getBindTypeOfValue st (getLLVMValue i.arg2))
    else if isTCodeTemporal i.arg1 && isTCodeTemporal i.arg2 then
      bindTCodeLocalValueWithType st i.arg1
        (getBindTypeOfValue st (getLLVMValue i.arg2))
    else st
  | Op.ILOAD =>
    let n := valDigits i.arg2.data
    if n ≠ 0 ∧ n ≠ 1 then bindTCodeLocalValueWithType st i.arg1 LLVM_INT
    else bindTCodeLocalValueWithType st i.arg1 LLVM_INT_BOOL
  | Op.FLOAD => bindTCodeLocalValueWithType st i.arg1 LLVM_FLOAT
  | Op.CHLOAD => bindTCodeLocalValueWithType st i.arg1 LLVM_CHAR
  | Op.PUSH =>
    if i.arg1 ≠ "" then
      let st1 := bindTCodeLocalValueWithType st i.arg1 LLVM_TYMISS
      { st1 with paramStack := i.arg1 :: st1.paramStack }
    else st
  | Op.POP =>
    if i.arg1 ≠ "" then bindTCodeLocalValueWithType st i.arg1 st.pendingRet
    else st
  | Op.CALL =>
    let tys := orc.funcParamsLLVMTypes i.arg1
    let st1 := tys.reverse.foldl
      (fun s ty =>
        let top := s.paramStack.headD ""
        bindTCodeLocalValueWithType
          { s with paramStack := s.paramStack.tail } top ty)
      st
    let retTy := orc.funcRetLLVMType i.arg1
    if retTy ≠ "void" then { st1 with pendingRet := retTy } else st1
  | Op.RETURN => st
  | Op.ALOAD =>
    let t2 := getBindTypeOfValue st (getLLVMValue i.arg2)
    let t2p := if isLLVMArrayType t2 then getLLVMArrayTypeAsPointerType t2
               else t2
    bindTCodeLocalValueWithType st i.arg1 t2p
  | Op.XLOAD =>
    let t1 := getBindTypeOfValue st (getLLVMValue i.arg1)
    let elemTy :=
      if isLLVMArrayType t1 then getLLVMElementOfArrayType t1
      else if isPointerType t1 then getPointedType t1
      else LLVM_TYERR
    bindTCodeLocalValueWithType
      (bindTCodeLocalValueWithType st i.arg2 LLVM_INT) i.arg3 elemTy
  | Op.LOADX =>
    let t2 := getBindTypeOfValue st (getLLVMValue i.arg2)
    let elemTy :=
      if isLLVMArrayType t2 then getLLVMElementOfArrayType t2
      else if isPointerType t2 then getPointedType t2
      else LLVM_TYERR
    bindTCodeLocalValueWithType
      (bindTCodeLocalValueWithType st i.arg1 elemTy) i.arg3 LLVM_INT
  | Op.LOADC =>
    let t1 := getBindTypeOfValue st (getLLVMValue i.arg1)
    bindTCodeLocalValueWithType st i.arg2 (getPointerToType t1)
  | Op.CLOAD =>
    let t2 := getBindTypeOfValue st (getLLVMValue i.arg2)
    bindTCodeLocalValueWithType st i.arg1 (getPointerToType t2)
  | Op.WRITEI => bindTCodeLocalValueWithType st i.arg1 LLVM_INT_BOOL
  | Op.WRITEF => bindTCodeLocalValueWithType st i.arg1 LLVM_FLOAT
  | Op.WRITEC => bindTCodeLocalValueWithType st i.arg1 LLVM_CHAR
  | Op.WRITES => st
  | Op.WRITELN => st
  | Op.READI => bindTCodeLocalValueWithType st i.arg1 LLVM_INT_BOOL
  | Op.READF => bindTCodeLocalValueWithType st i.arg1 LLVM_FLOAT
  | Op.READC => bindTCodeLocalValueWithType st i.arg1 LLVM_CHAR
  | Op.ADD =>
    bindTCodeLocalValueWithType (bindTCodeLocalValueWithType
      (bindTCodeLocalValueWithType st i.arg1 LLVM_INT)
      i.arg2 LLVM_INT) i.arg3 LLVM_INT
  | Op.SUB =>
    bindTCodeLocalValueWithType (bindTCodeLocalValueWithType
      (bindTCodeLocalValueWithType st i.arg1 LLVM_INT)
      i.arg2 LLVM_INT) i.arg3 LLVM_INT
  | Op.MUL =>
    bindTCodeLocalValueWithType (bindTCodeLocalValueWithType
      (bindTCodeLocalValueWithType st i.arg1 LLVM_INT)
      i.arg2 LLVM_INT) i.arg3 LLVM_INT
  | Op.DIV =>
    bindTCodeLocalValueWithType (bindTCodeLocalValueWithType
      (bindTCodeLocalValueWithType st i.arg1 LLVM_INT)
      i.arg2 LLVM_INT) i.arg3 LLVM_INT
  | Op.EQ =>
    let st1 := bindTCodeLocalValueWithType st i.arg1 LLVM_BOOL
    if isTCodeIdentifier i.arg2 && isTCodeTemporal i.arg3 then
      bindTCodeLocalValueWithType st1 i.arg3
        (getBindTypeOfValue st1 (getLLVMValue i.arg2))
    else if isTCodeTemporal i.arg2 && isTCodeIdentifier i.arg3 then
      bindTCodeLocalValueWithType st1 i.arg2
        (getBindTypeOfValue st1 (getLLVMValue i.arg3))
    else if isTCodeTemporal i.arg2 && isTCodeTemporal i.arg3 then
      bindPairOfTCodeLocalValuesWithTypes st1 i.arg2 i.arg3
    else st1
  | Op.LT =>
    let st1 := bindTCodeLocalValueWithType st i.arg1 LLVM_BOOL
    if isTCodeIdentifier i.arg2 && isTCodeTemporal i.arg3 then
      bindTCodeLocalValueWithType st1 i.arg3
        (getBindTypeOfValue st1 (getLLVMValue i.arg2))
    else if isTCodeTemporal i.arg2 && isTCodeIdentifier i.arg3 then
      bindTCodeLocalValueWithType st1 i.arg2
        (getBindTypeOfValue st1 (getLLVMValue i.arg3))
    else if isTCodeTemporal i.arg2 && isTCodeTemporal i.arg3 then
      bindPairOfTCodeLocalValuesWithTypes st1 i.arg2 i.arg3
    else st1
  | Op.LE =>
    let st1 := bindTCodeLocalValueWithType st i.arg1 LLVM_BOOL
    if isTCodeIdentifier i.arg2 && isTCodeTemporal i.arg3 then
      bindTCodeLocalValueWithType st1 i.arg3
        (getBindTypeOfValue st1 (getLLVMValue i.arg2))
    else if isTCodeTemporal i.arg2 && isTCodeIdentifier i.arg3 then
      bindTCodeLocalValueWithType st1 i.arg2
        (getBindTypeOfValue st1 (getLLVMValue i.arg3))
    else if isTCodeTemporal i.arg2 && isTCodeTemporal i.arg3 then
      bindPairOfTCodeLocalValuesWithTypes st1 i.arg2 i.arg3
    else st1
  | Op.FEQ =>
    bindTCodeLocalValueWithType (bindTCodeLocalValueWithType
      (bindTCodeLocalValueWithType st i.arg1 LLVM_BOOL)
      i.arg2 LLVM_FLOAT) i.arg3 LLVM_FLOAT
  | Op.FLT =>
    bindTCodeLocalValueWithType (bindTCodeLocalValueWithType
      (bindTCodeLocalValueWithType st i.arg1 LLVM_BOOL)
      i.arg2 LLVM_FLOAT) i.arg3 LLVM_FLOAT
  | Op.FLE =>
    bindTCodeLocalValueWithType (bindTCodeLocalValueWithType
      (bindTCodeLocalValueWithType st i.arg1 LLVM_BOOL)
      i.arg2 LLVM_FLOAT) i.arg3 LLVM_FLOAT
  | Op.NEG =>
    bindTCodeLocalValueWithType
      (bindTCodeLocalValueWithType st i.arg1 LLVM_INT) i.arg2 LLVM_INT
  | Op.FADD =>
    bindTCodeLocalValueWithType (bindTCodeLocalValueWithType
      (bindTCodeLocalValueWithType st i.arg1 LLVM_FLOAT)
      i.arg2 LLVM_FLOAT) i.arg3 LLVM_FLOAT
  | Op.FSUB =>
    bindTCodeLocalValueWithType (bindTCodeLocalValueWithType
      (bindTCodeLocalValueWithType st i.arg1 LLVM_FLOAT)
      i.arg2 LLVM_FLOAT) i.arg3 LLVM_FLOAT
  | Op.FMUL =>
    bindTCodeLocalValueWithType (bindTCodeLocalValueWithType
      (bindTCodeLocalValueWithType st i.arg1 LLVM_FLOAT)
      i.arg2 LLVM_FLOAT) i.arg3 LLVM_FLOAT
  | Op.FDIV =>
    bindTCodeLocalValueWithType (bindTCodeLocalValueWithType
      (bindTCodeLocalValueWithType st i.arg1 LLVM_FLOAT)
      i.arg2 LLVM_FLOAT) i.arg3 LLVM_FLOAT
  | Op.FNEG =>
    bindTCodeLocalValueWithType
      (bindTCodeLocalValueWithType st i.arg1 LLVM_FLOAT) i.arg2 LLVM_FLOAT
  | Op.FLOAT =>
    bindTCodeLocalValueWithType
      (bindTCodeLocalValueWithType st i.arg1 LLVM_FLOAT) i.arg2 LLVM_INT
  | Op.AND =>
    bindTCodeLocalValueWithType (bindTCodeLocalValueWithType
      (bindTCodeLocalValueWithType st i.arg1 LLVM_BOOL)
      i.arg2 LLVM_BOOL) i.arg3 LLVM_BOOL
  | Op.OR =>
    bindTCodeLocalValueWithType (bindTCodeLocalValueWithType
      (bindTCodeLocalValueWithType st i.arg1 LLVM_BOOL)
      i.arg2 LLVM_BOOL) i.arg3 LLVM_BOOL
  | Op.NOT =>
    bindTCodeLocalValueWithType
      (bindTCodeLocalValueWithType st i.arg1 LLVM_BOOL) i.arg2 LLVM_BOOL
  | Op.NOOP => st
  | Op.INVALID => st

/-- LLVMCodeGen::bindTCodeLocalSymbolsToLLVMTypes (part_000 lines
246-569): bind parameters and local variables to their declared llvm
types, run the per-instruction binding switch, and fail (exit
EXIT_FAILURE, lines 547-563) when some registered value ends with type
tErr or tMiss; otherwise the surviving tIntBool values become i32. -/
def bindSubrFinalState (orc : LLOracle) (subr : Subr) : BindState :=
  let st1 := subr.params.foldl
    (fun s p =>
      let ty := if p.name = "_result" then orc.funcRetLLVMType subr.name
                else orc.localSymbolLLVMType subr.name p.name true
      bindTCodeLocalValueWithType s p.name ty)
    emptyBindState
  let st2 := subr.vars.foldl
    (fun s v =>
      bindTCodeLocalValueWithType s v.name
        (orc.localSymbolLLVMType subr.name v.name false))
    st1
  subr.instrs.foldl (bindStep orc) st2

/-- The final scan of part_000 lines 542-553: does some registered
value end with type tErr or tMiss? -/
def bindSubrFails (orc : LLOracle) (subr : Subr) : Bool :=
  let st3 := bindSubrFinalState orc subr
  st3.vec.any (fun v =>
    getBindTypeOfValue st3 v == LLVM_TYERR ||
    getBindTypeOfValue st3 v == LLVM_TYMISS)

def bindTCodeLocalSymbolsToLLVMTypes (orc : LLOracle) (subr : Subr) :
    Except Nat BindState :=
  if bindSubrFails orc subr then Except.error EXIT_FAILURE
  else
    Except.ok
      ((bindSubrFinalState orc subr).vec.foldl
        (fun s v =>
          if getBindTypeOfValue s v = LLVM_INT_BOOL then
            setTypeRaw s v LLVM_INT
          else s)
        (bindSubrFinalState orc subr))

/-- The LLVMCodeGen constructor (part_000 lines 108-129): run the SSA
pre-check; on failure print the warning banner and exit EXIT_SUCCESS
before anything else happens. -/
def llvmCodeGenConstruct (tCode : List Subr) : Except Nat Unit :=
  if check_SSA_fails tCode then Except.error EXIT_SUCCESS else Except.ok ()

/-- The per-subroutine loop of dumpLLVM (part_000 lines 700-705): bind
each subroutine's local symbols in order, stopping at the first
failure. -/
def bindAllSubrs (orc : LLOracle) : List Subr → Except Nat (List BindState)
  | [] => Except.ok []
  | s :: rest =>
    match bindTCodeLocalSymbolsToLLVMTypes orc s with
    | Except.error k => Except.error k
    | Except.ok b =>
      match bindAllSubrs orc rest with
      | Except.error k => Except.error k
      | Except.ok bs => Except.ok (b :: bs)

/-- The lowering pipeline as observed through its exit status: the
constructor runs first (so a failed SSA check aborts before any IR is
produced), then pass A runs per subroutine. -/
def lowerTCode (orc : LLOracle) (tCode : List Subr) :
    Except Nat (List BindState) :=
  match llvmCodeGenConstruct tCode with
  | Except.error k => Except.error k
  | Except.ok _ => bindAllSubrs orc tCode

theorem bindSubr_error_code (orc : LLOracle) (s : Subr) (k : Nat)
    (h : bindTCodeLocalSymbolsToLLVMTypes orc s = Except.error k) :
    k = EXIT_FAILURE := by
  unfold bindTCodeLocalSymbolsToLLVMTypes at h
  split at h
  · cases h
    rfl
  · cases h

theorem bindAllSubrs_error_code (orc : LLOracle) (l : List Subr) (k : Nat)
    (h : bindAllSubrs orc l = Except.error k) : k = EXIT_FAILURE := by
  induction l with
  | nil => simp [bindAllSubrs] at h
  | cons s rest ih =>
    unfold bindAllSubrs at h
    cases hb : bindTCodeLocalSymbolsToLLVMTypes orc s with
    | error k1 =>
      rw [hb] at h
      cases h
      exact bindSubr_error_code orc s k hb
    | ok b =>
      rw [hb] at h
      cases hr : bindAllSubrs orc rest with
      | error k2 =>
        rw [hr] at h
        cases h
        exact ih hr
      | ok bs =>
        rw [hr] at h
        cases h

/-- C10: a failed SSA pre-check makes the lowerer exit with status
EXIT_SUCCESS = 0 before binding or dumping anything, while every
erroneous exit of pass A carries status EXIT_FAILURE, which is nonzero;
so by exit code alone the refuse-to-lower path looks like success. -/
theorem claim_C10 (orc : LLOracle) (tA tB : List Subr) (k : Nat)
    (hA : check_SSA_fails tA = true)
    (hBssa : check_SSA_fails tB = false)
    (hBerr : lowerTCode orc tB = Except.error k) :
    lowerTCode orc tA = Except.error EXIT_SUCCESS ∧
    EXIT_SUCCESS = 0 ∧
    k = EXIT_FAILURE ∧
    EXIT_FAILURE ≠ EXIT_SUCCESS := by
  refine ⟨?_, rfl, ?_, by decide⟩
  · simp [lowerTCode, llvmCodeGenConstruct, hA]
  · have h2 : bindAllSubrs orc tB = Except.error k := by
      simpa [lowerTCode, llvmCodeGenConstruct, hBssa] using hBerr
    exact bindAllSubrs_error_code orc tB k h2

def orcW : LLOracle :=
  LLOracle.mk (fun _ => "void") (fun _ => []) (fun _ _ _ => "i32")

def subrA : Subr :=
  Subr.mk "main" [] [] [iADD "%1" "1" "2", iADD "%1" "1" "2"]

def subrB : Subr :=
  Subr.mk "main" [] [] [iFADD "%1" "%2" "%3", iADD "%4" "%1" "%5"]

theorem claim_C10_witness :
    lowerTCode orcW [subrA] = Except.error EXIT_SUCCESS ∧
    EXIT_SUCCESS = 0 ∧
    EXIT_FAILURE = EXIT_FAILURE ∧
    EXIT_FAILURE ≠ EXIT_SUCCESS :=
  claim_C10 orcW [subrA] [subrB] EXIT_FAILURE (by decide) (by decide) (by rfl)

/-- A source identifier as produced by the lexer: it starts with a
letter, hence is never mistaken for a t-code temporary. -/
def identOk (id : String) : Bool :=
  match id.data with
  | c :: _ => c.isAlpha
  | [] => false

theorem identOk_not_temporal (id : String) (h : identOk id = true) :
    isTCodeTemporal id = false := by
  unfold identOk at h
  unfold isTCodeTemporal
  cases hd : id.data with
  | nil => rfl
  | cons c cs =>
    rw [hd] at h
    cases cs with
    | nil => rfl
    | cons c1 cs1 =>
      simp only [Bool.and_eq_false_iff]
      left
      have : ¬ c = '%' := by
        intro hc
        rw [hc] at h
        have h2 : ('%').isAlpha = true := h
        exact absurd h2 (by decide)
      simp [this]

theorem identOk_ne_empty (id : String) (h : identOk id = true) : id ≠ "" := by
  intro he
  rw [he] at h
  exact absurd h (by decide)

mutual

/-- An expression free of the two pseudo-SSA-breaking constructs (it has
no modulus operator) whose identifiers are lexer-shaped. -/
def cleanExpr : Expr → Bool
  | Expr.identE id => identOk id
  | Expr.paren e => cleanExpr e
  | Expr.lit _ => true
  | Expr.arrAccess id idx => identOk id && cleanExpr idx
  | Expr.unary _ e => cleanExpr e
  | Expr.arith op e1 e2 =>
      (op != ArithOp.aMOD) && cleanExpr e1 && cleanExpr e2
  | Expr.logicE _ e1 e2 => cleanExpr e1 && cleanExpr e2
  | Expr.rel _ e1 e2 => cleanExpr e1 && cleanExpr e2
  | Expr.callE f args => identOk f && cleanArgs args

def cleanArgs : ExprList → Bool
  | ExprList.nil => true
  | ExprList.cons e es => cleanExpr e && cleanArgs es

end

def cleanLExpr : LExpr → Bool
  | LExpr.simpleId id => identOk id
  | LExpr.arrayId id idx => identOk id && cleanExpr idx

mutual

/-- A statement free of the two pseudo-SSA-breaking constructs: no
modulus operator and no array-to-array assignment. -/
def cleanStmt (G : SymEnv) : Stmt → Bool
  | Stmt.assign l e =>
      cleanLExpr l && cleanExpr e &&
      !(isArrayTy (decorLTy G l) && isArrayTy (decorTy G e))
  | Stmt.ifS cnd thn els =>
      cleanExpr cnd && cleanStmts G thn &&
      (match els with
       | none => true
       | some ss => cleanStmts G ss)
  | Stmt.whileS cnd body => cleanExpr cnd && cleanStmts G body
  | Stmt.procCall f args => identOk f && cleanArgs args
  | Stmt.readS l => cleanLExpr l
  | Stmt.writeE e => cleanExpr e
  | Stmt.writeStr _ => true
  | Stmt.retS none => true
  | Stmt.retS (some e) => cleanExpr e

def cleanStmts (G : SymEnv) : StmtList → Bool
  | StmtList.nil => true
  | StmtList.cons s ss => cleanStmt G s && cleanStmts G ss

end

/-- All counted destinations of the code are freshly numbered
temporaries in the interval (lo, hi], no two alike. -/
def TempRange (lo hi : Nat) (code : List Instr) : Prop :=
  (∀ t ∈ ssaDests code, ∃ n, t = mkTemp n ∧ lo < n ∧ n ≤ hi) ∧
  (ssaDests code).Nodup

theorem ssaDests_append (a b : List Instr) :
    ssaDests (a ++ b) = ssaDests a ++ ssaDests b := by
  simp [ssaDests, List.filterMap_append]

theorem tempRange_nil (lo hi : Nat) : TempRange lo hi [] :=
  ⟨by simp [ssaDests], by simp [ssaDests]⟩

theorem tempRange_mono {lo hi lo' hi' : Nat} {code : List Instr}
    (h : TempRange lo hi code) (h1 : lo' ≤ lo) (h2 : hi ≤ hi') :
    TempRange lo' hi' code := by
  refine ⟨?_, h.2⟩
  intro t ht
  obtain ⟨n, hn, hlo, hhi⟩ := h.1 t ht
  exact ⟨n, hn, lt_of_le_of_lt h1 hlo, le_trans hhi h2⟩

theorem tempRange_append {lo mid hi : Nat} {c1 c2 : List Instr}
    (h1 : TempRange lo mid c1) (h2 : TempRange mid hi c2)
    (hlm : lo ≤ mid) (hmh : mid ≤ hi) :
    TempRange lo hi (c1 ++ c2) := by
  rw [TempRange, ssaDests_append]
  constructor
  · intro t ht
    rcases List.mem_append.mp ht with hm | hm
    · obtain ⟨n, hn, ha, hb⟩ := h1.1 t hm
      exact ⟨n, hn, ha, le_trans hb hmh⟩
    · obtain ⟨n, hn, ha, hb⟩ := h2.1 t hm
      exact ⟨n, hn, lt_of_le_of_lt hlm ha, hb⟩
  · refine List.Nodup.append h1.2 h2.2 ?_
    intro t ht1 ht2
    obtain ⟨n, hn, ha, hb⟩ := h1.1 t ht1
    obtain ⟨m, hm, hc, hd⟩ := h2.1 t ht2
    have : n = m := mkTemp_injective (by rw [← hn, ← hm])
    omega

/-- Append where the second block's temporaries all lie below the first
block's. -/
theorem tempRange_append_swap {lo mid hi : Nat} {c1 c2 : List Instr}
    (h1 : TempRange mid hi c1) (h2 : TempRange lo mid c2)
    (hlm : lo ≤ mid) (hmh : mid ≤ hi) :
    TempRange lo hi (c1 ++ c2) := by
  rw [TempRange, ssaDests_append]
  constructor
  · intro t ht
    rcases List.mem_append.mp ht with hm | hm
    · obtain ⟨n, hn, ha, hb⟩ := h1.1 t hm
      exact ⟨n, hn, lt_of_le_of_lt hlm ha, hb⟩
    · obtain ⟨n, hn, ha, hb⟩ := h2.1 t hm
      exact ⟨n, hn, ha, le_trans hb hmh⟩
  · refine List.Nodup.append h1.2 h2.2 ?_
    intro t ht1 ht2
    obtain ⟨n, hn, ha, hb⟩ := h1.1 t ht1
    obtain ⟨m, hm, hc, hd⟩ := h2.1 t ht2
    have : n = m := mkTemp_injective (by rw [← hn, ← hm])
    omega

theorem tempRange_single_none {lo hi : Nat} {i : Instr}
    (h : ssaDest i = none) : TempRange lo hi [i] := by
  constructor
  · intro t ht
    simp [ssaDests, h] at ht
  · simp [ssaDests, h]

theorem tempRange_single {lo hi n : Nat} {i : Instr}
    (h : ssaDest i = some (mkTemp n)) (h1 : lo < n) (h2 : n ≤ hi) :
    TempRange lo hi [i] := by
  constructor
  · intro t ht
    simp [ssaDests, h] at ht
    exact ⟨n, ht, h1, h2⟩
  · simp [ssaDests, h]

theorem tempRange_snoc_none {lo hi : Nat} {c : List Instr} {i : Instr}
    (hc : TempRange lo hi c) (h : ssaDest i = none) :
    TempRange lo hi (c ++ [i]) := by
  rw [TempRange, ssaDests_append]
  have hd : ssaDests [i] = [] := by simp [ssaDests, h]
  rw [hd, List.append_nil]
  exact hc

theorem tempRange_cons_none {lo hi : Nat} {c : List Instr} {i : Instr}
    (hc : TempRange lo hi c) (h : ssaDest i = none) :
    TempRange lo hi (i :: c) := by
  have : i :: c = [i] ++ c := rfl
  rw [this, TempRange, ssaDests_append]
  have hd : ssaDests [i] = [] := by simp [ssaDests, h]
  rw [hd, List.nil_append]
  exact hc

theorem mkTemp_ne_empty (n : Nat) : mkTemp n ≠ "" := by
  intro h
  have hd := congrArg String.data h
  simp [mkTemp, String.data_append] at hd

theorem mkTemp_def (n : Nat) : "%" ++ Nat.repr n = mkTemp n := rfl

theorem tempRange_snoc_fresh {lo hi : Nat} {c : List Instr} {i : Instr}
    (hc : TempRange lo hi c)
    (hd : ssaDest i = some (mkTemp (hi + 1))) (hlo : lo ≤ hi) :
    TempRange lo (hi + 1) (c ++ [i]) :=
  tempRange_append hc
    (tempRange_single hd (Nat.lt_succ_self _) (le_refl _)) hlo (Nat.le_succ _)

theorem tempRange_append_nodest {lo hi : Nat} {c1 c2 : List Instr}
    (h : TempRange lo hi c1) (h2 : ssaDests c2 = []) :
    TempRange lo hi (c1 ++ c2) := by
  rw [TempRange, ssaDests_append, h2, List.append_nil]
  exact h

theorem ssaDest_iPOP0 : ssaDest iPOP0 = none := rfl

theorem ssaDest_iPUSH0 : ssaDest iPUSH0 = none := rfl

theorem ssaDest_iPUSH (x : String) : ssaDest (iPUSH x) = none := rfl

theorem ssaDests_replicate_pop0 (k : Nat) :
    ssaDests (List.replicate k iPOP0) = [] := by
  induction k with
  | zero => simp [ssaDests]
  | succ n ih =>
      rw [List.replicate_succ]
      show ssaDests ([iPOP0] ++ List.replicate n iPOP0) = []
      rw [ssaDests_append, ih]
      simp [ssaDests, ssaDest_iPOP0]

/-- Three blocks whose temporaries occupy the intervals (lo,m], (k,hi]
and (m,k] respectively: the append in that order stays duplicate
free. -/
theorem tempRange_sandwich {lo m k hi : Nat} {c0 c1 c2 : List Instr}
    (h0 : TempRange lo m c0) (h1 : TempRange k hi c1)
    (h2 : TempRange m k c2)
    (hlm : lo ≤ m) (hmk : m ≤ k) (hkh : k ≤ hi) :
    TempRange lo hi ((c0 ++ c1) ++ c2) := by
  rw [TempRange, ssaDests_append, ssaDests_append]
  constructor
  · intro t ht
    rcases List.mem_append.mp ht with hm | hm
    · rcases List.mem_append.mp hm with hm2 | hm2
      · obtain ⟨n, hn, ha, hb⟩ := h0.1 t hm2
        exact ⟨n, hn, ha, by omega⟩
      · obtain ⟨n, hn, ha, hb⟩ := h1.1 t hm2
        exact ⟨n, hn, by omega, hb⟩
    · obtain ⟨n, hn, ha, hb⟩ := h2.1 t hm
      exact ⟨n, hn, by omega, by omega⟩
  · have h01 : ((ssaDests c0) ++ (ssaDests c1)).Nodup := by
      refine List.Nodup.append h0.2 h1.2 ?_
      intro t ht1 ht2
      obtain ⟨n, hn, ha, hb⟩ := h0.1 t ht1
      obtain ⟨nn, hnn, hc, hd⟩ := h1.1 t ht2
      have : n = nn := mkTemp_injective (by rw [← hn, ← hnn])
      omega
    refine List.Nodup.append h01 h2.2 ?_
    intro t ht1 ht2
    obtain ⟨nn, hnn, hc, hd⟩ := h2.1 t ht2
    rcases List.mem_append.mp ht1 with hm | hm
    · obtain ⟨n, hn, ha, hb⟩ := h0.1 t hm
      have : n = nn := mkTemp_injective (by rw [← hn, ← hnn])
      omega
    · obtain ⟨n, hn, ha, hb⟩ := h1.1 t hm
      have : n = nn := mkTemp_injective (by rw [← hn, ← hnn])
      omega

mutual

theorem genExpr_fresh (G : SymEnv) :
    ∀ (e : Expr) (c : Counters), cleanExpr e = true →
      c.temps ≤ ((genExpr G e c).2).temps ∧
      TempRange c.temps ((genExpr G e c).2).temps ((genExpr G e c).1).code ∧
      ((genExpr G e c).1).addr ≠ ""
  | Expr.identE id, c, h => by
      simp only [genExpr]
      exact ⟨le_refl _, tempRange_nil _ _, identOk_ne_empty id h⟩
  | Expr.paren e, c, h => by
      simp only [genExpr]
      exact genExpr_fresh G e c (by simpa [cleanExpr] using h)
  | Expr.lit v, c, h => by
      cases v with
      | intL n =>
          simp only [genExpr, newTEMP, mkTemp_def]
          refine ⟨Nat.le_succ _, ?_, mkTemp_ne_empty _⟩
          exact tempRange_single
            (by simp [ssaDest, iILOAD, isTCodeTemporal_mkTemp])
            (Nat.lt_succ_self _) (le_refl _)
      | floatL s =>
          simp only [genExpr, newTEMP, mkTemp_def]
          refine ⟨Nat.le_succ _, ?_, mkTemp_ne_empty _⟩
          exact tempRange_single
            (by simp [ssaDest, iFLOAD, isTCodeTemporal_mkTemp])
            (Nat.lt_succ_self _) (le_refl _)
      | charL s =>
          simp only [genExpr, newTEMP, mkTemp_def]
          refine ⟨Nat.le_succ _, ?_, mkTemp_ne_empty _⟩
          exact tempRange_single
            (by simp [ssaDest, iCHLOAD, isTCodeTemporal_mkTemp])
            (Nat.lt_succ_self _) (le_refl _)
      | boolL b =>
          cases b with
          | true =>
              simp only [genExpr, newTEMP, mkTemp_def]
              refine ⟨Nat.le_succ _, ?_, mkTemp_ne_empty _⟩
              exact tempRange_single
                (by simp [ssaDest, iILOAD, isTCodeTemporal_mkTemp])
                (Nat.lt_succ_self _) (le_refl _)
          | false =>
              simp only [genExpr, newTEMP, mkTemp_def]
              refine ⟨Nat.le_succ _, ?_, mkTemp_ne_empty _⟩
              exact tempRange_single
                (by simp [ssaDest, iILOAD, isTCodeTemporal_mkTemp])
                (Nat.lt_succ_self _) (le_refl _)
  | Expr.arrAccess id idx, c, h => by
      simp only [cleanExpr, Bool.and_eq_true] at h
      obtain ⟨iha, ihb, ihc⟩ := genExpr_fresh G idx c h.2
      by_cases hP : isParameterClass G id = true
      · simp [genExpr, hP, newTEMP, mkTemp_def, -List.append_assoc]
        have hpair : TempRange ((genExpr G idx c).2.temps)
            ((genExpr G idx c).2.temps + 1 + 1)
            ([iLOAD (mkTemp ((genExpr G idx c).2.temps + 1 + 1)) id] ++
             [iLOADX (mkTemp ((genExpr G idx c).2.temps + 1))
               (mkTemp ((genExpr G idx c).2.temps + 1 + 1))
               (genExpr G idx c).1.addr]) :=
          @tempRange_append_swap ((genExpr G idx c).2.temps)
            ((genExpr G idx c).2.temps + 1)
            ((genExpr G idx c).2.temps + 1 + 1) _ _
            (@tempRange_single ((genExpr G idx c).2.temps + 1)
              ((genExpr G idx c).2.temps + 1 + 1)
              ((genExpr G idx c).2.temps + 1 + 1) _
              (by simp [ssaDest, iLOAD, isTCodeTemporal_mkTemp])
              (by omega) (le_refl _))
            (@tempRange_single ((genExpr G idx c).2.temps)
              ((genExpr G idx c).2.temps + 1)
              ((genExpr G idx c).2.temps + 1) _
              (by simp [ssaDest, iLOADX, isTCodeTemporal_mkTemp])
              (by omega) (by omega))
            (by omega) (by omega)
        have hall : TempRange c.temps ((genExpr G idx c).2.temps + 1 + 1)
            ((genExpr G idx c).1.code ++
             ([iLOAD (mkTemp ((genExpr G idx c).2.temps + 1 + 1)) id] ++
              [iLOADX (mkTemp ((genExpr G idx c).2.temps + 1))
                (mkTemp ((genExpr G idx c).2.temps + 1 + 1))
                (genExpr G idx c).1.addr])) :=
          tempRange_append ihb hpair iha (by omega)
        exact ⟨by omega, hall, mkTemp_ne_empty _⟩
      · simp [genExpr, hP, newTEMP, mkTemp_def, -List.append_assoc]
        have hall : TempRange c.temps ((genExpr G idx c).2.temps + 1)
            ((genExpr G idx c).1.code ++
             [iLOADX (mkTemp ((genExpr G idx c).2.temps + 1)) id
               (genExpr G idx c).1.addr]) :=
          tempRange_snoc_fresh ihb
            (by simp [ssaDest, iLOADX, isTCodeTemporal_mkTemp]) iha
        exact ⟨by omega, hall, mkTemp_ne_empty _⟩
  | Expr.unary op e, c, h => by
      obtain ⟨iha, ihb, ihc⟩ := genExpr_fresh G e c (by simpa [cleanExpr] using h)
      by_cases hU : (op == UnOp.uPLUS) = true
      · simp only [genExpr, hU, if_true]
        exact ⟨iha, ihb, ihc⟩
      · by_cases hN : (op == UnOp.uNOT) = true
        · simp [genExpr, hU, hN, newTEMP, mkTemp_def, -List.append_assoc]
          have hall : TempRange c.temps ((genExpr G e c).2.temps + 1)
              ((genExpr G e c).1.code ++
               [iNOT (mkTemp ((genExpr G e c).2.temps + 1))
                 (genExpr G e c).1.addr]) :=
            tempRange_snoc_fresh ihb
              (by simp [ssaDest, iNOT, isTCodeTemporal_mkTemp]) iha
          exact ⟨by omega, hall, mkTemp_ne_empty _⟩
        · by_cases hI : isIntegerTy (decorTy G e) = true
          · simp [genExpr, hU, hN, hI, newTEMP, mkTemp_def, -List.append_assoc]
            have hall : TempRange c.temps ((genExpr G e c).2.temps + 1)
                ((genExpr G e c).1.code ++
                 [iNEG (mkTemp ((genExpr G e c).2.temps + 1))
                   (genExpr G e c).1.addr]) :=
              tempRange_snoc_fresh ihb
                (by simp [ssaDest, iNEG, isTCodeTemporal_mkTemp]) iha
            exact ⟨by omega, hall, mkTemp_ne_empty _⟩
          · simp [genExpr, hU, hN, hI, newTEMP, mkTemp_def, -List.append_assoc]
            have hall : TempRange c.temps ((genExpr G e c).2.temps + 1)
                ((genExpr G e c).1.code ++
                 [iFNEG (mkTemp ((genExpr G e c).2.temps + 1))
                   (genExpr G e c).1.addr]) :=
              tempRange_snoc_fresh ihb
                (by simp [ssaDest, iFNEG, isTCodeTemporal_mkTemp]) iha
            exact ⟨by omega, hall, mkTemp_ne_empty _⟩
  | Expr.arith op e1 e2, c, h => by
      simp only [cleanExpr, Bool.and_eq_true] at h
      obtain ⟨⟨hop, hcl1⟩, hcl2⟩ := h
      obtain ⟨ih1a, ih1b, ih1c⟩ := genExpr_fresh G e1 c hcl1
      obtain ⟨ih2a, ih2b, ih2c⟩ :=
        genExpr_fresh G e2 ((genExpr G e1 c).2) hcl2
      have hc0 : TempRange c.temps
          ((genExpr G e2 (genExpr G e1 c).2).2).temps
          ((genExpr G e1 c).1.code ++
            (genExpr G e2 (genExpr G e1 c).2).1.code) :=
        tempRange_append ih1b ih2b ih1a ih2a
      by_cases hF : isFloatTy (decorTy G (Expr.arith op e1 e2)) = true
      · by_cases hW1 : isFloatTy (decorTy G e1) = true
        · by_cases hW2 : isFloatTy (decorTy G e2) = true
          · cases op <;>
              first
              | exact absurd hop (by decide)
              | (simp [genExpr, hF, hW1, hW2, newTEMP, mkTemp_def,
                   -List.append_assoc];
                 exact ⟨by omega,
                   tempRange_snoc_fresh hc0
                     (by simp [ssaDest, iFADD, iFSUB, iFMUL, iFDIV, iADD,
                       iSUB, iMUL, iDIV, isTCodeTemporal_mkTemp])
                     (by omega),
                   mkTemp_ne_empty _⟩)
          · cases op <;>
              first
              | exact absurd hop (by decide)
              | (simp [genExpr, hF, hW1, hW2, newTEMP, mkTemp_def,
                   -List.append_assoc];
                 exact ⟨by omega,
                   tempRange_snoc_fresh
                     (tempRange_snoc_fresh hc0
                       (by simp [ssaDest, iFLOAT, isTCodeTemporal_mkTemp])
                       (by omega))
                     (by simp [ssaDest, iFADD, iFSUB, iFMUL, iFDIV, iADD,
                       iSUB, iMUL, iDIV, isTCodeTemporal_mkTemp])
                     (by omega),
                   mkTemp_ne_empty _⟩)
        · by_cases hW2 : isFloatTy (decorTy G e2) = true
          · cases op <;>
              first
              | exact absurd hop (by decide)
              | (simp [genExpr, hF, hW1, hW2, newTEMP, mkTemp_def,
                   -List.append_assoc];
                 exact ⟨by omega,
                   tempRange_snoc_fresh
                     (tempRange_snoc_fresh hc0
                       (by simp [ssaDest, iFLOAT, isTCodeTemporal_mkTemp])
                       (by omega))
                     (by simp [ssaDest, iFADD, iFSUB, iFMUL, iFDIV, iADD,
                       iSUB, iMUL, iDIV, isTCodeTemporal_mkTemp])
                     (by omega),
                   mkTemp_ne_empty _⟩)
          · cases op <;>
              first
              | exact absurd hop (by decide)
              | (simp [genExpr, hF, hW1, hW2, newTEMP, mkTemp_def,
                   -List.append_assoc];
                 exact ⟨by omega,
                   tempRange_snoc_fresh
                     (tempRange_snoc_fresh
                       (tempRange_snoc_fresh hc0
                         (by simp [ssaDest, iFLOAT, isTCodeTemporal_mkTemp])
                         (by omega))
                       (by simp [ssaDest, iFLOAT, isTCodeTemporal_mkTemp])
                       (by omega))
                     (by simp [ssaDest, iFADD, iFSUB, iFMUL, iFDIV, iADD,
                       iSUB, iMUL, iDIV, isTCodeTemporal_mkTemp])
                     (by omega),
                   mkTemp_ne_empty _⟩)
      · cases op <;>
          first
          | exact absurd hop (by decide)
          | (simp [genExpr, hF, newTEMP, mkTemp_def, -List.append_assoc];
             exact ⟨by omega,
               tempRange_snoc_fresh hc0
                 (by simp [ssaDest, iFADD, iFSUB, iFMUL, iFDIV, iADD,
                   iSUB, iMUL, iDIV, isTCodeTemporal_mkTemp])
                 (by omega),
               mkTemp_ne_empty _⟩)
  | Expr.logicE op e1 e2, c, h => by
      simp only [cleanExpr, Bool.and_eq_true] at h
      have ih1 := genExpr_fresh G e1 c h.1
      have ih2 := genExpr_fresh G e2 ((genExpr G e1 c).2) h.2
      have hc0 : TempRange c.temps ((genExpr G e2 (genExpr G e1 c).2).2).temps
          ((genExpr G e1 c).1.code ++ (genExpr G e2 (genExpr G e1 c).2).1.code) :=
        tempRange_append ih1.2.1 ih2.2.1 ih1.1 ih2.1
      by_cases hA : op == LogicOp.lAND
      · simp only [genExpr, hA, if_true, newTEMP, mkTemp_def]
        refine ⟨by omega, ?_, mkTemp_ne_empty _⟩
        refine tempRange_snoc_fresh hc0 ?_ (by omega)
        simp [ssaDest, iAND, isTCodeTemporal_mkTemp]
      · simp only [genExpr, hA, if_false, newTEMP, mkTemp_def]
        refine ⟨by omega, ?_, mkTemp_ne_empty _⟩
        refine tempRange_snoc_fresh hc0 ?_ (by omega)
        simp [ssaDest, iOR, isTCodeTemporal_mkTemp]
  | Expr.rel op e1 e2, c, h => by
      simp only [cleanExpr, Bool.and_eq_true] at h
      obtain ⟨ih1a, ih1b, ih1c⟩ := genExpr_fresh G e1 c h.1
      obtain ⟨ih2a, ih2b, ih2c⟩ :=
        genExpr_fresh G e2 ((genExpr G e1 c).2) h.2
      have hc0 : TempRange c.temps
          ((genExpr G e2 (genExpr G e1 c).2).2).temps
          ((genExpr G e1 c).1.code ++
            (genExpr G e2 (genExpr G e1 c).2).1.code) :=
        tempRange_append ih1b ih2b ih1a ih2a
      by_cases hW1 : isFloatTy (decorTy G e1) = true
      · by_cases hW2 : isFloatTy (decorTy G e2) = true
        · cases op <;>
            (simp [genExpr, hW1, hW2, newTEMP, mkTemp_def, -List.append_assoc];
             first
             | exact ⟨by omega,
                   tempRange_append hc0
                     (@tempRange_single ((genExpr G e2 (genExpr G e1 c).2).2).temps (((genExpr G e2 (genExpr G e1 c).2).2).temps + 1 + 1) (((genExpr G e2 (genExpr G e1 c).2).2).temps + 1) _
                       (by simp [ssaDest, iEQ, iLE, iLT, iFEQ, iFLE, iFLT,
                         isTCodeTemporal_mkTemp])
                       (by omega) (by omega))
                     (by omega) (by omega),
                   mkTemp_ne_empty _⟩
             | exact ⟨by omega,
                   tempRange_append hc0
                     (tempRange_append_swap
                       (@tempRange_single (((genExpr G e2 (genExpr G e1 c).2).2).temps + 1) (((genExpr G e2 (genExpr G e1 c).2).2).temps + 1 + 1)
                         (((genExpr G e2 (genExpr G e1 c).2).2).temps + 1 + 1) _
                         (by simp [ssaDest, iEQ, iLE, iLT, iFEQ, iFLE, iFLT,
                           isTCodeTemporal_mkTemp])
                         (by omega) (by omega))
                       (@tempRange_single ((genExpr G e2 (genExpr G e1 c).2).2).temps (((genExpr G e2 (genExpr G e1 c).2).2).temps + 1) (((genExpr G e2 (genExpr G e1 c).2).2).temps + 1) _
                         (by simp [ssaDest, iNOT, isTCodeTemporal_mkTemp])
                         (by omega) (by omega))
                       (by omega) (by omega))
                     (by omega) (by omega),
                   mkTemp_ne_empty _⟩)
        · cases op <;>
            (simp [genExpr, hW1, hW2, newTEMP, mkTemp_def, -List.append_assoc];
             first
             | exact ⟨by omega,
                   tempRange_sandwich hc0
                     (@tempRange_single (((genExpr G e2 (genExpr G e1 c).2).2).temps + 1 + 1) (((genExpr G e2 (genExpr G e1 c).2).2).temps + 1 + 1 + 1)
                       (((genExpr G e2 (genExpr G e1 c).2).2).temps + 1 + 1 + 1) _
                       (by simp [ssaDest, iFLOAT, isTCodeTemporal_mkTemp])
                       (by omega) (le_refl _))
                     (@tempRange_single ((genExpr G e2 (genExpr G e1 c).2).2).temps (((genExpr G e2 (genExpr G e1 c).2).2).temps + 1 + 1) (((genExpr G e2 (genExpr G e1 c).2).2).temps + 1) _
                       (by simp [ssaDest, iFEQ, iFLE, iFLT,
                         isTCodeTemporal_mkTemp])
                       (by omega) (by omega))
                     (by omega) (by omega) (by omega),
                   mkTemp_ne_empty _⟩
             | exact ⟨by omega,
                   tempRange_sandwich hc0
                     (@tempRange_single (((genExpr G e2 (genExpr G e1 c).2).2).temps + 1 + 1) (((genExpr G e2 (genExpr G e1 c).2).2).temps + 1 + 1 + 1)
                       (((genExpr G e2 (genExpr G e1 c).2).2).temps + 1 + 1 + 1) _
                       (by simp [ssaDest, iFLOAT, isTCodeTemporal_mkTemp])
                       (by omega) (le_refl _))
                     (tempRange_append_swap
                       (@tempRange_single (((genExpr G e2 (genExpr G e1 c).2).2).temps + 1) (((genExpr G e2 (genExpr G e1 c).2).2).temps + 1 + 1)
                         (((genExpr G e2 (genExpr G e1 c).2).2).temps + 1 + 1) _
                         (by simp [ssaDest, iEQ, iLE, iLT, iFEQ, iFLE, iFLT,
                           isTCodeTemporal_mkTemp])
                         (by omega) (by omega))
                       (@tempRange_single ((genExpr G e2 (genExpr G e1 c).2).2).temps (((genExpr G e2 (genExpr G e1 c).2).2).temps + 1) (((genExpr G e2 (genExpr G e1 c).2).2).temps + 1) _
                         (by simp [ssaDest, iNOT, isTCodeTemporal_mkTemp])
                         (by omega) (by omega))
                       (by omega) (by omega))
                     (by omega) (by omega) (by omega),
                   mkTemp_ne_empty _⟩)
      · by_cases hW2 : isFloatTy (decorTy G e2) = true
        · cases op <;>
            (simp [genExpr, hW1, hW2, newTEMP, mkTemp_def, -List.append_assoc];
             first
             | exact ⟨by omega,
                   tempRange_sandwich hc0
                     (@tempRange_single (((genExpr G e2 (genExpr G e1 c).2).2).temps + 1 + 1) (((genExpr G e2 (genExpr G e1 c).2).2).temps + 1 + 1 + 1)
                       (((genExpr G e2 (genExpr G e1 c).2).2).temps + 1 + 1 + 1) _
                       (by simp [ssaDest, iFLOAT, isTCodeTemporal_mkTemp])
                       (by omega) (le_refl _))
                     (@tempRange_single ((genExpr G e2 (genExpr G e1 c).2).2).temps (((genExpr G e2 (genExpr G e1 c).2).2).temps + 1 + 1) (((genExpr G e2 (genExpr G e1 c).2).2).temps + 1) _
                       (by simp [ssaDest, iFEQ, iFLE, iFLT,
                         isTCodeTemporal_mkTemp])
                       (by omega) (by omega))
                     (by omega) (by omega) (by omega),
                   mkTemp_ne_empty _⟩
             | exact ⟨by omega,
                   tempRange_sandwich hc0
                     (@tempRange_single (((genExpr G e2 (genExpr G e1 c).2).2).temps + 1 + 1) (((genExpr G e2 (genExpr G e1 c).2).2).temps + 1 + 1 + 1)
                       (((genExpr G e2 (genExpr G e1 c).2).2).temps + 1 + 1 + 1) _
                       (by simp [ssaDest, iFLOAT, isTCodeTemporal_mkTemp])
                       (by omega) (le_refl _))
                     (tempRange_append_swap
                       (@tempRange_single (((genExpr G e2 (genExpr G e1 c).2).2).temps + 1) (((genExpr G e2 (genExpr G e1 c).2).2).temps + 1 + 1)
                         (((genExpr G e2 (genExpr G e1 c).2).2).temps + 1 + 1) _
                         (by simp [ssaDest, iEQ, iLE, iLT, iFEQ, iFLE, iFLT,
                           isTCodeTemporal_mkTemp])
                         (by omega) (by omega))
                       (@tempRange_single ((genExpr G e2 (genExpr G e1 c).2).2).temps (((genExpr G e2 (genExpr G e1 c).2).2).temps + 1) (((genExpr G e2 (genExpr G e1 c).2).2).temps + 1) _
                         (by simp [ssaDest, iNOT, isTCodeTemporal_mkTemp])
                         (by omega) (by omega))
                       (by omega) (by omega))
                     (by omega) (by omega) (by omega),
                   mkTemp_ne_empty _⟩)
        · cases op <;>
            (simp [genExpr, hW1, hW2, newTEMP, mkTemp_def, -List.append_assoc];
             first
             | exact ⟨by omega,
                   tempRange_append hc0
                     (@tempRange_single ((genExpr G e2 (genExpr G e1 c).2).2).temps (((genExpr G e2 (genExpr G e1 c).2).2).temps + 1 + 1) (((genExpr G e2 (genExpr G e1 c).2).2).temps + 1) _
                       (by simp [ssaDest, iEQ, iLE, iLT, iFEQ, iFLE, iFLT,
                         isTCodeTemporal_mkTemp])
                       (by omega) (by omega))
                     (by omega) (by omega),
                   mkTemp_ne_empty _⟩
             | exact ⟨by omega,
                   tempRange_append hc0
                     (tempRange_append_swap
                       (@tempRange_single (((genExpr G e2 (genExpr G e1 c).2).2).temps + 1) (((genExpr G e2 (genExpr G e1 c).2).2).temps + 1 + 1)
                         (((genExpr G e2 (genExpr G e1 c).2).2).temps + 1 + 1) _
                         (by simp [ssaDest, iEQ, iLE, iLT, iFEQ, iFLE, iFLT,
                           isTCodeTemporal_mkTemp])
                         (by omega) (by omega))
                       (@tempRange_single ((genExpr G e2 (genExpr G e1 c).2).2).temps (((genExpr G e2 (genExpr G e1 c).2).2).temps + 1) (((genExpr G e2 (genExpr G e1 c).2).2).temps + 1) _
                         (by simp [ssaDest, iNOT, isTCodeTemporal_mkTemp])
                         (by omega) (by omega))
                       (by omega) (by omega))
                     (by omega) (by omega),
                   mkTemp_ne_empty _⟩)
  | Expr.callE f args, c, h => by
      simp only [cleanExpr, Bool.and_eq_true] at h
      obtain ⟨ra, rb⟩ := genCallArgs_fresh G
        (getFuncParamsTypes (identDecorTy G f)) 0 args
        (Counters.mk (c.temps + 1) c.ifs c.whiles) h.2
      simp [genExpr, newTEMP, mkTemp_def, -List.append_assoc]
      have ra2 : c.temps + 1 ≤
          ((genCallArgs G (getFuncParamsTypes (identDecorTy G f)) 0 args
            (Counters.mk (c.temps + 1) c.ifs c.whiles)).2).temps := ra
      have hA : TempRange (c.temps + 1) ((genCallArgs G (getFuncParamsTypes (identDecorTy G f)) 0 args (Counters.mk (c.temps + 1) c.ifs c.whiles)).2).temps
          ((genCallArgs G (getFuncParamsTypes (identDecorTy G f)) 0 args (Counters.mk (c.temps + 1) c.ifs c.whiles)).1 ++ [iCALL f]) :=
        tempRange_snoc_none rb
          (by simp [ssaDest, iCALL, identOk_not_temporal f h.1])
      have hB : TempRange (c.temps + 1) ((genCallArgs G (getFuncParamsTypes (identDecorTy G f)) 0 args (Counters.mk (c.temps + 1) c.ifs c.whiles)).2).temps
          (((genCallArgs G (getFuncParamsTypes (identDecorTy G f)) 0 args (Counters.mk (c.temps + 1) c.ifs c.whiles)).1 ++ [iCALL f]) ++
            List.replicate (exprListLength args) iPOP0) :=
        tempRange_append_nodest hA
          (ssaDests_replicate_pop0 (exprListLength args))
      have hC : TempRange c.temps ((genCallArgs G (getFuncParamsTypes (identDecorTy G f)) 0 args (Counters.mk (c.temps + 1) c.ifs c.whiles)).2).temps
          ((((genCallArgs G (getFuncParamsTypes (identDecorTy G f)) 0 args (Counters.mk (c.temps + 1) c.ifs c.whiles)).1 ++ [iCALL f]) ++
            List.replicate (exprListLength args) iPOP0) ++
           [iPOP (mkTemp (c.temps + 1))]) :=
        tempRange_append_swap hB
          (@tempRange_single c.temps (c.temps + 1) (c.temps + 1) _
            (by simp [ssaDest, iPOP, isTCodeTemporal_mkTemp])
            (by omega) (le_refl _))
          (by omega) (by omega)
      have hD : TempRange c.temps ((genCallArgs G (getFuncParamsTypes (identDecorTy G f)) 0 args (Counters.mk (c.temps + 1) c.ifs c.whiles)).2).temps
          (iPUSH0 ::
           ((((genCallArgs G (getFuncParamsTypes (identDecorTy G f)) 0 args (Counters.mk (c.temps + 1) c.ifs c.whiles)).1 ++ [iCALL f]) ++
             List.replicate (exprListLength args) iPOP0) ++
            [iPOP (mkTemp (c.temps + 1))])) :=
        tempRange_cons_none hC ssaDest_iPUSH0
      exact ⟨by omega, hD, mkTemp_ne_empty _⟩

theorem genCallArgs_fresh (G : SymEnv) :
    ∀ (tps : List Ty) (i : Nat) (args : ExprList) (c : Counters),
      cleanArgs args = true →
      c.temps ≤ ((genCallArgs G tps i args c).2).temps ∧
      TempRange c.temps ((genCallArgs G tps i args c).2).temps
        ((genCallArgs G tps i args c).1)
  | tps, i, ExprList.nil, c, h => by
      simp only [genCallArgs]
      exact ⟨le_refl _, tempRange_nil _ _⟩
  | tps, i, ExprList.cons e es, c, h => by
      simp only [cleanArgs, Bool.and_eq_true] at h
      obtain ⟨ea, eb, ec⟩ := genExpr_fresh G e c h.1
      by_cases hS1a : isFloatTy (tps[i]?.getD Ty.tError) = true
      · by_cases hS1b : isIntegerTy (decorTy G e) = true
        · obtain ⟨ra, rb⟩ := genCallArgs_fresh G tps (i + 1) es
            (Counters.mk (((genExpr G e c).2).temps + 1) ((genExpr G e c).2).ifs
              ((genExpr G e c).2).whiles) h.2
          simp [genCallArgs, callArgStep, hS1a, hS1b, newTEMP, mkTemp_def,
            -List.append_assoc]
          have h1 : TempRange c.temps (((genExpr G e c).2).temps + 1)
              ((genExpr G e c).1.code ++
               [iFLOAT (mkTemp (((genExpr G e c).2).temps + 1)) (genExpr G e c).1.addr]) :=
            tempRange_snoc_fresh eb
              (by simp [ssaDest, iFLOAT, isTCodeTemporal_mkTemp]) ea
          have h2 := tempRange_snoc_none h1
            (ssaDest_iPUSH (mkTemp (((genExpr G e c).2).temps + 1)))
          have ra2 : ((genExpr G e c).2).temps + 1 ≤
              ((genCallArgs G tps (i + 1) es
                (Counters.mk (((genExpr G e c).2).temps + 1)
                  ((genExpr G e c).2).ifs ((genExpr G e c).2).whiles)).2).temps := ra
          exact ⟨by omega, tempRange_append h2 rb (by omega) ra2⟩
        · by_cases hS2a : isArrayTy (decorTy G e) = true
          · by_cases hS2b : isParameterClass G (genExpr G e c).1.addr = false
            · obtain ⟨ra, rb⟩ := genCallArgs_fresh G tps (i + 1) es
                (Counters.mk (((genExpr G e c).2).temps + 1) ((genExpr G e c).2).ifs
                  ((genExpr G e c).2).whiles) h.2
              simp [genCallArgs, callArgStep, hS1a, hS1b, hS2a, hS2b, newTEMP, mkTemp_def,
                -List.append_assoc]
              have h1 : TempRange c.temps (((genExpr G e c).2).temps + 1)
                  ((genExpr G e c).1.code ++
                   [iALOAD (mkTemp (((genExpr G e c).2).temps + 1)) (genExpr G e c).1.addr]) :=
                tempRange_snoc_fresh eb
                  (by simp [ssaDest, iALOAD, isTCodeTemporal_mkTemp]) ea
              have h2 := tempRange_snoc_none h1
                (ssaDest_iPUSH (mkTemp (((genExpr G e c).2).temps + 1)))
              have ra2 : ((genExpr G e c).2).temps + 1 ≤
                  ((genCallArgs G tps (i + 1) es
                    (Counters.mk (((genExpr G e c).2).temps + 1)
                      ((genExpr G e c).2).ifs ((genExpr G e c).2).whiles)).2).temps := ra
              exact ⟨by omega, tempRange_append h2 rb (by omega) ra2⟩
            · obtain ⟨ra, rb⟩ := genCallArgs_fresh G tps (i + 1) es
                ((genExpr G e c).2) h.2
              simp [genCallArgs, callArgStep, hS1a, hS1b, hS2a, hS2b, -List.append_assoc]
              have h2 := tempRange_snoc_none eb
                (ssaDest_iPUSH ((genExpr G e c).1.addr))
              exact ⟨by omega, tempRange_append h2 rb (by omega) ra⟩
          · obtain ⟨ra, rb⟩ := genCallArgs_fresh G tps (i + 1) es
              ((genExpr G e c).2) h.2
            simp [genCallArgs, callArgStep, hS1a, hS1b, hS2a, -List.append_assoc]
            have h2 := tempRange_snoc_none eb
              (ssaDest_iPUSH ((genExpr G e c).1.addr))
            exact ⟨by omega, tempRange_append h2 rb (by omega) ra⟩
      · by_cases hS2a : isArrayTy (decorTy G e) = true
        · by_cases hS2b : isParameterClass G (genExpr G e c).1.addr = false
          · obtain ⟨ra, rb⟩ := genCallArgs_fresh G tps (i + 1) es
              (Counters.mk (((genExpr G e c).2).temps + 1) ((genExpr G e c).2).ifs
                ((genExpr G e c).2).whiles) h.2
            simp [genCallArgs, callArgStep, hS1a, hS2a, hS2b, newTEMP, mkTemp_def,
              -List.append_assoc]
            have h1 : TempRange c.temps (((genExpr G e c).2).temps + 1)
                ((genExpr G e c).1.code ++
                 [iALOAD (mkTemp (((genExpr G e c).2).temps + 1)) (genExpr G e c).1.addr]) :=
              tempRange_snoc_fresh eb
                (by simp [ssaDest, iALOAD, isTCodeTemporal_mkTemp]) ea
            have h2 := tempRange_snoc_none h1
              (ssaDest_iPUSH (mkTemp (((genExpr G e c).2).temps + 1)))
            have ra2 : ((genExpr G e c).2).temps + 1 ≤
                ((genCallArgs G tps (i + 1) es
                  (Counters.mk (((genExpr G e c).2).temps + 1)
                    ((genExpr G e c).2).ifs ((genExpr G e c).2).whiles)).2).temps := ra
            exact ⟨by omega, tempRange_append h2 rb (by omega) ra2⟩
          · obtain ⟨ra, rb⟩ := genCallArgs_fresh G tps (i + 1) es
              ((genExpr G e c).2) h.2
            simp [genCallArgs, callArgStep, hS1a, hS2a, hS2b, -List.append_assoc]
            have h2 := tempRange_snoc_none eb
              (ssaDest_iPUSH ((genExpr G e c).1.addr))
            exact ⟨by omega, tempRange_append h2 rb (by omega) ra⟩
        · obtain ⟨ra, rb⟩ := genCallArgs_fresh G tps (i + 1) es
            ((genExpr G e c).2) h.2
          simp [genCallArgs, callArgStep, hS1a, hS2a, -List.append_assoc]
          have h2 := tempRange_snoc_none eb
            (ssaDest_iPUSH ((genExpr G e c).1.addr))
          exact ⟨by omega, tempRange_append h2 rb (by omega) ra⟩
end

theorem ssaDest_iRETURN0 : ssaDest iRETURN0 = none := rfl

theorem ssaDest_result_load (a : String) :
    ssaDest (iLOAD "_result" a) = none := rfl

mutual

theorem genStmt_fresh (G : SymEnv) :
    ∀ (s : Stmt) (c : Counters), cleanStmt G s = true →
      c.temps ≤ ((genStmt G s c).2).temps ∧
      TempRange c.temps ((genStmt G s c).2).temps ((genStmt G s c).1)
  | Stmt.assign l e, c, h => by
      simp only [cleanStmt, Bool.and_eq_true] at h
      obtain ⟨⟨hl, he⟩, harr⟩ := h
      rw [Bool.not_eq_true'] at harr
      have hAr : ¬(isArrayTy (decorLTy G l) = true ∧
          isArrayTy (decorTy G e) = true) := by
        intro hx
        rw [hx.1, hx.2] at harr
        exact absurd harr (by decide)
      cases l with
      | simpleId id =>
          obtain ⟨ea, eb, ec⟩ := genExpr_fresh G e c he
          have hid : identOk id = true := by simpa [cleanLExpr] using hl
          by_cases hWa : isFloatTy (decorLTy G (LExpr.simpleId id)) = true
          · by_cases hWb : isIntegerTy (decorTy G e) = true
            · simp [genStmt, genLExpr, hAr, hWa, hWb, newTEMP, mkTemp_def,
                -List.append_assoc]
              refine ⟨by omega, ?_⟩
              refine tempRange_snoc_none (tempRange_snoc_fresh eb ?_ ea) ?_
              · simp [ssaDest, iFLOAT, isTCodeTemporal_mkTemp]
              · simp [ssaDest, iLOAD, identOk_not_temporal id hid]
            · simp [genStmt, genLExpr, hAr, hWa, hWb, -List.append_assoc]
              refine ⟨ea, ?_⟩
              refine tempRange_snoc_none eb ?_
              simp [ssaDest, iLOAD, identOk_not_temporal id hid]
          · simp [genStmt, genLExpr, hAr, hWa, -List.append_assoc]
            refine ⟨ea, ?_⟩
            refine tempRange_snoc_none eb ?_
            simp [ssaDest, iLOAD, identOk_not_temporal id hid]
      | arrayId id idx =>
          simp only [cleanLExpr, Bool.and_eq_true] at hl
          obtain ⟨ia, ib, ic⟩ := genExpr_fresh G idx c hl.2
          by_cases hP : isParameterClass G id = true
          · obtain ⟨ea, eb, ec⟩ := genExpr_fresh G e
              (Counters.mk (((genExpr G idx c).2).temps + 1) ((genExpr G idx c).2).ifs
                ((genExpr G idx c).2).whiles) he
            have ea2 : ((genExpr G idx c).2).temps + 1 ≤ ((genExpr G e
                (Counters.mk (((genExpr G idx c).2).temps + 1) ((genExpr G idx c).2).ifs
                  ((genExpr G idx c).2).whiles)).2).temps := ea
            by_cases hWa : isFloatTy (decorLTy G (LExpr.arrayId id idx)) = true
            · by_cases hWb : isIntegerTy (decorTy G e) = true
              · simp [genStmt, genLExpr, hAr, hP, hWa, hWb, newTEMP,
                  mkTemp_def, bne_iff_ne, ic, -List.append_assoc]
                refine ⟨by omega, ?_⟩
                refine tempRange_snoc_none
                  (tempRange_snoc_fresh
                    (tempRange_append (tempRange_snoc_fresh ib ?_ ia) eb
                      (by omega) ea2) ?_ (by omega)) ?_
                · simp [ssaDest, iLOAD, isTCodeTemporal_mkTemp]
                · simp [ssaDest, iFLOAT, isTCodeTemporal_mkTemp]
                · rfl
              · simp [genStmt, genLExpr, hAr, hP, hWa, hWb, newTEMP,
                  mkTemp_def, bne_iff_ne, ic, -List.append_assoc]
                refine ⟨by omega, ?_⟩
                refine tempRange_snoc_none
                  (tempRange_append (tempRange_snoc_fresh ib ?_ ia) eb
                    (by omega) ea2) ?_
                · simp [ssaDest, iLOAD, isTCodeTemporal_mkTemp]
                · rfl
            · simp [genStmt, genLExpr, hAr, hP, hWa, newTEMP,
                mkTemp_def, bne_iff_ne, ic, -List.append_assoc]
              refine ⟨by omega, ?_⟩
              refine tempRange_snoc_none
                (tempRange_append (tempRange_snoc_fresh ib ?_ ia) eb
                  (by omega) ea2) ?_
              · simp [ssaDest, iLOAD, isTCodeTemporal_mkTemp]
              · rfl
          · obtain ⟨ea, eb, ec⟩ := genExpr_fresh G e ((genExpr G idx c).2) he
            by_cases hWa : isFloatTy (decorLTy G (LExpr.arrayId id idx)) = true
            · by_cases hWb : isIntegerTy (decorTy G e) = true
              · simp [genStmt, genLExpr, hAr, hP, hWa, hWb, newTEMP,
                  mkTemp_def, bne_iff_ne, ic, -List.append_assoc]
                refine ⟨by omega, ?_⟩
                refine tempRange_snoc_none
                  (tempRange_snoc_fresh (tempRange_append ib eb ia ea) ?_
                    (by omega)) ?_
                · simp [ssaDest, iFLOAT, isTCodeTemporal_mkTemp]
                · rfl
              · simp [genStmt, genLExpr, hAr, hP, hWa, hWb, bne_iff_ne, ic,
                  -List.append_assoc]
                refine ⟨by omega, ?_⟩
                refine tempRange_snoc_none (tempRange_append ib eb ia ea) ?_
                rfl
            · simp [genStmt, genLExpr, hAr, hP, hWa, bne_iff_ne, ic,
                -List.append_assoc]
              refine ⟨by omega, ?_⟩
              refine tempRange_snoc_none (tempRange_append ib eb ia ea) ?_
              rfl
  | Stmt.ifS cnd thn none, c, h => by
      simp only [cleanStmt, Bool.and_eq_true] at h
      obtain ⟨⟨h1, h2⟩, h3⟩ := h
      obtain ⟨ca, cb, cc⟩ := genExpr_fresh G cnd c h1
      obtain ⟨ta, tb⟩ := genStmtList_fresh G thn ((genExpr G cnd c).2) h2
      simp [genStmt, newLabelIF, -List.append_assoc]
      refine ⟨by omega, ?_⟩
      refine tempRange_snoc_none
        (tempRange_append (tempRange_snoc_none cb ?_) tb ca ta) ?_
      · rfl
      · rfl
  | Stmt.ifS cnd thn (some ss), c, h => by
      simp only [cleanStmt, Bool.and_eq_true] at h
      obtain ⟨⟨h1, h2⟩, h3⟩ := h
      obtain ⟨ca, cb, cc⟩ := genExpr_fresh G cnd c h1
      obtain ⟨ta, tb⟩ := genStmtList_fresh G thn ((genExpr G cnd c).2) h2
      obtain ⟨ea, eb⟩ := genStmtList_fresh G ss
        ((genStmtList G thn (genExpr G cnd c).2).2) h3
      simp [genStmt, newLabelIF, -List.append_assoc]
      refine ⟨by omega, ?_⟩
      refine tempRange_snoc_none
        (tempRange_append
          (tempRange_append_nodest
            (tempRange_append (tempRange_snoc_none cb ?_) tb ca ta) ?_)
          eb (by omega) ea) ?_
      · rfl
      · rfl
      · rfl
  | Stmt.whileS cnd body, c, h => by
      simp only [cleanStmt, Bool.and_eq_true] at h
      obtain ⟨ca, cb, cc⟩ := genExpr_fresh G cnd c h.1
      obtain ⟨ba, bb⟩ := genStmtList_fresh G body ((genExpr G cnd c).2) h.2
      simp [genStmt, newLabelWHILE, -List.append_assoc]
      have h1 : TempRange c.temps ((genExpr G cnd c).2).temps
          (iLABEL ("While" ++ Nat.repr
              (((genStmtList G body (genExpr G cnd c).2).2).whiles + 1)) ::
            (genExpr G cnd c).1.code) :=
        tempRange_cons_none cb (by simp [ssaDest, iLABEL])
      have h2 := tempRange_snoc_none h1
        (by simp [ssaDest, iFJUMP] :
          ssaDest (iFJUMP ((genExpr G cnd c).1).addr
            ("EndWhile" ++ Nat.repr
              (((genStmtList G body (genExpr G cnd c).2).2).whiles + 1)))
            = none)
      have h3 := tempRange_append h2 bb ca ba
      have h4 := tempRange_append_nodest h3
        (by simp [ssaDests, ssaDest, iUJUMP, iLABEL] :
          ssaDests [iUJUMP ("While" ++ Nat.repr
              (((genStmtList G body (genExpr G cnd c).2).2).whiles + 1)),
            iLABEL ("EndWhile" ++ Nat.repr
              (((genStmtList G body (genExpr G cnd c).2).2).whiles + 1))]
            = [])
      exact ⟨by omega, h4⟩
  | Stmt.procCall f args, c, h => by
      simp only [cleanStmt, Bool.and_eq_true] at h
      obtain ⟨ra, rb⟩ := genCallArgs_fresh G
        (getFuncParamsTypes (identDecorTy G f)) 0 args c h.2
      by_cases hV : isVoidFunction (identDecorTy G f) = true
      · simp [genStmt, hV, -List.append_assoc]
        have hcall : ssaDest (iCALL f) = none := by
          simp [ssaDest, iCALL, identOk_not_temporal f h.1]
        have h1 := tempRange_snoc_none rb hcall
        have h2 := tempRange_append_nodest h1
          (ssaDests_replicate_pop0 (exprListLength args))
        exact ⟨ra, by simpa using h2⟩
      · simp [genStmt, hV, -List.append_assoc]
        have h0 : TempRange c.temps
            ((genCallArgs G (getFuncParamsTypes (identDecorTy G f)) 0 args
              c).2).temps
            (iPUSH0 :: (genCallArgs G
              (getFuncParamsTypes (identDecorTy G f)) 0 args c).1) :=
          tempRange_cons_none rb ssaDest_iPUSH0
        have hcall : ssaDest (iCALL f) = none := by
          simp [ssaDest, iCALL, identOk_not_temporal f h.1]
        have h1 := tempRange_snoc_none h0 hcall
        have h2 := tempRange_append_nodest h1
          (ssaDests_replicate_pop0 (exprListLength args))
        have h3 := tempRange_append_nodest h2
          (by simp [ssaDests, ssaDest_iPOP0] :
            ssaDests [iPOP0] = [])
        exact ⟨ra, by simpa using h3⟩
  | Stmt.readS l, c, h => by
      simp only [cleanStmt] at h
      cases l with
      | simpleId id =>
          have hid : identOk id = true := by simpa [cleanLExpr] using h
          simp [genStmt, genLExpr, -List.append_assoc]
          refine tempRange_single_none ?_
          split
          · simp [ssaDest, iREADI, identOk_not_temporal id hid]
          · split
            · simp [ssaDest, iREADF, identOk_not_temporal id hid]
            · simp [ssaDest, iREADC, identOk_not_temporal id hid]
      | arrayId id idx =>
          simp only [cleanLExpr, Bool.and_eq_true] at h
          obtain ⟨ia, ib, ic⟩ := genExpr_fresh G idx c h.2
          by_cases hP : isParameterClass G id = true
          · simp [genStmt, genLExpr, hP, newTEMP, mkTemp_def, bne_iff_ne,
              ic, -List.append_assoc]
            refine ⟨by omega, ?_⟩
            refine tempRange_append (tempRange_snoc_fresh ib ?_ ia)
              (tempRange_append
                (@tempRange_single (((genExpr G idx c).2).temps + 1) (((genExpr G idx c).2).temps + 1 + 1) (((genExpr G idx c).2).temps + 1 + 1) _
                  ?_ (by omega) (le_refl _))
                (tempRange_single_none ?_) (by omega) (le_refl _))
              (by omega) (by omega)
            · simp [ssaDest, iLOAD, isTCodeTemporal_mkTemp]
            · split
              · simp [ssaDest, iREADI, isTCodeTemporal_mkTemp]
              · split
                · simp [ssaDest, iREADF, isTCodeTemporal_mkTemp]
                · simp [ssaDest, iREADC, isTCodeTemporal_mkTemp]
            · rfl
          · simp [genStmt, genLExpr, hP, newTEMP, mkTemp_def, bne_iff_ne,
              ic, -List.append_assoc]
            refine ⟨by omega, ?_⟩
            refine tempRange_append ib
              (tempRange_append
                (@tempRange_single (((genExpr G idx c).2).temps) (((genExpr G idx c).2).temps + 1) (((genExpr G idx c).2).temps + 1) _
                  ?_ (by omega) (le_refl _))
                (tempRange_single_none ?_) (by omega) (le_refl _))
              ia (by omega)
            · split
              · simp [ssaDest, iREADI, isTCodeTemporal_mkTemp]
              · split
                · simp [ssaDest, iREADF, isTCodeTemporal_mkTemp]
                · simp [ssaDest, iREADC, isTCodeTemporal_mkTemp]
            · rfl
  | Stmt.writeE e, c, h => by
      simp only [cleanStmt] at h
      obtain ⟨ea, eb, ec⟩ := genExpr_fresh G e c h
      simp only [genStmt]
      have hw : ssaDests
          (if (isIntegerTy (decorTy G e) || isBooleanTy (decorTy G e)) = true
           then [iWRITEI ((genExpr G e c).1).addr]
           else if isFloatTy (decorTy G e) = true
           then [iWRITEF ((genExpr G e c).1).addr]
           else if isCharacterTy (decorTy G e) = true
           then [iWRITEC ((genExpr G e c).1).addr]
           else []) = [] := by
        split
        · simp [ssaDests, ssaDest, iWRITEI]
        · split
          · simp [ssaDests, ssaDest, iWRITEF]
          · split
            · simp [ssaDests, ssaDest, iWRITEC]
            · simp [ssaDests]
      exact ⟨ea, tempRange_append_nodest eb hw⟩
  | Stmt.writeStr s, c, h => by
      simp only [genStmt]
      exact ⟨le_refl _, tempRange_single_none (by simp [ssaDest, iWRITES])⟩
  | Stmt.retS none, c, h => by
      simp only [genStmt]
      exact ⟨le_refl _, tempRange_single_none ssaDest_iRETURN0⟩
  | Stmt.retS (some e), c, h => by
      simp only [cleanStmt] at h
      obtain ⟨ea, eb, ec⟩ := genExpr_fresh G e c h
      simp only [genStmt]
      have hw : ssaDests [iLOAD "_result" ((genExpr G e c).1).addr,
          iRETURN0] = [] := by
        simp [ssaDests, ssaDest_result_load, ssaDest_iRETURN0]
      exact ⟨ea, tempRange_append_nodest eb hw⟩

theorem genStmtList_fresh (G : SymEnv) :
    ∀ (ss : StmtList) (c : Counters), cleanStmts G ss = true →
      c.temps ≤ ((genStmtList G ss c).2).temps ∧
      TempRange c.temps ((genStmtList G ss c).2).temps
        ((genStmtList G ss c).1)
  | StmtList.nil, c, h => by
      simp only [genStmtList]
      exact ⟨le_refl _, tempRange_nil _ _⟩
  | StmtList.cons s ss, c, h => by
      simp only [cleanStmts, Bool.and_eq_true] at h
      obtain ⟨sa, sb⟩ := genStmt_fresh G s c h.1
      obtain ⟨la, lb⟩ := genStmtList_fresh G ss ((genStmt G s c).2) h.2
      simp only [genStmtList]
      exact ⟨le_trans sa la, tempRange_append sb lb sa la⟩

end

theorem subrHasDupTemp_eq_false (s : Subr)
    (h : (ssaDests s.instrs).Nodup) : subrHasDupTemp s = false := by
  unfold subrHasDupTemp
  rw [List.any_eq_false]
  intro t ht
  have hc := (List.nodup_iff_count_le_one.mp h) t
  simp only [decide_eq_true_eq]
  omega

theorem genFunction_nodupTemps (G : SymEnv) (f : FuncDecl)
    (h : cleanStmts G f.body = true) :
    subrHasDupTemp (genFunction G f) = false := by
  apply subrHasDupTemp_eq_false
  obtain ⟨ba, bb⟩ := genStmtList_fresh G f.body countersReset h
  have h2 := tempRange_snoc_none bb ssaDest_iRETURN0
  simpa [genFunction] using h2.2

/-- C1 (amended): for every accepted source program whose functions
contain no modulus operator and no array-to-array assignment (the two
constructs whose lowering reuses a temporary), every temporary in the
emitted t-code is assigned at most once within its enclosing function:
the lowerer's pseudo-SSA pre-check passes. -/
theorem claim_C1 (fs : List FuncDecl)
    (hacc : acceptedProgram fs)
    (hclean : ∀ f ∈ fs,
      cleanStmts (funcScope (globalScope fs) f) f.body = true) :
    check_SSA_fails (genProgram fs) = false := by
  unfold check_SSA_fails genProgram
  rw [List.any_eq_false]
  intro s hs
  rw [List.mem_map] at hs
  obtain ⟨f, hf, rfl⟩ := hs
  rw [genFunction_nodupTemps _ f (hclean f hf)]
  exact Bool.false_ne_true

/-- A small accepted program with neither modulus nor array copy. -/
def okFun : FuncDecl :=
  FuncDecl.mk "main" [] none [("x", Ty.tInt)]
    (StmtList.cons
      (Stmt.assign (LExpr.simpleId "x")
        (Expr.arith ArithOp.aPLUS (Expr.lit (LitVal.intL 2))
          (Expr.lit (LitVal.intL 3))))
      (StmtList.cons (Stmt.writeE (Expr.identE "x")) StmtList.nil))

theorem claim_C1_witness :
    acceptedProgram [okFun] ∧
    check_SSA_fails (genProgram [okFun]) = false :=
  ⟨by decide, claim_C1 [okFun] (by decide) (by decide)⟩
